import Mathlib

/-!
# Conner AI companion: conversation sessions and their persistence

A shallow embedding of the session model of the chat client:

* `src/utils/storage.js`       : the browser store and the session registry;
* `src/context/AppContext.jsx`  : the reducer, the initial load and the
  write-through effect;
* `src/utils/conner-client.js`  : the call to the backend;
* `src/components/InputBar.jsx` : sending a message;
* `src/components/Header.jsx`   : clearing the chat, logging out;
* `src/App.jsx`                 : the authentication check at start;
* `src/components/Sidebar.jsx`  : rename, delete and switch handlers.

Conventions.  A JavaScript string is a Lean `String`, a sequence of Unicode
characters; `utf16` gives its UTF-16 code units, the positions JavaScript counts
in, and a character outside the basic plane takes two of them.  A JavaScript
string with an unpaired surrogate has no `String` that stands for it.
`null`/`undefined` is `none`.  The browser store is a record with one typed field
per key: the JSON text kept under a key is represented by the value it parses to
(a number of the settings as JSON holds it: `NaN` is written `null`).  The text
that `exportChatHistory` returns is kept as text: `jsonText` writes it and
`jsonParse` reads it, character by character.  `localStorage.setItem` can throw
(quota): the keys for which it throws are listed in the store, so that every
`try/catch` of the source has both of its paths.  The clock is an explicit
argument.
-/

set_option autoImplicit false

namespace Conner

/-! ## JavaScript helpers -/

/-- Truthiness of a possibly absent string: `null`, `undefined` and `""` are falsy. -/
def truthy : Option String → Bool
  | some s => s != ""
  | none => false

/-- The chain `a || b || dflt` over possibly absent strings. -/
def orChain (a b : Option String) (dflt : String) : String :=
  match a with
  | some x => if x != "" then x else
    match b with
    | some y => if y != "" then y else dflt
    | none => dflt
  | none =>
    match b with
    | some y => if y != "" then y else dflt
    | none => dflt

/-- Number of UTF-16 code units of a character: one in the basic plane, two (a
surrogate pair) outside it. -/
def utf16Units (c : Char) : Nat := if c.toNat < 0x10000 then 1 else 2

/-- The UTF-16 code units of a character. -/
def utf16Char (c : Char) : List Nat :=
  if c.toNat < 0x10000 then [c.toNat]
  else [0xD800 + (c.toNat - 0x10000) / 0x400, 0xDC00 + (c.toNat - 0x10000) % 0x400]

/-- The UTF-16 code units of a list of characters. -/
def utf16Chars : List Char → List Nat
  | [] => []
  | c :: cs => utf16Char c ++ utf16Chars cs

/-- The UTF-16 code units of a string: what JavaScript indexes and counts. -/
def utf16 (s : String) : List Nat := utf16Chars s.data

/-- The characters that lie wholly within the first `n` code units. -/
def takeUnits : Nat → List Char → List Char
  | _, [] => []
  | n, c :: cs => if utf16Units c ≤ n then c :: takeUnits (n - utf16Units c) cs else []

/-- Whether code unit `n - 1` and code unit `n` are the two halves of one
surrogate pair, so that a cut after `n` code units falls inside a character. -/
def cutsPair : Nat → List Char → Bool
  | _, [] => false
  | n, c :: cs => if utf16Units c ≤ n then cutsPair (n - utf16Units c) cs else n == 1

/-- `s.slice(0, n)` for `n ≥ 0`: the first `n` UTF-16 code units of `s`.  When the
cut falls inside a surrogate pair (`cutsPair n s.data`), JavaScript keeps the
first half of the pair as the last code unit of the result; no `String` has an
unpaired surrogate, and the result here stops before that character.  Statements
about the cut string carry `cutsPair n s.data = false` where this matters. -/
def slice0 (s : String) (n : Nat) : String := String.mk (takeUnits n s.data)

/-- White space and line terminators of ECMAScript, the characters `trim` strips. -/
def isJsWhitespace (c : Char) : Bool :=
  let n := c.toNat
  n == 0x09 || n == 0x0A || n == 0x0B || n == 0x0C || n == 0x0D || n == 0x20 ||
  n == 0xA0 || n == 0x1680 || (0x2000 ≤ n && n ≤ 0x200A) || n == 0x2028 ||
  n == 0x2029 || n == 0x202F || n == 0x205F || n == 0x3000 || n == 0xFEFF

/-- `String.prototype.trim` on the characters of a string. -/
def trimChars (cs : List Char) : List Char :=
  ((cs.dropWhile isJsWhitespace).reverse.dropWhile isJsWhitespace).reverse

/-- `s.trim()`. -/
def jsTrim (s : String) : String := String.mk (trimChars s.data)

/-- `xs.findIndex(p)`; `none` stands for `-1`. -/
def findIndex {α : Type} (p : α → Bool) : List α → Option Nat
  | [] => none
  | x :: xs => if p x then some 0 else (findIndex p xs).map (· + 1)

/-- `xs.every((x, idx) => p x idx)`, the indices counted from `start`. -/
def everyFrom {α : Type} (p : α → Nat → Bool) : List α → Nat → Bool
  | [], _ => true
  | x :: xs, start => p x start && everyFrom p xs (start + 1)

/-! ## Data model -/

/-- A chat message: `{ role, content, timestamp, isError? }`. -/
structure Message where
  role : String
  content : String
  timestamp : String
  isError : Option Bool := none
deriving DecidableEq, Repr

/-- A value of a message property as JSON prints it. -/
inductive JsonAtom where
  | str (s : String)
  | bool (b : Bool)
deriving DecidableEq, Repr

/-- `JSON.stringify(msg)`, kept as the ordered list of the properties it prints
(an absent `isError` is not printed).  Two JSON texts of this shape are the same
string exactly when these lists are equal. -/
def jsonStringify (m : Message) : List (String × JsonAtom) :=
  [("role", .str m.role), ("content", .str m.content), ("timestamp", .str m.timestamp)] ++
    (match m.isError with
     | some b => [("isError", .bool b)]
     | none => [])

/-- A stored conversation session. -/
structure Session where
  id : String
  title : String
  messages : List Message
  createdAt : String
  updatedAt : String
  messageCount : Nat
deriving DecidableEq, Repr

/-- The argument of `saveConversationSession`; each property may be absent. -/
structure SessionData where
  id : Option String := none
  title : Option String := none
  messages : Option (List Message) := none
  createdAt : Option String := none
deriving DecidableEq, Repr

/-- The stored account. -/
structure UserAccount where
  name : String
  email : String
  password : Option String
  joinedDate : String
deriving DecidableEq, Repr

/-- The value of a number-valued setting in memory.  `parseInt` of the text of a
form field gives an integer, `NaN` (an emptied field: `parseInt("")`) or an
infinity (a numeral too long for a double); `null` is what comes back from the
store where a `NaN` or an infinity was written. -/
inductive NumberValue where
  | num (n : Int)
  | nan
  | posInfinity
  | negInfinity
  | null
deriving DecidableEq, Repr

/-- A numeral is the number it denotes. -/
instance (n : Nat) : OfNat NumberValue n := ⟨.num n⟩

/-- The value of a number-valued setting in JSON text: a numeral or `null`. -/
inductive JsonNumber where
  | num (n : Int)
  | null
deriving DecidableEq, Repr

/-- The session settings with every recognised option present. -/
structure Settings where
  darkMode : Bool
  messageLimit : NumberValue
  contextWindowSize : NumberValue
  aiPersonality : String
  typingSpeed : NumberValue
deriving DecidableEq, Repr

/-- A settings object holding some of the recognised options, as it is passed to
`saveSessionSettings` or spread over another. -/
structure SettingsPatch where
  darkMode : Option Bool := none
  messageLimit : Option NumberValue := none
  contextWindowSize : Option NumberValue := none
  aiPersonality : Option String := none
  typingSpeed : Option NumberValue := none
deriving DecidableEq, Repr

/-- The object that the JSON text kept under the settings key parses to: some of
the recognised options, the numbers as JSON has them. -/
structure StoredSettings where
  darkMode : Option Bool := none
  messageLimit : Option JsonNumber := none
  contextWindowSize : Option JsonNumber := none
  aiPersonality : Option String := none
  typingSpeed : Option JsonNumber := none
deriving DecidableEq, Repr

/-- The keys of `STORAGE_KEYS`. -/
inductive StorageKey where
  | USER_ACCOUNT
  | CHAT_HISTORY
  | CONVERSATION_SESSIONS
  | CURRENT_SESSION
  | CURRENT_USER
  | SESSION_SETTINGS
  | LAST_LOGIN
deriving DecidableEq, Repr

/-- The browser store.  `none` is an absent key.  `failingKeys` lists the keys
for which `setItem` throws. -/
structure LocalStorage where
  userAccount : Option UserAccount := none
  currentUser : Option String := none
  chatHistory : Option (List Message) := none
  conversationSessions : Option (List Session) := none
  currentSession : Option String := none
  sessionSettings : Option StoredSettings := none
  failingKeys : List StorageKey := []
deriving DecidableEq, Repr

/-- One reading of the clock: `Date.now()` and `new Date().toISOString()`. -/
structure Clock where
  now : Nat
  iso : String
deriving DecidableEq, Repr

/-- Whether `localStorage.setItem(k, _)` throws. -/
def setItemThrows (ls : LocalStorage) (k : StorageKey) : Bool := ls.failingKeys.contains k

/-! ## JSON text

`JSON.stringify(value, null, 2)` and `JSON.parse(text)` of the platform, on texts
as lists of characters. -/

/-- A value as JSON text denotes it.  A number is kept as its numeral and an
object as its members in the order of the text. -/
inductive Json where
  | null
  | bool (b : Bool)
  | num (numeral : String)
  | str (s : String)
  | arr (items : List Json)
  | obj (members : List (String × Json))

/-- The property read `value[key]` on a parsed object: the last member with the
key (in `JSON.parse` a later member replaces an earlier one of the same key). -/
def Json.field (key : String) : Json → Option Json
  | .obj members => (members.reverse.find? (fun m => m.1 == key)).map (·.2)
  | _ => none

/-- The elements of a parsed array. -/
def Json.elements : Json → Option (List Json)
  | .arr items => some items
  | _ => none

/-- The lowercase hexadecimal digit of a number below 16. -/
def hexDigit (n : Nat) : Char := Char.ofNat (if n < 10 then 48 + n else 87 + n)

/-- One character of a string as `QuoteJSONString` writes it: `\"` and `\\`, the
short escapes `\b`, `\t`, `\n`, `\f`, `\r`, `\u00XX` for the other characters
below the space, and the character itself otherwise. -/
def quoteChar (c : Char) : List Char :=
  let n := c.toNat
  if n == 0x22 then [Char.ofNat 0x5C, Char.ofNat 0x22]
  else if n == 0x5C then [Char.ofNat 0x5C, Char.ofNat 0x5C]
  else if n == 0x08 then [Char.ofNat 0x5C, 'b']
  else if n == 0x09 then [Char.ofNat 0x5C, 't']
  else if n == 0x0A then [Char.ofNat 0x5C, 'n']
  else if n == 0x0C then [Char.ofNat 0x5C, 'f']
  else if n == 0x0D then [Char.ofNat 0x5C, 'r']
  else if n < 0x20 then [Char.ofNat 0x5C, 'u', '0', '0', hexDigit (n / 16), hexDigit (n % 16)]
  else [c]

/-- The characters of a string as `QuoteJSONString` writes them. -/
def quoteChars : List Char → List Char
  | [] => []
  | c :: cs => quoteChar c ++ quoteChars cs

/-- `QuoteJSONString(s)`: the escaped characters between two double quotes. -/
def quote (s : String) : List Char :=
  Char.ofNat 0x22 :: (quoteChars s.data ++ [Char.ofNat 0x22])

/-- An indentation of `n` spaces. -/
def spaces (n : Nat) : List Char := List.replicate n (Char.ofNat 0x20)

mutual
/-- The text of a value in `JSON.stringify(_, null, 2)`, at the indentation
`ind`: an empty array is `[]` and an empty object `{}`; otherwise each element or
member is on a line of its own, two spaces further in, with `,` between them, and
the closing bracket is on a line of its own at the indentation `ind`. -/
def render (ind : Nat) : Json → List Char
  | .null => "null".data
  | .bool b => if b then "true".data else "false".data
  | .num numeral => numeral.data
  | .str s => quote s
  | .arr [] => [Char.ofNat 0x5B, Char.ofNat 0x5D]
  | .arr (x :: xs) =>
    Char.ofNat 0x5B :: Char.ofNat 0x0A :: (spaces (ind + 2) ++ (renderItems (ind + 2) (x :: xs) ++
      Char.ofNat 0x0A :: (spaces ind ++ [Char.ofNat 0x5D])))
  | .obj [] => [Char.ofNat 0x7B, Char.ofNat 0x7D]
  | .obj (m :: ms) =>
    Char.ofNat 0x7B :: Char.ofNat 0x0A :: (spaces (ind + 2) ++ (renderMembers (ind + 2) (m :: ms) ++
      Char.ofNat 0x0A :: (spaces ind ++ [Char.ofNat 0x7D])))
/-- The elements of an array, separated by a comma, a line feed and the
indentation. -/
def renderItems (ind : Nat) : List Json → List Char
  | [] => []
  | [x] => render ind x
  | x :: y :: xs =>
    render ind x ++ Char.ofNat 0x2C :: Char.ofNat 0x0A :: (spaces ind ++ renderItems ind (y :: xs))
/-- The members of an object, each as its quoted name, a colon, a space and its
value, separated by a comma, a line feed and the indentation. -/
def renderMembers (ind : Nat) : List (String × Json) → List Char
  | [] => []
  | [(k, v)] => quote k ++ Char.ofNat 0x3A :: Char.ofNat 0x20 :: render ind v
  | (k, v) :: m :: ms =>
    quote k ++ Char.ofNat 0x3A :: Char.ofNat 0x20 :: (render ind v ++
      Char.ofNat 0x2C :: Char.ofNat 0x0A :: (spaces ind ++ renderMembers ind (m :: ms)))
end

/-- `JSON.stringify(value, null, 2)`. -/
def jsonText (value : Json) : String := String.mk (render 0 value)

/-- The white space of JSON: space, tab, line feed and carriage return. -/
def isJsonWhitespace (c : Char) : Bool :=
  c.toNat == 0x20 || c.toNat == 0x09 || c.toNat == 0x0A || c.toNat == 0x0D

/-- The text after its leading white space. -/
def skipWhitespace : List Char → List Char
  | [] => []
  | c :: cs => if isJsonWhitespace c then skipWhitespace cs else c :: cs

/-- The value of a hexadecimal digit, in either case. -/
def hexValue (c : Char) : Option Nat :=
  let n := c.toNat
  if 48 ≤ n ∧ n ≤ 57 then some (n - 48)
  else if 97 ≤ n ∧ n ≤ 102 then some (n - 87)
  else if 65 ≤ n ∧ n ≤ 70 then some (n - 55)
  else none

/-- The code unit written by four hexadecimal digits. -/
def hex4 (a b c d : Char) : Option Nat :=
  match hexValue a, hexValue b, hexValue c, hexValue d with
  | some x, some y, some z, some w => some (((x * 16 + y) * 16 + z) * 16 + w)
  | _, _, _, _ => none

/-- The character that a one-letter escape denotes: `"`, `\`, `/`, `b`, `f`,
`n`, `r`, `t`. -/
def unescape (e : Char) : Option Char :=
  let n := e.toNat
  if n == 0x22 then some (Char.ofNat 0x22)
  else if n == 0x5C then some (Char.ofNat 0x5C)
  else if n == 0x2F then some (Char.ofNat 0x2F)
  else if n == 0x62 then some (Char.ofNat 0x08)
  else if n == 0x66 then some (Char.ofNat 0x0C)
  else if n == 0x6E then some (Char.ofNat 0x0A)
  else if n == 0x72 then some (Char.ofNat 0x0D)
  else if n == 0x74 then some (Char.ofNat 0x09)
  else none

/-- Puts a character in front of the characters read after it. -/
def consChar (c : Char) (r : Option (List Char × List Char)) : Option (List Char × List Char) :=
  match r with
  | some (s, rest) => some (c :: s, rest)
  | none => none

/-- The character that an escape sequence denotes and the text after the
sequence, given the text after the backslash.  A `\u` escape of the first half
of a surrogate pair is read together with the `\u` escape of the second half; an
unpaired half denotes no character of a `String`, and such a text is not read. -/
def parseEscape : List Char → Option (Char × List Char)
  | [] => none
  | e :: cs =>
    if e.toNat == 0x75 then
      match cs with
      | a :: b :: c :: d :: cs1 =>
        match hex4 a b c d with
        | none => none
        | some u =>
          if 0xD800 ≤ u ∧ u ≤ 0xDBFF then
            match cs1 with
            | b1 :: u1 :: a2 :: b2 :: c2 :: d2 :: cs2 =>
              if b1.toNat == 0x5C ∧ u1.toNat == 0x75 then
                match hex4 a2 b2 c2 d2 with
                | some l =>
                  if 0xDC00 ≤ l ∧ l ≤ 0xDFFF then
                    some (Char.ofNat (0x10000 + (u - 0xD800) * 0x400 + (l - 0xDC00)), cs2)
                  else none
                | none => none
              else none
            | _ => none
          else if 0xDC00 ≤ u ∧ u ≤ 0xDFFF then none
          else some (Char.ofNat u, cs1)
      | _ => none
    else
      match unescape e with
      | some x => some (x, cs)
      | none => none

/-- The characters of a JSON string up to its closing quote, and the text after
the quote, given the text after the opening quote.  A character below the space
may not stand unescaped.  `fuel` bounds the number of characters read. -/
def parseChars : Nat → List Char → Option (List Char × List Char)
  | 0, _ => none
  | _ + 1, [] => none
  | fuel + 1, c :: cs =>
    if c.toNat == 0x22 then some ([], cs)
    else if c.toNat == 0x5C then
      match parseEscape cs with
      | some (x, rest) => consChar x (parseChars fuel rest)
      | none => none
    else if c.toNat < 0x20 then none
    else consChar c (parseChars fuel cs)

/-- Whether a character is a decimal digit. -/
def isDigit (c : Char) : Bool := 48 ≤ c.toNat && c.toNat ≤ 57

/-- The leading decimal digits of a text, and the text after them. -/
def takeDigits : List Char → List Char × List Char
  | [] => ([], [])
  | c :: cs => if isDigit c then ((takeDigits cs).1.cons c, (takeDigits cs).2) else ([], c :: cs)

/-- The integer part of a numeral: `0`, or a digit from 1 to 9 and more digits. -/
def parseInteger (cs : List Char) : Option (List Char × List Char) :=
  match cs with
  | d :: rest =>
    if d.toNat == 48 then some ([d], rest)
    else if isDigit d then some (d :: (takeDigits rest).1, (takeDigits rest).2)
    else none
  | [] => none

/-- The fraction of a numeral, if there is one: a point and at least one digit. -/
def parseFraction (cs : List Char) : Option (List Char × List Char) :=
  match cs with
  | c :: rest =>
    if c.toNat == 0x2E then
      match takeDigits rest with
      | ([], _) => none
      | (ds, rest1) => some (c :: ds, rest1)
    else some ([], cs)
  | [] => some ([], [])

/-- The exponent of a numeral, if there is one: `e` or `E`, a sign or none, and
at least one digit. -/
def parseExponent (cs : List Char) : Option (List Char × List Char) :=
  match cs with
  | c :: rest =>
    if c.toNat == 0x65 || c.toNat == 0x45 then
      match rest with
      | s :: rest1 =>
        if s.toNat == 0x2B || s.toNat == 0x2D then
          match takeDigits rest1 with
          | ([], _) => none
          | (ds, rest2) => some (c :: s :: ds, rest2)
        else
          match takeDigits rest with
          | ([], _) => none
          | (ds, rest2) => some (c :: ds, rest2)
      | [] => none
    else some ([], cs)
  | [] => some ([], [])

/-- A numeral without its sign. -/
def parseUnsigned (cs : List Char) : Option (List Char × List Char) :=
  match parseInteger cs with
  | none => none
  | some (i, rest) =>
    match parseFraction rest with
    | none => none
    | some (f, rest1) =>
      match parseExponent rest1 with
      | none => none
      | some (e, rest2) => some (i ++ f ++ e, rest2)

/-- A JSON numeral at the head of a text, and the text after it. -/
def parseNumeral (cs : List Char) : Option (List Char × List Char) :=
  match cs with
  | c :: rest =>
    if c.toNat == 0x2D then
      match parseUnsigned rest with
      | some (n, rest1) => some (c :: n, rest1)
      | none => none
    else parseUnsigned cs
  | [] => none

/-- The elements of an array after the opening bracket, up to the closing
bracket, each read by `value`; `fuel` bounds their number. -/
def parseItems (value : List Char → Option (Json × List Char)) :
    Nat → List Char → Option (List Json × List Char)
  | 0, _ => none
  | fuel + 1, cs =>
    match value cs with
    | none => none
    | some (v, rest) =>
      match skipWhitespace rest with
      | [] => none
      | c :: rest1 =>
        if c.toNat == 0x2C then
          match parseItems value fuel (skipWhitespace rest1) with
          | none => none
          | some (vs, rest2) => some (v :: vs, rest2)
        else if c.toNat == 0x5D then some ([v], rest1)
        else none

/-- The members of an object after the opening brace, up to the closing brace,
each a string, a colon and a value read by `value`; `fuel` bounds their number. -/
def parseMembers (value : List Char → Option (Json × List Char)) :
    Nat → List Char → Option (List (String × Json) × List Char)
  | 0, _ => none
  | fuel + 1, cs =>
    match cs with
    | [] => none
    | q :: cs1 =>
      if q.toNat == 0x22 then
        match parseChars cs1.length cs1 with
        | none => none
        | some (k, rest) =>
          match skipWhitespace rest with
          | [] => none
          | c :: rest1 =>
            if c.toNat == 0x3A then
              match value (skipWhitespace rest1) with
              | none => none
              | some (v, rest2) =>
                match skipWhitespace rest2 with
                | [] => none
                | d :: rest3 =>
                  if d.toNat == 0x2C then
                    match parseMembers value fuel (skipWhitespace rest3) with
                    | none => none
                    | some (ms, rest4) => some ((String.mk k, v) :: ms, rest4)
                  else if d.toNat == 0x7D then some ([(String.mk k, v)], rest3)
                  else none
            else none
      else none

/-- The JSON value at the head of a text (which starts at the value, not at
white space), and the text after it; `fuel` bounds the depth of nesting. -/
def parseValue : Nat → List Char → Option (Json × List Char)
  | 0, _ => none
  | fuel + 1, cs =>
    match cs with
    | [] => none
    | c :: rest =>
      if c.toNat == 0x22 then
        match parseChars rest.length rest with
        | some (s, rest1) => some (.str (String.mk s), rest1)
        | none => none
      else if c.toNat == 0x5B then
        match skipWhitespace rest with
        | [] => none
        | d :: rest1 =>
          if d.toNat == 0x5D then some (.arr [], rest1)
          else
            match parseItems (parseValue fuel) fuel (d :: rest1) with
            | some (items, rest2) => some (.arr items, rest2)
            | none => none
      else if c.toNat == 0x7B then
        match skipWhitespace rest with
        | [] => none
        | d :: rest1 =>
          if d.toNat == 0x7D then some (.obj [], rest1)
          else
            match parseMembers (parseValue fuel) fuel (d :: rest1) with
            | some (members, rest2) => some (.obj members, rest2)
            | none => none
      else if cs.take 4 == "null".data then some (.null, cs.drop 4)
      else if cs.take 4 == "true".data then some (.bool true, cs.drop 4)
      else if cs.take 5 == "false".data then some (.bool false, cs.drop 5)
      else
        match parseNumeral cs with
        | some (n, rest1) => some (.num (String.mk n), rest1)
        | none => none

/-- `JSON.parse(text)`: one value between optional white space; `none` is a
thrown `SyntaxError`.  The fuel is more than the text can use. -/
def jsonParse (text : String) : Option Json :=
  match parseValue (text.length + 1) (skipWhitespace text.data) with
  | some (value, rest) => if (skipWhitespace rest).isEmpty then some value else none
  | none => none

mutual
/-- Whether a value has no number in it. -/
def Json.plain : Json → Bool
  | .null => true
  | .bool _ => true
  | .num _ => false
  | .str _ => true
  | .arr items => plainItems items
  | .obj members => plainMembers members
/-- Whether no value of a list has a number in it. -/
def plainItems : List Json → Bool
  | [] => true
  | x :: xs => x.plain && plainItems xs
/-- Whether no member of a list has a number in it. -/
def plainMembers : List (String × Json) → Bool
  | [] => true
  | (_, v) :: ms => v.plain && plainMembers ms
end

/-- Whether a text starts with a character that is neither white space nor a
closing square bracket. -/
def startsValue : List Char → Bool
  | [] => false
  | c :: _ => !isJsonWhitespace c && !(c.toNat == 0x5D)

/-- The JSON value of a property of a message. -/
def atomJson : JsonAtom → Json
  | .str s => .str s
  | .bool b => .bool b

/-- A message of the parsed history as a JSON value: the properties that
`jsonStringify` lists, in that order. -/
def messageJson (m : Message) : Json :=
  .obj ((jsonStringify m).map (fun p => (p.1, atomJson p.2)))

/-- The stored account, or `null`, as a JSON value: the object that
`saveUserAccount` wrote, with `password` a string or `null` and `preferences` the
empty object (the one caller of `saveUserAccount` passes no preferences). -/
def userJson : Option UserAccount → Json
  | none => .null
  | some u =>
    .obj [("name", .str u.name), ("email", .str u.email),
      ("password", match u.password with
        | some p => .str p
        | none => .null),
      ("joinedDate", .str u.joinedDate), ("preferences", .obj [])]

/-! ## storage.js -/

/-- The constant `DEFAULT_SETTINGS`. -/
def DEFAULT_SETTINGS : Settings :=
  { darkMode := false, messageLimit := 100, contextWindowSize := 10,
    aiPersonality := "supportive", typingSpeed := 50 }

/-- The object spread `{ ...base, ...over }` on settings. -/
def spreadSettings (base : Settings) (over : SettingsPatch) : Settings :=
  { darkMode := over.darkMode.getD base.darkMode
    messageLimit := over.messageLimit.getD base.messageLimit
    contextWindowSize := over.contextWindowSize.getD base.contextWindowSize
    aiPersonality := over.aiPersonality.getD base.aiPersonality
    typingSpeed := over.typingSpeed.getD base.typingSpeed }

/-- `getUserAccount()`. -/
def getUserAccount (ls : LocalStorage) : Option UserAccount := ls.userAccount

/-- `getChatHistory()`. -/
def getChatHistory (ls : LocalStorage) : List Message :=
  match ls.chatHistory with
  | some history => history
  | none => []

/-- `clearChatHistory()`: `removeItem` of the chat history key. -/
def clearChatHistory (ls : LocalStorage) : Bool × LocalStorage :=
  (true, { ls with chatHistory := none })

/-- A number as `JSON.stringify` writes it: `NaN` and the infinities are written
`null`. -/
def stringifyNumber : NumberValue → JsonNumber
  | .num n => .num n
  | .nan => .null
  | .posInfinity => .null
  | .negInfinity => .null
  | .null => .null

/-- A number as `JSON.parse` reads it. -/
def parseNumber : JsonNumber → NumberValue
  | .num n => .num n
  | .null => .null

/-- `JSON.stringify(settings)` on a total settings object, as the object its text
parses to: every key is present. -/
def stringifySettings (settings : Settings) : StoredSettings :=
  { darkMode := some settings.darkMode
    messageLimit := some (stringifyNumber settings.messageLimit)
    contextWindowSize := some (stringifyNumber settings.contextWindowSize)
    aiPersonality := some settings.aiPersonality
    typingSpeed := some (stringifyNumber settings.typingSpeed) }

/-- `JSON.parse(settings)` on the stored settings text. -/
def parseSettings (settings : StoredSettings) : SettingsPatch :=
  { darkMode := settings.darkMode
    messageLimit := settings.messageLimit.map parseNumber
    contextWindowSize := settings.contextWindowSize.map parseNumber
    aiPersonality := settings.aiPersonality
    typingSpeed := settings.typingSpeed.map parseNumber }

/-- `getSessionSettings()`. -/
def getSessionSettings (ls : LocalStorage) : Settings :=
  match ls.sessionSettings with
  | some settings => spreadSettings DEFAULT_SETTINGS (parseSettings settings)
  | none => DEFAULT_SETTINGS

/-- `xs.slice(start)` for an integer `start`: a negative `start` counts from the
end, and both ends are clamped; `slice(-0)` is `slice(0)`. -/
def sliceFrom {α : Type} (xs : List α) (start : Int) : List α :=
  let len : Int := xs.length
  let k : Int := if start < 0 then max (len + start) 0 else min start len
  xs.drop k.toNat

/-- `getContextWindow(windowSize)`: `history.slice(-windowSize)` on the stored
chat history (the default of `windowSize` is 10). -/
def getContextWindow (windowSize : Int) (ls : LocalStorage) : List Message :=
  let history := getChatHistory ls
  sliceFrom history (-windowSize)

/-- `saveSessionSettings(settings)`: the success flag and the store. -/
def saveSessionSettings (settings : SettingsPatch) (ls : LocalStorage) : Bool × LocalStorage :=
  let currentSettings := getSessionSettings ls
  let updatedSettings := spreadSettings currentSettings settings
  if setItemThrows ls .SESSION_SETTINGS then (false, ls)
  else (true, { ls with sessionSettings := some (stringifySettings updatedSettings) })

/-- What a number value becomes when it is written to JSON text and read back. -/
def viaJsonNumber (v : NumberValue) : NumberValue := parseNumber (stringifyNumber v)

/-- What a total settings object becomes when it is written to JSON text and read
back: `NaN` and infinite numbers become `null`. -/
def viaJson (settings : Settings) : Settings :=
  { settings with
    messageLimit := viaJsonNumber settings.messageLimit
    contextWindowSize := viaJsonNumber settings.contextWindowSize
    typingSpeed := viaJsonNumber settings.typingSpeed }

/-- Whether a possibly absent number is absent, an integer or `null`: whether
JSON text holds it as it is. -/
def jsonHolds : Option NumberValue → Bool
  | none => true
  | some v => viaJsonNumber v == v

/-- `isUserLoggedIn()`: `Boolean(localStorage.getItem(CURRENT_USER))`. -/
def isUserLoggedIn (ls : LocalStorage) : Bool := truthy ls.currentUser

/-- `setCurrentUser(email)`: stores `email || ''`. -/
def setCurrentUser (email : Option String) (ls : LocalStorage) : Bool × LocalStorage :=
  if setItemThrows ls .CURRENT_USER then (false, ls)
  else (true, { ls with currentUser := some (if truthy email then email.getD "" else "") })

/-- `getCurrentUserEmail()`. -/
def getCurrentUserEmail (ls : LocalStorage) : Option String := ls.currentUser

/-- `clearCurrentUser()`: `removeItem` of the current-user key. -/
def clearCurrentUser (ls : LocalStorage) : Bool × LocalStorage :=
  (true, { ls with currentUser := none })

/-- What the text export needs from the platform: `new Date().toLocaleString()`,
`new Date(ts).toLocaleString()` and `toUpperCase()`. -/
structure TextPlatform where
  nowText : String
  dateText : String → String
  upper : String → String

/-- `exportChatHistory(format)` (the default of `format` is `'json'`): the text
returned, `none` for the `undefined` that a format other than `'json'` and
`'txt'` gives.  For `'json'` the text is
`JSON.stringify({ user, chatHistory, exportedAt }, null, 2)`. -/
def exportChatHistory (clock : Clock) (platform : TextPlatform) (format : String)
    (ls : LocalStorage) : Option String :=
  let history := getChatHistory ls
  let userAccount := getUserAccount ls
  if format == "json" then
    let data := Json.obj [("user", userJson userAccount),
      ("chatHistory", .arr (history.map messageJson)), ("exportedAt", .str clock.iso)]
    some (jsonText data)
  else if format == "txt" then
    let text := "Conner Mental Health Chat Export\n"
    let text := text ++ "User: " ++ orChain (userAccount.map (·.name)) none "Unknown" ++ "\n"
    let text := text ++ "Exported: " ++ platform.nowText ++ "\n\n"
    some (history.foldl (fun text msg =>
      text ++ "[" ++ platform.dateText msg.timestamp ++ "] " ++ platform.upper msg.role ++ ": " ++
        msg.content ++ "\n\n") text)
  else none

/-- `saveChatHistory(messages)`: the success flag and the store. -/
def saveChatHistory (messages : List Message) (ls : LocalStorage) : Bool × LocalStorage :=
  if setItemThrows ls .CHAT_HISTORY then (false, ls)
  else (true, { ls with chatHistory := some messages })

/-- `getConversationSessions()`. -/
def getConversationSessions (ls : LocalStorage) : List Session :=
  match ls.conversationSessions with
  | some sessions => sessions
  | none => []

/-- The id used by `saveConversationSession`:
`sessionData.id || "session_" + Date.now()`. -/
def sessionIdOf (clock : Clock) (sessionData : SessionData) : String :=
  match sessionData.id with
  | some i => if i != "" then i else "session_" ++ toString clock.now
  | none => "session_" ++ toString clock.now

/-- The `session` object literal built by `saveConversationSession`. -/
def buildSession (clock : Clock) (sessionData : SessionData) (sessions : List Session) : Session :=
  let sessionId := sessionIdOf clock sessionData
  { id := sessionId
    title := orChain sessionData.title
      ((sessions.find? (fun s => s.id == sessionId)).map (·.title)) "New Conversation"
    messages :=
      match sessionData.messages with
      | some ms => ms
      | none => []
    createdAt := orChain sessionData.createdAt
      ((sessions.find? (fun s => s.id == sessionId)).map (·.createdAt)) clock.iso
    updatedAt := clock.iso
    messageCount :=
      match sessionData.messages with
      | some ms => ms.length
      | none => 0 }

/-- The block "Update or add session". -/
def updateOrAdd (sessions : List Session) (session : Session) : List Session :=
  match findIndex (fun s => s.id == session.id) sessions with
  | some existingIndex => sessions.set existingIndex session
  | none => sessions ++ [session]

/-- The block "Keep only last 50 sessions": `sessions.splice(0, sessions.length - 50)`. -/
def keepLast50 (sessions : List Session) : List Session :=
  if sessions.length > 50 then sessions.drop (sessions.length - 50) else sessions

/-- `saveConversationSession(sessionData)`: the returned id (`none` for `null`)
and the store. -/
def saveConversationSession (clock : Clock) (sessionData : SessionData) (ls : LocalStorage) :
    Option String × LocalStorage :=
  let sessions := getConversationSessions ls
  let session := buildSession clock sessionData sessions
  let sessions := keepLast50 (updateOrAdd sessions session)
  if setItemThrows ls .CONVERSATION_SESSIONS then (none, ls)
  else (some session.id, { ls with conversationSessions := some sessions })

/-- The shape of every record that `saveConversationSession` writes: its `id`,
`title` and `createdAt` are non-empty strings (each is the result of a `||` chain
ending in a non-empty default). -/
def wellFormedSession (s : Session) : Bool :=
  s.id != "" && s.title != "" && s.createdAt != ""

/-- `getConversationSession(sessionId)`. -/
def getConversationSession (sessionId : String) (ls : LocalStorage) : Option Session :=
  (getConversationSessions ls).find? (fun session => session.id == sessionId)

/-- `deleteConversationSession(sessionId)`: the success flag and the store. -/
def deleteConversationSession (sessionId : String) (ls : LocalStorage) : Bool × LocalStorage :=
  let sessions := getConversationSessions ls
  let filteredSessions := sessions.filter (fun session => session.id != sessionId)
  if setItemThrows ls .CONVERSATION_SESSIONS then (false, ls)
  else (true, { ls with conversationSessions := some filteredSessions })

/-- `setCurrentSession(sessionId)`; `setItem` stores `null` as the text `"null"`. -/
def setCurrentSession (sessionId : Option String) (ls : LocalStorage) : Bool × LocalStorage :=
  if setItemThrows ls .CURRENT_SESSION then (false, ls)
  else (true, { ls with currentSession := some (sessionId.getD "null") })

/-- `getCurrentSession()`. -/
def getCurrentSession (ls : LocalStorage) : Option String := ls.currentSession

/-- `clearAllConversationSessions()`. -/
def clearAllConversationSessions (ls : LocalStorage) : Bool × LocalStorage :=
  (true, { ls with conversationSessions := none, currentSession := none })

/-! ## AppContext.jsx -/

/-- The state held by `useReducer` (`initialState` gives the defaults). -/
structure AppState where
  user : Option UserAccount := none
  chatHistory : List Message := []
  currentChat : Option String := none
  isLoading : Bool := false
  sidebarOpen : Bool := true
  darkMode : Bool := false
  settingsOpen : Bool := false
  helpOpen : Bool := false
  recentChats : List String := []
  sessionList : List Session := []
  currentSessionId : Option String := none
  aiMode : String := "supportive"
deriving DecidableEq, Repr

/-- The `initialState` constant. -/
def initialState : AppState := {}

/-- The actions of `ACTIONS` with their payloads; `OTHER` is any other type. -/
inductive Action where
  | SET_USER (payload : Option UserAccount)
  | SET_CHAT_HISTORY (payload : List Message)
  | ADD_MESSAGE (payload : Message)
  | SET_CURRENT_CHAT (payload : Option String)
  | SET_CURRENT_SESSION (sessionId : Option String) (messages : Option (List Message))
  | SET_SESSION_LIST (payload : List Session)
  | SET_LOADING (payload : Bool)
  | SET_SIDEBAR_OPEN (payload : Bool)
  | SET_DARK_MODE (payload : Bool)
  | SET_SETTINGS_OPEN (payload : Bool)
  | SET_HELP_OPEN (payload : Bool)
  | SET_AI_MODE (payload : String)
  | CLEAR_CHAT
  | CLEAR_ALL_CHAT_DATA
  | NEW_CHAT
  | OTHER
deriving DecidableEq, Repr

/-- The title `chatHistory[0]?.content?.slice(0, 30) || dflt` used when a
transcript is turned into a session. -/
def titleOf (chatHistory : List Message) (dflt : String) : String :=
  match chatHistory.head? with
  | some m => if slice0 m.content 30 != "" then slice0 m.content 30 else dflt
  | none => dflt

/-- `appReducer(state, action)`.  Two cases call the storage module, so the
reducer also takes the clock and the store and returns the store. -/
def appReducer (clock : Clock) (state : AppState) (action : Action) (ls : LocalStorage) :
    AppState × LocalStorage :=
  match action with
  | .SET_USER payload => ({ state with user := payload }, ls)
  | .SET_CHAT_HISTORY payload => ({ state with chatHistory := payload }, ls)
  | .ADD_MESSAGE payload => ({ state with chatHistory := state.chatHistory ++ [payload] }, ls)
  | .SET_CURRENT_CHAT payload => ({ state with currentChat := payload }, ls)
  | .SET_SESSION_LIST payload => ({ state with sessionList := payload }, ls)
  | .SET_CURRENT_SESSION sessionId messages =>
    ({ state with
        currentSessionId := sessionId
        chatHistory :=
          match messages with
          | some ms => ms
          | none => [] }, ls)
  | .SET_LOADING payload => ({ state with isLoading := payload }, ls)
  | .SET_SIDEBAR_OPEN payload => ({ state with sidebarOpen := payload }, ls)
  | .SET_DARK_MODE payload => ({ state with darkMode := payload }, ls)
  | .SET_SETTINGS_OPEN payload => ({ state with settingsOpen := payload }, ls)
  | .SET_HELP_OPEN payload => ({ state with helpOpen := payload }, ls)
  | .SET_AI_MODE payload => ({ state with aiMode := payload }, ls)
  | .CLEAR_CHAT => ({ state with chatHistory := [], currentChat := none }, ls)
  | .CLEAR_ALL_CHAT_DATA =>
    let ls := (clearAllConversationSessions ls).2
    ({ state with chatHistory := [], currentChat := none, sessionList := [],
                  currentSessionId := none }, ls)
  | .NEW_CHAT =>
    -- Only archive old chat if it's an unsaved (new) chat
    let ls :=
      if !truthy state.currentSessionId && state.chatHistory.length > 0 then
        let title := titleOf state.chatHistory "Chat"
        (saveConversationSession clock
          { title := some title, messages := some state.chatHistory } ls).2
      else ls
    let ls := (setCurrentSession none ls).2
    ({ state with chatHistory := [], currentSessionId := none, currentChat := none }, ls)
  | .OTHER => (state, ls)

/-- The duplicate test of the write-through effect: same length and, index by
index, the same JSON text.  `chatHistory[idx]` may be `undefined`, whose
`JSON.stringify` is `undefined` and equals no string. -/
def sameMessages (chatHistory : List Message) (session : Session) : Bool :=
  session.messages.length == chatHistory.length &&
    everyFrom (fun msg idx => some (jsonStringify msg) == (chatHistory.get? idx).map jsonStringify)
      session.messages 0

/-- The effect "Save chat history and current session when it changes", run once
on the state and the store. -/
def writeThrough (clock : Clock) (state : AppState) (ls : LocalStorage) :
    AppState × LocalStorage :=
  if state.chatHistory.length == 0 then (state, ls)
  else
    let ls := (saveChatHistory state.chatHistory ls).2
    if truthy state.currentSessionId then
      let ls := (saveConversationSession clock
        { id := state.currentSessionId, messages := some state.chatHistory } ls).2
      (state, ls)
    else
      -- only create a new session if there is not already one with same message list
      let existingSessions := getConversationSessions ls
      match existingSessions.find? (sameMessages state.chatHistory) with
      | some found =>
        let ls := (setCurrentSession (some found.id) ls).2
        appReducer clock state (.SET_CURRENT_SESSION (some found.id) (some found.messages)) ls
      | none =>
        let saved := saveConversationSession clock
          { messages := some state.chatHistory
            title := some (titleOf state.chatHistory "Conversation") } ls
        let ls := saved.2
        if truthy saved.1 then
          let ls := (setCurrentSession saved.1 ls).2
          appReducer clock state (.SET_CURRENT_SESSION saved.1 (some state.chatHistory)) ls
        else (state, ls)

/-- `loadInitialData()`, the effect run once when `AppProvider` mounts, as the
sequence of its dispatches (the changes to the document's class list are left out). -/
def loadInitialData (clock : Clock) (state : AppState) (ls : LocalStorage) :
    AppState × LocalStorage :=
  let user := getUserAccount ls
  let settings := getSessionSettings ls
  let sessions := getConversationSessions ls
  let aiMode := if settings.aiPersonality != "" then settings.aiPersonality else "supportive"
  -- Always start on 'home'
  let r := appReducer clock state (.SET_SESSION_LIST sessions) ls
  let r :=
    match user with
    | some u => appReducer clock r.1 (.SET_USER (some u)) r.2
    | none => r
  let r := appReducer clock r.1 (.SET_AI_MODE aiMode) r.2
  -- DO NOT restore previous chat session; always show home
  let r := appReducer clock r.1 (.SET_CHAT_HISTORY []) r.2
  let r := appReducer clock r.1 (.SET_CURRENT_SESSION none (some [])) r.2
  appReducer clock r.1 (.SET_DARK_MODE settings.darkMode) r.2

/-! ## conner-client.js -/

/-- The JSON body posted to the backend. -/
structure Request where
  message : String
  contextWindow : List Message
  personality : String
deriving DecidableEq, Repr

/-- The JSON body of the backend's answer. -/
structure GatewayData where
  success : Bool
  message : String := ""
  timestamp : String := ""
  error : Option String := none
deriving DecidableEq, Repr

/-- What `fetch` followed by `res.json()` gives: `fetch` rejects, or the body is
not JSON, or there is a status (`res.ok`) and a parsed body. -/
inductive FetchResult where
  | rejected (reason : String)
  | badBody (ok : Bool) (reason : String)
  | body (ok : Bool) (data : GatewayData)
deriving DecidableEq, Repr

/-- The backend as the client sees it: the configured `API_URL` and the network. -/
structure Gateway where
  apiUrl : Option String
  fetch : Request → FetchResult

/-- `sendToConner(message, contextWindow, personality = 'supportive')`: the body
given to `fetch` (`none` when it throws before the call) and the outcome, an
error standing for a thrown `Error` with that message. -/
def sendToConner (gw : Gateway) (message : String) (contextWindow : List Message)
    (personality : String := "supportive") : Option Request × Except String GatewayData :=
  if !truthy gw.apiUrl then (none, .error "Backend URL not configured")
  else
    let req : Request :=
      { message := message, contextWindow := contextWindow, personality := personality }
    match gw.fetch req with
    | .rejected reason => (some req, .error reason)
    | .badBody _ reason => (some req, .error reason)
    | .body ok data =>
      if !ok || !data.success then (some req, .error (orChain data.error none "Request failed"))
      else (some req, .ok data)

/-! ## InputBar.jsx -/

/-- The local state of the `InputBar` component. -/
structure InputBarState where
  message : String := ""
  toolsOpen : Bool := false
deriving DecidableEq, Repr

/-- The content of the message that `handleSubmit` appends when the call fails. -/
def apologyText : String :=
  "I'm sorry, I'm having trouble connecting right now. Please make sure your API key is correct and try again."

/-- What a run of `handleSubmit` leaves: the component state, the application
state after its dispatches, the `contextWindow` it gave to `sendToConner` and the
body that was posted (`none` when there was no call). -/
structure SubmitResult where
  inputBar : InputBarState
  state : AppState
  contextWindow : Option (List Message)
  posted : Option Request
deriving DecidableEq, Repr

/-- `handleSubmit(e)`.  `clock` is read for the user message and `clockCatch` in
the `catch` block; the store is read once, by `getContextWindow(10)`, right after
the first two dispatches and before React renders or runs any effect. -/
def handleSubmit (clock clockCatch : Clock) (gw : Gateway) (ib : InputBarState)
    (state : AppState) (ls : LocalStorage) : SubmitResult :=
  if jsTrim ib.message == "" || state.isLoading then
    { inputBar := ib, state := state, contextWindow := none, posted := none }
  else
    let userMessage := jsTrim ib.message
    let ib := { ib with message := "" }
    let userMsg : Message := { role := "user", content := userMessage, timestamp := clock.iso }
    let state := (appReducer clock state (.ADD_MESSAGE userMsg) ls).1
    let state := (appReducer clock state (.SET_LOADING true) ls).1
    let errorMsg : Message :=
      { role := "assistant", content := apologyText, timestamp := clockCatch.iso,
        isError := some true }
    let contextWindow := getContextWindow 10 ls
    let sent := sendToConner gw userMessage contextWindow
    let state :=
      match sent.2 with
      | .ok response =>
        if response.success then
          let assistantMsg : Message :=
            { role := "assistant", content := response.message, timestamp := response.timestamp }
          (appReducer clock state (.ADD_MESSAGE assistantMsg) ls).1
        else (appReducer clock state (.ADD_MESSAGE errorMsg) ls).1
      | .error _ => (appReducer clock state (.ADD_MESSAGE errorMsg) ls).1
    let state := (appReducer clock state (.SET_LOADING false) ls).1
    { inputBar := ib, state := state, contextWindow := some contextWindow, posted := sent.1 }

/-- `handleModeChange(mode)`: the state, the store and the tools popover. -/
def handleModeChange (clock : Clock) (mode : String) (ib : InputBarState) (state : AppState)
    (ls : LocalStorage) : InputBarState × AppState × LocalStorage :=
  let r := appReducer clock state (.SET_AI_MODE mode) ls
  let ls := (saveSessionSettings { aiPersonality := some mode } r.2).2
  ({ ib with toolsOpen := false }, r.1, ls)

/-! ## Header.jsx -/

/-- `handleClearChat()`: clears the stored chat history, then dispatches
`CLEAR_CHAT`. -/
def handleClearChat (clock : Clock) (state : AppState) (ls : LocalStorage) :
    AppState × LocalStorage :=
  let ls := (clearChatHistory ls).2
  appReducer clock state (.CLEAR_CHAT) ls

/-- `handleLogout()`: ends the session only and keeps the stored account. -/
def handleLogout (clock : Clock) (state : AppState) (ls : LocalStorage) :
    AppState × LocalStorage :=
  let ls := (clearCurrentUser ls).2
  appReducer clock state (.SET_USER none) ls

/-! ## App.jsx -/

/-- `initializeApp()`, the effect of `AppContent` run at mount (the start of the
assistant library, which neither reads nor writes the state, is left out). -/
def initializeApp (clock : Clock) (state : AppState) (ls : LocalStorage) :
    AppState × LocalStorage :=
  if isUserLoggedIn ls then
    match getUserAccount ls with
    | some userAccount =>
      let current := getCurrentUserEmail ls
      if !truthy current || current == some userAccount.email then
        appReducer clock state (.SET_USER (some userAccount)) ls
      else (state, ls)
    | none => (state, ls)
  else (state, ls)

/-! ## Sidebar.jsx -/

/-- The local state of the `Sidebar` component. -/
structure SidebarState where
  showMobileMenu : Bool := false
  renamingId : Option String := none
  renameValue : String := ""
deriving DecidableEq, Repr

/-- `refreshSessions()`. -/
def refreshSessions (clock : Clock) (state : AppState) (ls : LocalStorage) :
    AppState × LocalStorage :=
  let sessions := getConversationSessions ls
  appReducer clock state (.SET_SESSION_LIST sessions) ls

/-- `handleDeleteSession(id)`. -/
def handleDeleteSession (clock : Clock) (id : String) (state : AppState) (ls : LocalStorage) :
    AppState × LocalStorage :=
  let ls := (deleteConversationSession id ls).2
  refreshSessions clock state ls

/-- `handleStartRename(s)`. -/
def handleStartRename (s : Session) (sb : SidebarState) : SidebarState :=
  { sb with renamingId := some s.id
            renameValue := if s.title != "" then s.title else "Conversation" }

/-- `handleConfirmRename(id)`: reads `renameValue` from the component state. -/
def handleConfirmRename (clock : Clock) (id : String) (sb : SidebarState) (state : AppState)
    (ls : LocalStorage) : SidebarState × AppState × LocalStorage :=
  let trimmed := jsTrim sb.renameValue
  if trimmed == "" then ({ sb with renamingId := none }, state, ls)
  else
    let ls := (saveConversationSession clock { id := some id, title := some trimmed } ls).2
    let r := refreshSessions clock state ls
    ({ sb with renamingId := none }, r.1, r.2)

/-- `handleSessionClick(s)`. -/
def handleSessionClick (clock : Clock) (s : Session) (sb : SidebarState) (state : AppState)
    (ls : LocalStorage) : SidebarState × AppState × LocalStorage :=
  let r :=
    if state.currentSessionId != some s.id then
      appReducer clock state (.SET_CURRENT_SESSION (some s.id) (some s.messages)) ls
    else (state, ls)
  ({ sb with showMobileMenu := false }, r.1, r.2)

/-! ## Auxiliary facts -/

theorem jsonStringify_inj {a b : Message} (h : jsonStringify a = jsonStringify b) : a = b := by
  cases a with
  | mk r c t e =>
    cases b with
    | mk r2 c2 t2 e2 =>
      cases e <;> cases e2 <;> simp_all [jsonStringify]

theorem get?_append_length {α : Type} (pre : List α) (y : α) (ys : List α) :
    (pre ++ y :: ys).get? pre.length = some y := by
  induction pre with
  | nil => rfl
  | cons p ps ih => simpa [List.get?] using ih

theorem everyFrom_split :
    ∀ (ms rest : List Message) (pre : List Message), ms.length = rest.length →
      (everyFrom (fun msg idx => some (jsonStringify msg) ==
          ((pre ++ rest).get? idx).map jsonStringify) ms pre.length = true ↔ ms = rest) := by
  intro ms
  induction ms with
  | nil =>
    intro rest pre h
    cases rest with
    | nil => simp [everyFrom]
    | cons y ys => simp at h
  | cons x xs ih =>
    intro rest pre h
    cases rest with
    | nil => simp at h
    | cons y ys =>
      have hlen : xs.length = ys.length := by simpa using h
      have hstep := ih ys (pre ++ [y]) hlen
      simp only [List.append_assoc, List.singleton_append, List.length_append,
        List.length_singleton] at hstep
      simp only [everyFrom, Bool.and_eq_true, hstep]
      rw [get?_append_length]
      constructor
      · rintro ⟨h1, h2⟩
        have : jsonStringify x = jsonStringify y := by simpa using h1
        rw [jsonStringify_inj this, h2]
      · intro h1
        injection h1 with h1 h2
        subst h1; subst h2
        simp

theorem sameMessages_iff (T : List Message) (s : Session) :
    sameMessages T s = true ↔ s.messages = T := by
  unfold sameMessages
  constructor
  · intro h
    simp only [Bool.and_eq_true, beq_iff_eq] at h
    exact (everyFrom_split s.messages T [] h.1).1 h.2
  · intro h
    have hl : s.messages.length = T.length := by rw [h]
    simp only [Bool.and_eq_true, beq_iff_eq]
    exact ⟨hl, (everyFrom_split s.messages T [] hl).2 h⟩


theorem findIndex_none {α : Type} (p : α → Bool) (xs : List α) :
    findIndex p xs = none ↔ ∀ x ∈ xs, p x = false := by
  induction xs with
  | nil => simp [findIndex]
  | cons x xs ih =>
    by_cases hx : p x = true
    · simp [findIndex, hx]
    · simp [findIndex, hx, ih]

theorem findIndex_first {α : Type} (p : α → Bool) :
    ∀ (xs : List α) (k : Nat) (x : α), xs.get? k = some x → p x = true →
      (∀ j y, j < k → xs.get? j = some y → p y = false) → findIndex p xs = some k := by
  intro xs
  induction xs with
  | nil => intro k x h; simp at h
  | cons a as ih =>
    intro k x hget hp hbefore
    cases k with
    | zero =>
      simp only [List.get?] at hget
      injection hget with hget
      subst hget
      simp [findIndex, hp]
    | succ k =>
      have ha : p a = false := hbefore 0 a (Nat.succ_pos k) rfl
      have hrec := ih k x (by simpa [List.get?] using hget) hp
        (fun j y hj hy => hbefore (j + 1) y (Nat.succ_lt_succ hj) (by simpa [List.get?] using hy))
      simp [findIndex, ha, hrec]

theorem findIndex_some_get {α : Type} (p : α → Bool) :
    ∀ (xs : List α) (k : Nat), findIndex p xs = some k →
      k < xs.length ∧ xs.find? p = xs.get? k := by
  intro xs
  induction xs with
  | nil => intro k h; simp [findIndex] at h
  | cons a as ih =>
    intro k h
    by_cases ha : p a = true
    · simp [findIndex, ha] at h
      subst h
      simp [List.find?, ha]
    · simp only [findIndex, ha, Bool.false_eq_true, if_false, Option.map_eq_some'] at h
      obtain ⟨j, hj, rfl⟩ := h
      have := ih j hj
      simp [List.find?, ha, this.1, this.2]

theorem find?_of_findIndex_none {α : Type} (p : α → Bool) (xs : List α)
    (h : findIndex p xs = none) : xs.find? p = none := by
  rw [findIndex_none] at h
  simpa [List.find?_eq_none] using h

theorem keepLast50_length_le (xs : List Session) : (keepLast50 xs).length ≤ 50 := by
  unfold keepLast50
  split
  · simp only [List.length_drop]; omega
  · omega

theorem keepLast50_of_le (xs : List Session) (h : xs.length ≤ 50) : keepLast50 xs = xs := by
  unfold keepLast50
  rw [if_neg (by omega)]

theorem keepLast50_eq_drop (xs : List Session) : keepLast50 xs = xs.drop (xs.length - 50) := by
  unfold keepLast50
  split
  · rfl
  · have : xs.length - 50 = 0 := by omega
    rw [this, List.drop_zero]

theorem keepLast50_append_last (xs : List Session) (s : Session) :
    ∃ ys, keepLast50 (xs ++ [s]) = ys ++ [s] ∧ ys = xs.drop (xs.length + 1 - 50) := by
  refine ⟨xs.drop (xs.length + 1 - 50), ?_, rfl⟩
  rw [keepLast50_eq_drop]
  simp only [List.length_append, List.length_singleton]
  rw [List.drop_append_of_le_length (by omega)]

/-- What a successful save stores. -/
theorem save_sessions (clock : Clock) (sd : SessionData) (ls : LocalStorage)
    (hw : setItemThrows ls .CONVERSATION_SESSIONS = false) :
    saveConversationSession clock sd ls =
      (some (sessionIdOf clock sd),
        { ls with conversationSessions := some (keepLast50 (updateOrAdd
            (getConversationSessions ls)
            (buildSession clock sd (getConversationSessions ls)))) }) := by
  simp [saveConversationSession, hw, buildSession]

theorem sessionIdOf_ne_empty (clock : Clock) (sd : SessionData) : sessionIdOf clock sd ≠ "" := by
  unfold sessionIdOf
  have hgen : "session_" ++ toString clock.now ≠ "" := by
    intro h
    have := congrArg String.length h
    simp only [String.length_append] at this
    have h8 : "session_".length = 8 := by decide
    rw [h8] at this
    have h0 : "".length = 0 := by decide
    rw [h0] at this
    omega
  split
  · split
    · simp_all
    · exact hgen
  · exact hgen


@[simp] theorem sessions_saveChatHistory (ms : List Message) (ls : LocalStorage) :
    getConversationSessions (saveChatHistory ms ls).2 = getConversationSessions ls := by
  unfold saveChatHistory
  split <;> rfl

@[simp] theorem throws_saveChatHistory (ms : List Message) (ls : LocalStorage) (k : StorageKey) :
    setItemThrows (saveChatHistory ms ls).2 k = setItemThrows ls k := by
  unfold saveChatHistory
  split <;> rfl

@[simp] theorem sessions_setCurrentSession (i : Option String) (ls : LocalStorage) :
    getConversationSessions (setCurrentSession i ls).2 = getConversationSessions ls := by
  unfold setCurrentSession
  split <;> rfl

@[simp] theorem throws_setCurrentSession (i : Option String) (ls : LocalStorage) (k : StorageKey) :
    setItemThrows (setCurrentSession i ls).2 k = setItemThrows ls k := by
  unfold setCurrentSession
  split <;> rfl

@[simp] theorem sessions_with (ls : LocalStorage) (xs : List Session) :
    getConversationSessions { ls with conversationSessions := some xs } = xs := rfl

theorem mem_updateOrAdd (xs : List Session) (s x : Session) (h : x ∈ updateOrAdd xs s) :
    x = s ∨ x ∈ xs := by
  unfold updateOrAdd at h
  split at h
  · rcases List.mem_or_eq_of_mem_set h with h | h
    · exact Or.inr h
    · exact Or.inl h
  · rcases List.mem_append.1 h with h | h
    · exact Or.inr h
    · exact Or.inl (by simpa using h)

theorem mem_keepLast50 (xs : List Session) (x : Session) (h : x ∈ keepLast50 xs) : x ∈ xs := by
  rw [keepLast50_eq_drop] at h
  exact List.mem_of_mem_drop h

theorem updateOrAdd_length_le (xs : List Session) (s : Session) :
    (updateOrAdd xs s).length ≤ xs.length + 1 := by
  unfold updateOrAdd
  split <;> simp

/-- Within the cap the saved record is in the stored list after the save. -/
theorem mem_keepLast50_updateOrAdd (xs : List Session) (s : Session) (hcap : xs.length ≤ 50) :
    s ∈ keepLast50 (updateOrAdd xs s) := by
  unfold updateOrAdd
  split
  · next k hk =>
    have hlt := (findIndex_some_get _ xs k hk).1
    rw [keepLast50_of_le _ (by simpa using hcap)]
    exact List.mem_set _ _ hlt s
  · obtain ⟨ys, hys, _⟩ := keepLast50_append_last xs s
    rw [hys]
    simp

theorem find?_sameMessages_none (T : List Message) (xs : List Session)
    (hno : ∀ s ∈ xs, s.messages ≠ T) : xs.find? (sameMessages T) = none := by
  rw [List.find?_eq_none]
  intro s hs h
  exact hno s hs ((sameMessages_iff T s).1 h)

/-- The unbound write-through step when no stored session matches. -/
theorem writeThrough_create (clock : Clock) (st : AppState) (ls : LocalStorage)
    (hT : st.chatHistory ≠ []) (hu : st.currentSessionId = none)
    (hw : setItemThrows ls .CONVERSATION_SESSIONS = false)
    (hno : ∀ s ∈ getConversationSessions ls, s.messages ≠ st.chatHistory) :
    (writeThrough clock st ls).1.currentSessionId = some ("session_" ++ toString clock.now) ∧
    (writeThrough clock st ls).1.chatHistory = st.chatHistory ∧
    getConversationSessions (writeThrough clock st ls).2 =
      keepLast50 (updateOrAdd (getConversationSessions ls)
        (buildSession clock
          { messages := some st.chatHistory
            title := some (titleOf st.chatHistory "Conversation") }
          (getConversationSessions ls))) := by
  have hlen : (st.chatHistory.length == 0) = false := by
    cases h : st.chatHistory with
    | nil => exact absurd h hT
    | cons a as => rfl
  have hfind := find?_sameMessages_none st.chatHistory (getConversationSessions ls) hno
  have hid : sessionIdOf clock ⟨none, some (titleOf st.chatHistory "Conversation"),
      some st.chatHistory, none⟩ = "session_" ++ toString clock.now := rfl
  have hne := sessionIdOf_ne_empty clock ⟨none, some (titleOf st.chatHistory "Conversation"),
      some st.chatHistory, none⟩
  rw [hid] at hne
  unfold writeThrough
  simp only [hlen, hu, truthy, Bool.false_eq_true, if_false, sessions_saveChatHistory, hfind]
  rw [save_sessions _ _ _ (by simpa using hw)]
  simp only [hid, truthy, bne_iff_ne, ne_eq, hne, not_false_eq_true, decide_True, if_true,
    appReducer, sessions_setCurrentSession, sessions_saveChatHistory]
  exact ⟨trivial, trivial, rfl⟩


/-- The unbound write-through step when a stored session matches: it binds to the
first such session and writes nothing to the registry. -/
theorem writeThrough_bind (clock : Clock) (st : AppState) (ls : LocalStorage) (found : Session)
    (hT : st.chatHistory ≠ []) (hu : st.currentSessionId = none)
    (hfind : (getConversationSessions ls).find? (sameMessages st.chatHistory) = some found) :
    (writeThrough clock st ls).1.currentSessionId = some found.id ∧
    (writeThrough clock st ls).1.chatHistory = found.messages ∧
    getConversationSessions (writeThrough clock st ls).2 = getConversationSessions ls := by
  have hlen : (st.chatHistory.length == 0) = false := by
    cases h : st.chatHistory with
    | nil => exact absurd h hT
    | cons a as => rfl
  unfold writeThrough
  simp only [hlen, hu, truthy, Bool.false_eq_true, if_false, sessions_saveChatHistory, hfind,
    appReducer, sessions_setCurrentSession]
  exact ⟨trivial, trivial, trivial⟩

/-- C1 (idempotent reload).  Let the registry hold at most 50 sessions, none of
them with messages equal to the non-empty transcript `T`, and let the write to
the session list succeed.  The write-through step from an unbound state with
transcript `T` stores a session `S1` with messages `T` under the generated id and
binds the state to it; the write-through step run again from any unbound state
with the same transcript, on the store so obtained, binds to the id of `S1` and
leaves the stored session list (hence its size) as it was. -/
theorem idempotent_reload (c1 c2 : Clock) (st1 st2 : AppState) (ls : LocalStorage)
    (T : List Message) (hT : T ≠ [])
    (h1 : st1.chatHistory = T) (hu1 : st1.currentSessionId = none)
    (h2 : st2.chatHistory = T) (hu2 : st2.currentSessionId = none)
    (hw : setItemThrows ls .CONVERSATION_SESSIONS = false)
    (hcap : (getConversationSessions ls).length ≤ 50)
    (hno : ∀ s ∈ getConversationSessions ls, s.messages ≠ T) :
    ∃ S1 : Session,
      S1 ∈ getConversationSessions (writeThrough c1 st1 ls).2 ∧
      S1.messages = T ∧
      S1.id = "session_" ++ toString c1.now ∧
      (writeThrough c1 st1 ls).1.currentSessionId = some S1.id ∧
      (writeThrough c2 st2 (writeThrough c1 st1 ls).2).1.currentSessionId = some S1.id ∧
      getConversationSessions (writeThrough c2 st2 (writeThrough c1 st1 ls).2).2 =
        getConversationSessions (writeThrough c1 st1 ls).2 ∧
      (getConversationSessions (writeThrough c2 st2 (writeThrough c1 st1 ls).2).2).length =
        (getConversationSessions (writeThrough c1 st1 ls).2).length := by
  subst h1
  obtain ⟨hid1, _, hreg1⟩ := writeThrough_create c1 st1 ls hT hu1 hw hno
  generalize hS : buildSession c1 ⟨none, some (titleOf st1.chatHistory "Conversation"),
    some st1.chatHistory, none⟩ (getConversationSessions ls) = S1 at hreg1
  have hS1m : S1.messages = st1.chatHistory := by rw [← hS]; rfl
  have hS1i : S1.id = "session_" ++ toString c1.now := by rw [← hS]; rfl
  have hmem : S1 ∈ getConversationSessions (writeThrough c1 st1 ls).2 := by
    rw [hreg1]; exact mem_keepLast50_updateOrAdd _ _ hcap
  -- every stored session with the transcript's messages is `S1`
  have honly : ∀ s ∈ getConversationSessions (writeThrough c1 st1 ls).2,
      sameMessages st1.chatHistory s = true → s = S1 := by
    intro s hs hsame
    rw [hreg1] at hs
    rcases mem_updateOrAdd _ _ _ (mem_keepLast50 _ _ hs) with h | h
    · exact h
    · exact absurd ((sameMessages_iff _ _).1 hsame) (hno s h)
  have hfind : (getConversationSessions (writeThrough c1 st1 ls).2).find?
      (sameMessages st1.chatHistory) = some S1 := by
    cases hf : (getConversationSessions (writeThrough c1 st1 ls).2).find?
        (sameMessages st1.chatHistory) with
    | none =>
      rw [List.find?_eq_none] at hf
      exact absurd ((sameMessages_iff _ _).2 hS1m) (hf S1 hmem)
    | some found =>
      have hp := List.find?_some hf
      have hin := List.mem_of_find?_eq_some hf
      rw [honly found hin hp]
  have hT2 : st2.chatHistory ≠ [] := by rw [h2]; exact hT
  rw [← h2] at hfind
  obtain ⟨hid2, _, hreg2⟩ := writeThrough_bind c2 st2 (writeThrough c1 st1 ls).2 S1 hT2 hu2 hfind
  refine ⟨S1, hmem, hS1m, hS1i, ?_, hid2, hreg2, by rw [hreg2]⟩
  rw [hid1, hS1i]

/-- C1 at a one-message transcript and an empty store: the second step binds to
`session_5`, the id generated by the first, and the registry keeps one session. -/
theorem idempotent_reload_witness :
    (writeThrough ⟨9, "t9"⟩ { chatHistory := [⟨"user", "hi", "t1", none⟩] }
      (writeThrough ⟨5, "t5"⟩ { chatHistory := [⟨"user", "hi", "t1", none⟩] } {}).2
      ).1.currentSessionId = some "session_5" ∧
    (getConversationSessions (writeThrough ⟨9, "t9"⟩ { chatHistory := [⟨"user", "hi", "t1", none⟩] }
      (writeThrough ⟨5, "t5"⟩ { chatHistory := [⟨"user", "hi", "t1", none⟩] } {}).2).2).length =
      1 := by
  obtain ⟨S1, _, _, hi, _, h2, _, h4⟩ :=
    idempotent_reload ⟨5, "t5"⟩ ⟨9, "t9"⟩ { chatHistory := [⟨"user", "hi", "t1", none⟩] }
      { chatHistory := [⟨"user", "hi", "t1", none⟩] } {} [⟨"user", "hi", "t1", none⟩]
      (by decide) rfl rfl rfl rfl (by decide) (by decide) (by decide)
  refine ⟨?_, ?_⟩
  · rw [h2, hi]; rfl
  · rw [h4]; decide

theorem updateOrAdd_fresh (xs : List Session) (s : Session)
    (hfresh : ∀ x ∈ xs, x.id ≠ s.id) : updateOrAdd xs s = xs ++ [s] := by
  have hnone : findIndex (fun x => x.id == s.id) xs = none := by
    rw [findIndex_none]
    intro x hx
    simpa using hfresh x hx
  simp [updateOrAdd, hnone]

/-- The state returned by `NEW_CHAT`, whatever the store. -/
theorem new_chat_state (clock : Clock) (st : AppState) (ls : LocalStorage) :
    (appReducer clock st .NEW_CHAT ls).1 =
      { st with chatHistory := [], currentSessionId := none, currentChat := none } := rfl

/-- C2, the claim as stated fails when the clock gives an id that is already
stored: `NEW_CHAT` on an unbound one-message transcript at `Date.now() = 5`, with
a session `session_5` in the registry, overwrites that session; the registry
still has one record and the stored conversation is gone. -/
theorem new_chat_adds_record_counterexample :
    getConversationSessions (appReducer ⟨5, "t5"⟩ { chatHistory := [⟨"user", "hi", "t1", none⟩] }
      .NEW_CHAT
      { conversationSessions := some ([⟨"session_5", "old", [⟨"user", "old talk", "t0", none⟩], "t0", "t0", 1⟩]) }).2
      = [⟨"session_5", "hi", [⟨"user", "hi", "t1", none⟩], "t0", "t5", 1⟩] ∧
    (getConversationSessions (appReducer ⟨5, "t5"⟩ { chatHistory := [⟨"user", "hi", "t1", none⟩] }
      .NEW_CHAT
      { conversationSessions := some ([⟨"session_5", "old", [⟨"user", "old talk", "t0", none⟩], "t0", "t0", 1⟩]) }).2).length
      = 1 := by
  decide

/-- C2 (new-chat archival), amended.  For a state with `currentSessionId = null`
and a non-empty transcript, when the write succeeds and no stored session has the
id `session_<Date.now()>` generated for the archive, `NEW_CHAT` appends exactly
one record `rec`, with that id and with messages equal to the transcript, at the
end of the stored list (the cap then trims the front), whether or not a stored
session has the same messages; the returned state has an empty transcript and
`currentSessionId = null`. -/
theorem new_chat_archives (clock : Clock) (st : AppState) (ls : LocalStorage)
    (hu : st.currentSessionId = none) (hT : st.chatHistory ≠ [])
    (hw : setItemThrows ls .CONVERSATION_SESSIONS = false)
    (hfresh : ∀ s ∈ getConversationSessions ls, s.id ≠ "session_" ++ toString clock.now) :
    ∃ rec : Session,
      rec.id = "session_" ++ toString clock.now ∧
      rec.messages = st.chatHistory ∧
      rec ∉ getConversationSessions ls ∧
      getConversationSessions (appReducer clock st .NEW_CHAT ls).2 =
        (getConversationSessions ls ++ [rec]).drop ((getConversationSessions ls).length + 1 - 50) ∧
      rec ∈ getConversationSessions (appReducer clock st .NEW_CHAT ls).2 ∧
      ((getConversationSessions ls).length < 50 →
        getConversationSessions (appReducer clock st .NEW_CHAT ls).2 =
          getConversationSessions ls ++ [rec]) ∧
      (appReducer clock st .NEW_CHAT ls).1.chatHistory = [] ∧
      (appReducer clock st .NEW_CHAT ls).1.currentSessionId = none := by
  have hlen : decide (st.chatHistory.length > 0) = true := by
    cases h : st.chatHistory with
    | nil => exact absurd h hT
    | cons a as => simp
  generalize hS : buildSession clock ⟨none, some (titleOf st.chatHistory "Chat"),
    some st.chatHistory, none⟩ (getConversationSessions ls) = S
  have hSi : S.id = "session_" ++ toString clock.now := by rw [← hS]; rfl
  have hSm : S.messages = st.chatHistory := by rw [← hS]; rfl
  have hreg : getConversationSessions (appReducer clock st .NEW_CHAT ls).2 =
      keepLast50 (getConversationSessions ls ++ [S]) := by
    simp only [appReducer, hu, truthy, Bool.not_false, hlen, Bool.and_self, if_true,
      sessions_setCurrentSession]
    rw [save_sessions _ _ _ hw, sessions_with, hS, updateOrAdd_fresh]
    intro x hx
    rw [hSi]
    exact hfresh x hx
  have hdrop : keepLast50 (getConversationSessions ls ++ [S]) =
      (getConversationSessions ls ++ [S]).drop ((getConversationSessions ls).length + 1 - 50) := by
    rw [keepLast50_eq_drop]; simp
  refine ⟨S, hSi, hSm, ?_, ?_, ?_, ?_, rfl, rfl⟩
  · intro hin
    exact hfresh S hin hSi
  · rw [hreg, hdrop]
  · rw [hreg]
    obtain ⟨ys, hys, _⟩ := keepLast50_append_last (getConversationSessions ls) S
    rw [hys]; simp
  · intro hlt
    rw [hreg, keepLast50_of_le]
    simp; omega

/-- C2 amended, at a registry that already holds a session with the same
messages: the archive is a second record. -/
theorem new_chat_archives_witness :
    (getConversationSessions (appReducer ⟨7, "t7"⟩ { chatHistory := [⟨"user", "hi", "t1", none⟩] }
      .NEW_CHAT { conversationSessions := some (
        [⟨"session_5", "hi", [⟨"user", "hi", "t1", none⟩], "t5", "t5", 1⟩]) }).2).length = 2 := by
  obtain ⟨r, _, _, _, _, _, h6, _, _⟩ :=
    new_chat_archives ⟨7, "t7"⟩ { chatHistory := [⟨"user", "hi", "t1", none⟩] }
      { conversationSessions := some (
        [⟨"session_5", "hi", [⟨"user", "hi", "t1", none⟩], "t5", "t5", 1⟩]) }
      rfl (by decide) (by decide) (by decide)
  rw [h6 (by decide)]
  rfl

/-- C3 (bound new-chat does not duplicate).  When the state is bound
(`currentSessionId` is a session id, a non-empty string), `NEW_CHAT` leaves the
stored session list as it was, and returns a state with an empty transcript and
`currentSessionId = null`. -/
theorem new_chat_bound (clock : Clock) (st : AppState) (ls : LocalStorage) (i : String)
    (hb : st.currentSessionId = some i) (hi : i ≠ "") :
    (appReducer clock st .NEW_CHAT ls).2.conversationSessions = ls.conversationSessions ∧
    getConversationSessions (appReducer clock st .NEW_CHAT ls).2 = getConversationSessions ls ∧
    (getConversationSessions (appReducer clock st .NEW_CHAT ls).2).length =
      (getConversationSessions ls).length ∧
    (appReducer clock st .NEW_CHAT ls).1.chatHistory = [] ∧
    (appReducer clock st .NEW_CHAT ls).1.currentSessionId = none := by
  have hreg : (appReducer clock st .NEW_CHAT ls).2.conversationSessions =
      ls.conversationSessions := by
    have hne : (i != "") = true := by simpa using hi
    simp only [appReducer, hb, truthy, hne, Bool.not_true, Bool.false_and, Bool.false_eq_true,
      if_false]
    unfold setCurrentSession
    split <;> rfl
  refine ⟨hreg, ?_, ?_, rfl, rfl⟩
  · unfold getConversationSessions; rw [hreg]
  · unfold getConversationSessions; rw [hreg]

/-- C3 at a bound two-message transcript. -/
theorem new_chat_bound_witness :
    (appReducer ⟨7, "t7"⟩
      { chatHistory := [⟨"user", "hi", "t1", none⟩, ⟨"assistant", "hello", "t2", none⟩],
        currentSessionId := some "session_5" } .NEW_CHAT
      { conversationSessions := some ([⟨"session_5", "hi", [⟨"user", "hi", "t1", none⟩, ⟨"assistant", "hello", "t2", none⟩],
            "t5", "t5", 2⟩]) }).2.conversationSessions =
      some [⟨"session_5", "hi", [⟨"user", "hi", "t1", none⟩, ⟨"assistant", "hello", "t2", none⟩],
            "t5", "t5", 2⟩] :=
  (new_chat_bound ⟨7, "t7"⟩
      { chatHistory := [⟨"user", "hi", "t1", none⟩, ⟨"assistant", "hello", "t2", none⟩],
        currentSessionId := some "session_5" }
      { conversationSessions := some ([⟨"session_5", "hi", [⟨"user", "hi", "t1", none⟩, ⟨"assistant", "hello", "t2", none⟩],
            "t5", "t5", 2⟩]) } "session_5" rfl (by decide)).1


@[simp] theorem throws_save (clock : Clock) (sd : SessionData) (ls : LocalStorage)
    (k : StorageKey) :
    setItemThrows (saveConversationSession clock sd ls).2 k = setItemThrows ls k := by
  unfold saveConversationSession
  simp only
  split <;> rfl

/-- Saving a record whose id is not stored, on ids: append, then keep the last 50. -/
theorem ids_after_fresh_save (ids : List String) (reg : List Session) (s : Session)
    (hinv : reg.map (·.id) = ids.drop (ids.length - 50))
    (hfresh : s.id ∉ ids) :
    (keepLast50 (updateOrAdd reg s)).map (·.id) =
      (ids ++ [s.id]).drop ((ids ++ [s.id]).length - 50) := by
  have hfr : ∀ x ∈ reg, x.id ≠ s.id := by
    intro x hx heq
    have : x.id ∈ reg.map (·.id) := List.mem_map_of_mem _ hx
    rw [hinv] at this
    exact hfresh (heq ▸ List.mem_of_mem_drop this)
  have hlen : reg.length = ids.length - (ids.length - 50) := by
    have := congrArg List.length hinv
    simpa using this
  rw [updateOrAdd_fresh _ _ hfr, keepLast50_eq_drop]
  simp only [List.map_drop, List.map_append, List.map_cons, List.map_nil, hinv,
    List.length_append, List.length_singleton]
  by_cases h50 : ids.length < 50
  · have e1 : ids.length - 50 = 0 := by omega
    have e2 : reg.length + 1 - 50 = 0 := by omega
    have e3 : ids.length + 1 - 50 = 0 := by omega
    rw [e1, e2, e3]
    simp
  · have e2 : reg.length + 1 - 50 = 1 := by omega
    have e3 : ids.length + 1 - 50 = (ids.length - 50) + 1 := by omega
    rw [e2, e3]
    rw [List.drop_append_of_le_length (by simp; omega)]
    rw [List.drop_append_of_le_length (by omega)]
    rw [List.drop_drop]

/-- Successive saves of records with pairwise distinct ids, none of them stored
before: the stored ids are the last 50 of the ids saved so far. -/
theorem ids_after_saves (items : List (Clock × SessionData)) :
    ∀ (ids : List String) (ls : LocalStorage),
      setItemThrows ls .CONVERSATION_SESSIONS = false →
      (getConversationSessions ls).map (·.id) = ids.drop (ids.length - 50) →
      (ids ++ items.map (fun p => sessionIdOf p.1 p.2)).Nodup →
      (getConversationSessions
          (items.foldl (fun st p => (saveConversationSession p.1 p.2 st).2) ls)).map (·.id) =
        (ids ++ items.map (fun p => sessionIdOf p.1 p.2)).drop
          ((ids ++ items.map (fun p => sessionIdOf p.1 p.2)).length - 50) := by
  induction items with
  | nil => intro ids ls _ hinv _; simpa using hinv
  | cons p ps ih =>
    intro ids ls hw hinv hnd
    simp only [List.foldl_cons, List.map_cons]
    have hnd2 : ((ids ++ [sessionIdOf p.1 p.2]) ++ ps.map (fun p => sessionIdOf p.1 p.2)).Nodup := by
      simpa using hnd
    have hfresh : sessionIdOf p.1 p.2 ∉ ids := by
      intro hin
      have := List.nodup_append.1 hnd
      exact this.2.2 hin (by simp)
    have hstep := ih (ids ++ [sessionIdOf p.1 p.2]) (saveConversationSession p.1 p.2 ls).2
      (by simpa using hw)
      (by
        rw [save_sessions _ _ _ hw, sessions_with]
        exact ids_after_fresh_save ids _ _ hinv hfresh)
      hnd2
    simpa using hstep


theorem save_ok_iff (clock : Clock) (sd : SessionData) (ls : LocalStorage) :
    (saveConversationSession clock sd ls).1 ≠ none ↔
      setItemThrows ls .CONVERSATION_SESSIONS = false := by
  unfold saveConversationSession
  simp only
  split <;> simp_all

/-- C4 (cap enforcement).  Saving 51 session records whose ids are pairwise
distinct, one after another, into an empty registry leaves exactly 50 sessions:
the first-saved id is absent and the stored ids are the other 50 in the order of
saving.  In general, after a successful `saveConversationSession` the registry
holds at most 50 sessions, and it is the list obtained by the update-or-add step
with a prefix `removed` taken off its front, `removed` being empty unless that
list had more than 50 entries; the entries kept are in their former order. -/
theorem cap_enforcement (items : List (Clock × SessionData)) (ls0 : LocalStorage)
    (clock : Clock) (sd : SessionData) (ls : LocalStorage)
    (hn : items.length = 51)
    (hdistinct : (items.map (fun p => sessionIdOf p.1 p.2)).Nodup)
    (hempty : getConversationSessions ls0 = [])
    (hw0 : setItemThrows ls0 .CONVERSATION_SESSIONS = false)
    (hok : (saveConversationSession clock sd ls).1 ≠ none) :
    ((getConversationSessions
        (items.foldl (fun st p => (saveConversationSession p.1 p.2 st).2) ls0)).length = 50 ∧
     (getConversationSessions
        (items.foldl (fun st p => (saveConversationSession p.1 p.2 st).2) ls0)).map (·.id) =
        (items.map (fun p => sessionIdOf p.1 p.2)).drop 1 ∧
     ∀ p, items.head? = some p →
       ∀ s ∈ getConversationSessions
         (items.foldl (fun st p => (saveConversationSession p.1 p.2 st).2) ls0),
         s.id ≠ sessionIdOf p.1 p.2) ∧
    ((getConversationSessions (saveConversationSession clock sd ls).2).length ≤ 50 ∧
     ∃ removed : List Session,
       updateOrAdd (getConversationSessions ls)
           (buildSession clock sd (getConversationSessions ls)) =
         removed ++ getConversationSessions (saveConversationSession clock sd ls).2 ∧
       removed.length =
         (updateOrAdd (getConversationSessions ls)
           (buildSession clock sd (getConversationSessions ls))).length - 50) := by
  constructor
  · have hids := ids_after_saves items [] ls0 hw0 (by simp [hempty]) (by simpa using hdistinct)
    simp only [List.nil_append, List.length_map, hn] at hids
    have hlen : (getConversationSessions
        (items.foldl (fun st p => (saveConversationSession p.1 p.2 st).2) ls0)).length = 50 := by
      have := congrArg List.length hids
      simpa [hn] using this
    refine ⟨hlen, hids, ?_⟩
    intro p hp s hs heq
    have hmem : s.id ∈ (items.map (fun p => sessionIdOf p.1 p.2)).drop 1 := by
      rw [← hids]; exact List.mem_map_of_mem _ hs
    cases items with
    | nil => simp at hn
    | cons q qs =>
      simp only [List.head?_cons, Option.some.injEq] at hp
      subst hp
      simp only [List.map_cons, List.drop_succ_cons, List.drop_zero] at hmem
      simp only [List.map_cons, List.nodup_cons] at hdistinct
      exact hdistinct.1 (heq ▸ hmem)
  · have hw := (save_ok_iff clock sd ls).1 hok
    rw [save_sessions _ _ _ hw, sessions_with]
    refine ⟨keepLast50_length_le _, ?_⟩
    refine ⟨(updateOrAdd (getConversationSessions ls)
      (buildSession clock sd (getConversationSessions ls))).take
        ((updateOrAdd (getConversationSessions ls)
          (buildSession clock sd (getConversationSessions ls))).length - 50), ?_, ?_⟩
    · rw [keepLast50_eq_drop, List.take_append_drop]
    · simp

set_option maxRecDepth 100000 in
/-- C4 at 51 saves without an id at the clock readings 0, 1, ..., 50, and a
save into a store whose writes succeed. -/
theorem cap_enforcement_witness :
    (getConversationSessions
      (((List.range 51).map (fun n => ((⟨n, "t"⟩ : Clock), ({} : SessionData)))).foldl
        (fun st p => (saveConversationSession p.1 p.2 st).2) {})).length = 50 :=
  (cap_enforcement ((List.range 51).map (fun n => ((⟨n, "t"⟩ : Clock), ({} : SessionData)))) {}
    ⟨0, "t"⟩ {} {} (by decide) (by decide) (by decide) (by decide) (by decide)).1.1


/-- C5, the code at a failing input.  Renaming the stored session `s1`, which
holds one message, to `"B"` stores the new title but also replaces its messages
by the empty list and its `messageCount` by 0: `handleConfirmRename` passes only
`id` and `title`, and `saveConversationSession` falls back to the stored record
for `title` and `createdAt` but not for `messages`. -/
theorem rename_drops_messages :
    getConversationSessions (handleConfirmRename ⟨9, "t9"⟩ "s1" { renameValue := "B" } {}
      { conversationSessions := some ([⟨"s1", "A", [⟨"user", "hi", "t1", none⟩], "t1", "t1", 1⟩]) }
      ).2.2 = [⟨"s1", "B", [], "t1", "t9", 0⟩] := by
  decide

theorem find?_set_first {α : Type} (p : α → Bool) (a : α) (ha : p a = true) :
    ∀ (xs : List α) (k : Nat), findIndex p xs = some k → (xs.set k a).find? p = some a := by
  intro xs
  induction xs with
  | nil => intro k h; simp [findIndex] at h
  | cons x xs ih =>
    intro k h
    by_cases hx : p x = true
    · simp [findIndex, hx] at h
      subst h
      simp [List.set, List.find?, ha]
    · simp only [findIndex, hx, Bool.false_eq_true, if_false, Option.map_eq_some'] at h
      obtain ⟨j, hj, rfl⟩ := h
      simp [List.set, List.find?, hx, ih j hj]

theorem find?_append_fresh {α : Type} (p : α → Bool) (a : α) (ha : p a = true)
    (xs : List α) (hxs : ∀ x ∈ xs, p x = false) : (xs ++ [a]).find? p = some a := by
  induction xs with
  | nil => simp [List.find?, ha]
  | cons x xs ih =>
    have hx : p x = false := hxs x (by simp)
    simp only [List.cons_append, List.find?, hx]
    exact ih (fun y hy => hxs y (by simp [hy]))

/-- Within the cap, looking up the id of the record just stored finds that record. -/
theorem find?_after_save (xs : List Session) (s : Session) (hcap : xs.length ≤ 50) :
    (keepLast50 (updateOrAdd xs s)).find? (fun x => x.id == s.id) = some s := by
  unfold updateOrAdd
  split
  · next k hk =>
    rw [keepLast50_of_le _ (by simpa using hcap)]
    exact find?_set_first _ s (by simp) xs k hk
  · next hnone =>
    obtain ⟨ys, hys, hdrop⟩ := keepLast50_append_last xs s
    rw [hys]
    apply find?_append_fresh _ s (by simp)
    intro x hx
    rw [hdrop] at hx
    exact (findIndex_none _ xs).1 hnone x (List.mem_of_mem_drop hx)

/-- C6 (save then get).  For a registry of at most 50 sessions and any
`sessionData`, a save whose write succeeds returns the session id, which is
`sessionData.id` when that is a non-empty string and the generated
`session_<Date.now()>` otherwise; afterwards `getConversationSession` of the
returned id gives a session with that id and with the messages of `sessionData`
(the empty list when `sessionData` has none). -/
theorem save_then_get (clock : Clock) (sd : SessionData) (ls : LocalStorage)
    (hw : setItemThrows ls .CONVERSATION_SESSIONS = false)
    (hcap : (getConversationSessions ls).length ≤ 50) :
    ∃ (rid : String) (s : Session),
      (saveConversationSession clock sd ls).1 = some rid ∧
      (∀ i, sd.id = some i → i ≠ "" → rid = i) ∧
      (sd.id = none ∨ sd.id = some "" → rid = "session_" ++ toString clock.now) ∧
      getConversationSession rid (saveConversationSession clock sd ls).2 = some s ∧
      s.id = rid ∧
      s.messages = sd.messages.getD [] := by
  refine ⟨sessionIdOf clock sd, buildSession clock sd (getConversationSessions ls), ?_, ?_, ?_,
    ?_, rfl, ?_⟩
  · rw [save_sessions _ _ _ hw]
  · intro i hi hne
    have : (i != "") = true := by simpa using hne
    simp [sessionIdOf, hi, this]
  · rintro (h | h) <;> simp [sessionIdOf, h]
  · rw [save_sessions _ _ _ hw]
    unfold getConversationSession
    rw [sessions_with]
    have h := find?_after_save (getConversationSessions ls)
      (buildSession clock sd (getConversationSessions ls)) hcap
    exact h
  · unfold buildSession
    cases sd.messages <;> rfl

/-- C6 at a save with an id into a one-session registry. -/
theorem save_then_get_witness :
    (getConversationSession "s2"
      (saveConversationSession ⟨9, "t9"⟩
        { id := some "s2", messages := some [⟨"user", "hi", "t1", none⟩] }
        { conversationSessions := some ([⟨"s1", "A", [], "t0", "t0", 0⟩]) }).2).map (·.messages) =
      some [⟨"user", "hi", "t1", none⟩] := by
  obtain ⟨rid, s, _, h2, _, h4, _, h6⟩ := save_then_get ⟨9, "t9"⟩
    { id := some "s2", messages := some [⟨"user", "hi", "t1", none⟩] }
    { conversationSessions := some ([⟨"s1", "A", [], "t0", "t0", 0⟩]) } (by decide) (by decide)
  have hrid : rid = "s2" := h2 "s2" rfl (by decide)
  subst hrid
  rw [h4, Option.map_some', h6]
  rfl


/-- Saving under an id that is stored, within the cap: the first record with that
id is replaced in place, and it is the record the fallbacks read. -/
theorem save_existing (clock : Clock) (sd : SessionData) (xs : List Session) (k : Nat)
    (s : Session) (hk : xs.get? k = some s) (hs : s.id = sessionIdOf clock sd)
    (hfirst : ∀ j y, j < k → xs.get? j = some y → y.id ≠ sessionIdOf clock sd)
    (hcap : xs.length ≤ 50) :
    keepLast50 (updateOrAdd xs (buildSession clock sd xs)) = xs.set k (buildSession clock sd xs) ∧
    xs.find? (fun x => x.id == sessionIdOf clock sd) = some s := by
  have hidx : findIndex (fun x => x.id == sessionIdOf clock sd) xs = some k := by
    apply findIndex_first _ xs k s hk (by simp [hs])
    intro j y hj hy
    simpa using hfirst j y hj hy
  have hfind := (findIndex_some_get _ xs k hidx).2
  rw [hk] at hfind
  refine ⟨?_, hfind⟩
  have hupd : updateOrAdd xs (buildSession clock sd xs) = xs.set k (buildSession clock sd xs) := by
    unfold updateOrAdd
    have hid : (buildSession clock sd xs).id = sessionIdOf clock sd := rfl
    rw [hid, hidx]
  rw [hupd, keepLast50_of_le _ (by simpa using hcap)]

theorem get?_set_other {α : Type} (xs : List α) (k j : Nat) (a : α) (h : j ≠ k) :
    (xs.set k a).get? j = xs.get? j := by
  simp [List.get?_eq_getElem?, List.getElem?_set, Ne.symm h]

theorem get?_set_self {α : Type} (xs : List α) (k : Nat) (a x : α) (h : xs.get? k = some x) :
    (xs.set k a).get? k = some a := by
  have hlt : k < xs.length := by
    rw [List.get?_eq_getElem?] at h
    exact (List.getElem?_eq_some.1 h).1
  simp [List.get?_eq_getElem?, List.getElem?_set, hlt]

/-- C7 (update in place).  Let the registry hold at most 50 sessions and let `s`,
at position `k`, be its (first) session with the non-empty id `i`, with a
non-empty `createdAt`.  A successful `saveConversationSession({id: i, messages: m})`
keeps the number of sessions, puts at position `k` a session with the same id,
the same `createdAt` and the messages `m`, and leaves the record at every other
position as it was. -/
theorem update_in_place (clock : Clock) (ls : LocalStorage) (i : String) (m : List Message)
    (k : Nat) (s : Session)
    (hw : setItemThrows ls .CONVERSATION_SESSIONS = false)
    (hcap : (getConversationSessions ls).length ≤ 50)
    (hi : i ≠ "")
    (hk : (getConversationSessions ls).get? k = some s) (hs : s.id = i)
    (hfirst : ∀ j y, j < k → (getConversationSessions ls).get? j = some y → y.id ≠ i)
    (hc : s.createdAt ≠ "") :
    ∃ s' : Session,
      getConversationSessions
          (saveConversationSession clock { id := some i, messages := some m } ls).2 =
        (getConversationSessions ls).set k s' ∧
      (getConversationSessions
          (saveConversationSession clock { id := some i, messages := some m } ls).2).length =
        (getConversationSessions ls).length ∧
      (getConversationSessions
          (saveConversationSession clock { id := some i, messages := some m } ls).2).get? k =
        some s' ∧
      s'.id = i ∧ s'.createdAt = s.createdAt ∧ s'.messages = m ∧ s'.messageCount = m.length ∧
      ∀ j, j ≠ k →
        (getConversationSessions
          (saveConversationSession clock { id := some i, messages := some m } ls).2).get? j =
        (getConversationSessions ls).get? j := by
  have hne : (i != "") = true := by simpa using hi
  have hid : sessionIdOf clock ⟨some i, none, some m, none⟩ = i := by
    simp [sessionIdOf, hne]
  obtain ⟨hreg, hfind⟩ := save_existing clock ⟨some i, none, some m, none⟩
    (getConversationSessions ls) k s hk (by rw [hid]; exact hs)
    (by rw [hid]; exact hfirst) hcap
  have hcne : (s.createdAt != "") = true := by simpa using hc
  refine ⟨buildSession clock ⟨some i, none, some m, none⟩ (getConversationSessions ls),
    ?_, ?_, ?_, hid, ?_, rfl, rfl, ?_⟩
  · rw [save_sessions _ _ _ hw, sessions_with, hreg]
  · rw [save_sessions _ _ _ hw, sessions_with, hreg, List.length_set]
  · rw [save_sessions _ _ _ hw, sessions_with, hreg]
    exact get?_set_self _ _ _ _ hk
  · simp [buildSession, hfind, orChain, hcne]
  · intro j hj
    rw [save_sessions _ _ _ hw, sessions_with, hreg]
    exact get?_set_other _ _ _ _ hj

/-- C7 at the second of two stored sessions. -/
theorem update_in_place_witness :
    (getConversationSessions
      (saveConversationSession ⟨9, "t9"⟩
        { id := some "s2", messages := some [⟨"user", "hi", "t1", none⟩] }
        { conversationSessions := some ([⟨"s1", "A", [], "t0", "t0", 0⟩,
            ⟨"s2", "B", [], "t1", "t1", 0⟩]) }).2).get? 0 =
      some ⟨"s1", "A", [], "t0", "t0", 0⟩ := by
  obtain ⟨s', _, _, _, _, _, _, _, h8⟩ := update_in_place ⟨9, "t9"⟩
    { conversationSessions := some ([⟨"s1", "A", [], "t0", "t0", 0⟩,
        ⟨"s2", "B", [], "t1", "t1", 0⟩]) }
    "s2" [⟨"user", "hi", "t1", none⟩] 1 ⟨"s2", "B", [], "t1", "t1", 0⟩
    (by decide) (by decide) (by decide) rfl rfl
    (by
      intro j y hj hy
      have hj0 : j = 0 := by omega
      subst hj0
      have hy' : y = ⟨"s1", "A", [], "t0", "t0", 0⟩ := by
        have : some (⟨"s1", "A", [], "t0", "t0", 0⟩ : Session) = some y := hy
        exact (Option.some.inj this).symm
      subst hy'
      decide)
    (by decide)
  exact h8 0 (by decide)


@[simp] theorem throws_with (ls : LocalStorage) (xs : Option (List Session)) (k : StorageKey) :
    setItemThrows { ls with conversationSessions := xs } k = setItemThrows ls k := rfl

/-- C8 (delete removes by id and is idempotent).  `deleteConversationSession`
is total (the source catches every error and returns a flag).  When the write
succeeds it returns `true` and the registry becomes the prior list without the
sessions having that id, in the prior order.  Whether or not the write succeeds,
the registry's contents and size are unchanged when no session has that id, and
deleting the same id twice leaves the same store as deleting it once. -/
theorem delete_removes_by_id (sessionId : String) (ls : LocalStorage) :
    (setItemThrows ls .CONVERSATION_SESSIONS = false →
      (deleteConversationSession sessionId ls).1 = true ∧
      getConversationSessions (deleteConversationSession sessionId ls).2 =
        (getConversationSessions ls).filter (fun s => s.id != sessionId) ∧
      (∀ s ∈ getConversationSessions (deleteConversationSession sessionId ls).2,
        s.id ≠ sessionId) ∧
      (getConversationSessions (deleteConversationSession sessionId ls).2).Sublist
        (getConversationSessions ls)) ∧
    ((∀ s ∈ getConversationSessions ls, s.id ≠ sessionId) →
      getConversationSessions (deleteConversationSession sessionId ls).2 =
        getConversationSessions ls ∧
      (getConversationSessions (deleteConversationSession sessionId ls).2).length =
        (getConversationSessions ls).length) ∧
    (deleteConversationSession sessionId (deleteConversationSession sessionId ls).2).2 =
      (deleteConversationSession sessionId ls).2 := by
  refine ⟨?_, ?_, ?_⟩
  · intro hw
    have hreg : getConversationSessions (deleteConversationSession sessionId ls).2 =
        (getConversationSessions ls).filter (fun s => s.id != sessionId) := by
      simp [deleteConversationSession, hw]
    refine ⟨by simp [deleteConversationSession, hw], hreg, ?_, ?_⟩
    · intro s hs
      rw [hreg] at hs
      simpa using (List.mem_filter.1 hs).2
    · rw [hreg]
      exact List.filter_sublist _
  · intro hno
    have hfilter : (getConversationSessions ls).filter (fun s => s.id != sessionId) =
        getConversationSessions ls := by
      rw [List.filter_eq_self]
      intro s hs
      simpa using hno s hs
    have hreg : getConversationSessions (deleteConversationSession sessionId ls).2 =
        getConversationSessions ls := by
      unfold deleteConversationSession
      simp only
      split
      · rfl
      · rw [sessions_with, hfilter]
    exact ⟨hreg, by rw [hreg]⟩
  · unfold deleteConversationSession
    simp only
    by_cases hw : setItemThrows ls .CONVERSATION_SESSIONS = true
    · simp [hw]
    · simp [hw, throws_with, List.filter_filter]

/-- C8 at the id of a stored session and at an id that is not stored. -/
theorem delete_removes_by_id_witness :
    getConversationSessions (deleteConversationSession "s1"
      { conversationSessions := some ([⟨"s1", "A", [], "t0", "t0", 0⟩,
          ⟨"s2", "B", [], "t1", "t1", 0⟩]) }).2 = [⟨"s2", "B", [], "t1", "t1", 0⟩] ∧
    (getConversationSessions (deleteConversationSession "nonexistent-id"
      { conversationSessions := some ([⟨"s1", "A", [], "t0", "t0", 0⟩,
          ⟨"s2", "B", [], "t1", "t1", 0⟩]) }).2).length = 2 :=
  ⟨((delete_removes_by_id "s1"
      { conversationSessions := some ([⟨"s1", "A", [], "t0", "t0", 0⟩,
          ⟨"s2", "B", [], "t1", "t1", 0⟩]) }).1 (by decide)).2.1,
   ((delete_removes_by_id "nonexistent-id"
      { conversationSessions := some ([⟨"s1", "A", [], "t0", "t0", 0⟩,
          ⟨"s2", "B", [], "t1", "t1", 0⟩]) }).2.1 (by decide)).2⟩

theorem trimChars_blank (cs : List Char) (h : cs.all isJsWhitespace = true) :
    trimChars cs = [] := by
  have hdrop : cs.dropWhile isJsWhitespace = [] := by
    rw [List.dropWhile_eq_nil_iff]
    intro c hc
    exact List.all_eq_true.1 h c hc
  simp [trimChars, hdrop]

/-- C9 (rename rejects blank).  When the rename value is empty or made of white
space only, `handleConfirmRename` leaves the store as it was, hence the stored
session list and every title in it, and leaves the application state as it was;
it only closes the rename field. -/
theorem rename_rejects_blank (clock : Clock) (id : String) (sb : SidebarState) (st : AppState)
    (ls : LocalStorage) (hblank : sb.renameValue.data.all isJsWhitespace = true) :
    (handleConfirmRename clock id sb st ls).2.2 = ls ∧
    getConversationSessions (handleConfirmRename clock id sb st ls).2.2 =
      getConversationSessions ls ∧
    (handleConfirmRename clock id sb st ls).2.1 = st ∧
    (handleConfirmRename clock id sb st ls).1 = { sb with renamingId := none } := by
  have htrim : jsTrim sb.renameValue = "" := by
    unfold jsTrim
    rw [trimChars_blank _ hblank]
  simp [handleConfirmRename, htrim]

/-- C9 at the rename value of three spaces. -/
theorem rename_rejects_blank_witness :
    getConversationSessions (handleConfirmRename ⟨9, "t9"⟩ "s1" { renameValue := "   " } {}
      { conversationSessions := some ([⟨"s1", "A", [], "t0", "t0", 0⟩]) }).2.2 =
      [⟨"s1", "A", [], "t0", "t0", 0⟩] :=
  (rename_rejects_blank ⟨9, "t9"⟩ "s1" { renameValue := "   " } {}
    { conversationSessions := some ([⟨"s1", "A", [], "t0", "t0", 0⟩]) } (by decide)).2.1

/-- C10 (write-through keeps the title of a bound session).  Let the registry
hold at most 50 sessions and let `s`, at position `k`, be its (first) session
with the non-empty id `i`, its title `t` non-empty.  The write-through step of a
state bound to `i` with a non-empty transcript, the write succeeding, puts at
position `k` a session with id `i`, title `t` and the transcript as messages,
and changes no other position. -/
theorem write_through_keeps_title (clock : Clock) (st : AppState) (ls : LocalStorage)
    (i t : String) (k : Nat) (s : Session)
    (hT : st.chatHistory ≠ []) (hb : st.currentSessionId = some i) (hi : i ≠ "")
    (hw : setItemThrows ls .CONVERSATION_SESSIONS = false)
    (hcap : (getConversationSessions ls).length ≤ 50)
    (hk : (getConversationSessions ls).get? k = some s) (hs : s.id = i)
    (hfirst : ∀ j y, j < k → (getConversationSessions ls).get? j = some y → y.id ≠ i)
    (ht : s.title = t) (hne : t ≠ "") :
    ∃ s' : Session,
      getConversationSessions (writeThrough clock st ls).2 =
        (getConversationSessions ls).set k s' ∧
      (getConversationSessions (writeThrough clock st ls).2).get? k = some s' ∧
      s'.id = i ∧ s'.title = t ∧ s'.messages = st.chatHistory := by
  have hlen : (st.chatHistory.length == 0) = false := by
    cases h : st.chatHistory with
    | nil => exact absurd h hT
    | cons a as => rfl
  have hine : (i != "") = true := by simpa using hi
  have hid : sessionIdOf clock ⟨some i, none, some st.chatHistory, none⟩ = i := by
    simp [sessionIdOf, hine]
  obtain ⟨hreg, hfind⟩ := save_existing clock ⟨some i, none, some st.chatHistory, none⟩
    (getConversationSessions ls) k s hk (by rw [hid]; exact hs)
    (by rw [hid]; exact hfirst) hcap
  have htne : (s.title != "") = true := by rw [ht]; simpa using hne
  have hwt : getConversationSessions (writeThrough clock st ls).2 =
      (getConversationSessions ls).set k
        (buildSession clock ⟨some i, none, some st.chatHistory, none⟩
          (getConversationSessions ls)) := by
    unfold writeThrough
    simp only [hlen, hb, truthy, hine, Bool.false_eq_true, if_false, if_true]
    rw [save_sessions _ _ _ (by simpa using hw), sessions_with, sessions_saveChatHistory, hreg]
  refine ⟨buildSession clock ⟨some i, none, some st.chatHistory, none⟩
    (getConversationSessions ls), hwt, ?_, hid, ?_, rfl⟩
  · rw [hwt]
    exact get?_set_self _ _ _ _ hk
  · simp [buildSession, hfind, orChain, ht, hne]

/-- C10 at a renamed session bound to a two-message transcript. -/
theorem write_through_keeps_title_witness :
    (getConversationSessions (writeThrough ⟨9, "t9"⟩
      { chatHistory := [⟨"user", "hi", "t1", none⟩, ⟨"assistant", "hello", "t2", none⟩],
        currentSessionId := some "s1" }
      { conversationSessions := some ([⟨"s1", "My talk", [⟨"user", "hi", "t1", none⟩],
          "t1", "t1", 1⟩]) }).2).map (·.title) = ["My talk"] := by
  obtain ⟨s', h1, _, _, h4, _⟩ := write_through_keeps_title ⟨9, "t9"⟩
    { chatHistory := [⟨"user", "hi", "t1", none⟩, ⟨"assistant", "hello", "t2", none⟩],
      currentSessionId := some "s1" }
    { conversationSessions := some ([⟨"s1", "My talk", [⟨"user", "hi", "t1", none⟩],
        "t1", "t1", 1⟩]) }
    "s1" "My talk" 0 ⟨"s1", "My talk", [⟨"user", "hi", "t1", none⟩], "t1", "t1", 1⟩
    (by decide) rfl (by decide) (by decide) (by decide) rfl rfl
    (by intro j y hj; omega) rfl (by decide)
  rw [h1]
  simp [getConversationSessions, h4]


/-! ## Stored records are well formed

The hypotheses on stored records used in the theorems above (non-empty `id`, `title` and
`createdAt`, at most 50 records) hold of every registry the code writes. -/

theorem orChain_ne_empty (a b : Option String) (dflt : String) (hd : dflt ≠ "") :
    orChain a b dflt ≠ "" := by
  unfold orChain
  cases a with
  | none =>
    cases b with
    | none => exact hd
    | some y =>
      by_cases hy : y = ""
      · simpa [hy] using hd
      · simp [hy]
  | some x =>
    by_cases hx : x = ""
    · cases b with
      | none => simpa [hx] using hd
      | some y =>
        by_cases hy : y = ""
        · simpa [hx, hy] using hd
        · simp [hx, hy]
    · simp [hx]

theorem buildSession_wellFormed (clock : Clock) (sd : SessionData) (xs : List Session)
    (hiso : clock.iso ≠ "") : wellFormedSession (buildSession clock sd xs) = true := by
  have h1 : (buildSession clock sd xs).id ≠ "" := sessionIdOf_ne_empty clock sd
  have h2 : (buildSession clock sd xs).title ≠ "" :=
    orChain_ne_empty _ _ _ (by decide)
  have h3 : (buildSession clock sd xs).createdAt ≠ "" := orChain_ne_empty _ _ _ hiso
  simp [wellFormedSession, h1, h2, h3]

/-- A save keeps the registry well formed, and within the cap when it succeeds. -/
theorem save_keeps_wellFormed (clock : Clock) (sd : SessionData) (ls : LocalStorage)
    (hiso : clock.iso ≠ "")
    (hall : ∀ s ∈ getConversationSessions ls, wellFormedSession s = true) :
    (∀ s ∈ getConversationSessions (saveConversationSession clock sd ls).2,
      wellFormedSession s = true) ∧
    (setItemThrows ls .CONVERSATION_SESSIONS = false →
      (getConversationSessions (saveConversationSession clock sd ls).2).length ≤ 50) := by
  by_cases hw : setItemThrows ls .CONVERSATION_SESSIONS = false
  · rw [save_sessions _ _ _ hw, sessions_with]
    refine ⟨?_, fun _ => keepLast50_length_le _⟩
    intro s hs
    rcases mem_updateOrAdd _ _ _ (mem_keepLast50 _ _ hs) with h | h
    · rw [h]; exact buildSession_wellFormed clock sd _ hiso
    · exact hall s h
  · have hw2 : setItemThrows ls .CONVERSATION_SESSIONS = true := by simpa using hw
    have hsame : (saveConversationSession clock sd ls).2 = ls := by
      simp [saveConversationSession, hw2]
    rw [hsame]
    exact ⟨hall, fun h => absurd h hw⟩

/-- A delete keeps the registry well formed and does not lengthen it. -/
theorem delete_keeps_wellFormed (sessionId : String) (ls : LocalStorage)
    (hall : ∀ s ∈ getConversationSessions ls, wellFormedSession s = true) :
    (∀ s ∈ getConversationSessions (deleteConversationSession sessionId ls).2,
      wellFormedSession s = true) ∧
    (getConversationSessions (deleteConversationSession sessionId ls).2).length ≤
      (getConversationSessions ls).length := by
  unfold deleteConversationSession
  simp only
  split
  · exact ⟨hall, Nat.le_refl _⟩
  · rw [sessions_with]
    exact ⟨fun s hs => hall s (List.mem_filter.1 hs).1, List.length_filter_le _ _⟩

/-- Whenever the write succeeds and the title is not blank, the rename leaves
the session found under `id` without messages (registry within the cap). -/
theorem rename_stores_no_messages (clock : Clock) (id : String) (sb : SidebarState)
    (st : AppState) (ls : LocalStorage) (hid : id ≠ "")
    (htitle : jsTrim sb.renameValue ≠ "")
    (hw : setItemThrows ls .CONVERSATION_SESSIONS = false)
    (hcap : (getConversationSessions ls).length ≤ 50) :
    ∃ s : Session, getConversationSession id (handleConfirmRename clock id sb st ls).2.2 = some s ∧
      s.title = jsTrim sb.renameValue ∧ s.messages = [] ∧ s.messageCount = 0 := by
  have hne : (id != "") = true := by simpa using hid
  have hsid : sessionIdOf clock ⟨some id, some (jsTrim sb.renameValue), none, none⟩ = id := by
    simp [sessionIdOf, hne]
  have hreg : getConversationSessions (handleConfirmRename clock id sb st ls).2.2 =
      keepLast50 (updateOrAdd (getConversationSessions ls)
        (buildSession clock ⟨some id, some (jsTrim sb.renameValue), none, none⟩
          (getConversationSessions ls))) := by
    simp only [handleConfirmRename, beq_iff_eq, htitle, if_false, refreshSessions, appReducer]
    rw [save_sessions _ _ _ hw, sessions_with]
  have hfind := find?_after_save (getConversationSessions ls)
    (buildSession clock ⟨some id, some (jsTrim sb.renameValue), none, none⟩
      (getConversationSessions ls)) hcap
  refine ⟨buildSession clock ⟨some id, some (jsTrim sb.renameValue), none, none⟩
    (getConversationSessions ls), ?_, ?_, rfl, rfl⟩
  · unfold getConversationSession
    rw [hreg]
    have hbid : (buildSession clock ⟨some id, some (jsTrim sb.renameValue), none, none⟩
      (getConversationSessions ls)).id = id := hsid
    rw [hbid] at hfind
    exact hfind
  · have : (jsTrim sb.renameValue != "") = true := by simpa using htitle
    simp [buildSession, orChain, this]


/-! ## Titles, clearing, switching and the initial load -/

theorem utf16Char_length (c : Char) : (utf16Char c).length = utf16Units c := by
  unfold utf16Char utf16Units
  split <;> rfl

theorem utf16Units_bounds (c : Char) : 1 ≤ utf16Units c ∧ utf16Units c ≤ 2 := by
  unfold utf16Units
  split <;> omega

/-- Away from a cut inside a surrogate pair, the code units of the characters
kept by `takeUnits n` are the first `n` code units. -/
theorem takeUnits_utf16 (cs : List Char) : ∀ n : Nat, cutsPair n cs = false →
    utf16Chars (takeUnits n cs) = (utf16Chars cs).take n := by
  induction cs with
  | nil => intro n _; simp [takeUnits, utf16Chars]
  | cons c cs ih =>
    intro n h
    unfold cutsPair at h
    unfold takeUnits
    by_cases hle : utf16Units c ≤ n
    · rw [if_pos hle] at h
      rw [if_pos hle]
      simp only [utf16Chars]
      rw [ih _ h, List.take_append_eq_append_take, utf16Char_length]
      have hfull : (utf16Char c).take n = utf16Char c :=
        List.take_of_length_le (by rw [utf16Char_length]; exact hle)
      rw [hfull]
    · rw [if_neg hle] at h
      rw [if_neg hle]
      have hn : n ≠ 1 := by simpa using h
      have := utf16Units_bounds c
      have h0 : n = 0 := by omega
      subst h0
      simp [utf16Chars]

/-- Away from a cut inside a surrogate pair, `slice0 s n` has the first `n` code
units of `s`. -/
theorem slice0_utf16 (s : String) (n : Nat) (h : cutsPair n s.data = false) :
    utf16 (slice0 s n) = (utf16 s).take n :=
  takeUnits_utf16 s.data n h

/-- A cut after two code units or more is empty only for the empty string. -/
theorem slice0_eq_empty (s : String) (n : Nat) (hn : 2 ≤ n) : slice0 s n = "" ↔ s = "" := by
  unfold slice0
  constructor
  · intro h
    have h2 := congrArg String.data h
    simp only at h2
    cases hd : s.data with
    | nil =>
      cases s
      simp at hd
      simp [hd]
    | cons c cs =>
      rw [hd] at h2
      unfold takeUnits at h2
      have := utf16Units_bounds c
      rw [if_pos (by omega)] at h2
      simp at h2
  · intro h
    subst h
    rfl

theorem titleOf_ne_empty (T : List Message) (dflt : String) (hd : dflt ≠ "") :
    titleOf T dflt ≠ "" := by
  unfold titleOf
  cases T.head? with
  | none => exact hd
  | some m =>
    by_cases h : slice0 m.content 30 = ""
    · simpa [h] using hd
    · simp [h]

/-- C11, the claim as stated fails when the first message of the transcript is
not a user message.  For the transcript `[assistant "Hello there", user "hi"]`
the session created by the write-through step is titled `"Hello there"`, not
`"hi"`; and for `[assistant "Hello there"]`, which has no user message, the title
is `"Hello there"` again, not `"Conversation"`. -/
theorem default_title_counterexample :
    (getConversationSessions (writeThrough ⟨5, "t5"⟩
      { chatHistory := [⟨"assistant", "Hello there", "t0", none⟩, ⟨"user", "hi", "t1", none⟩] }
      {}).2).map (·.title) = ["Hello there"] ∧
    (getConversationSessions (writeThrough ⟨5, "t5"⟩
      { chatHistory := [⟨"assistant", "Hello there", "t0", none⟩] }
      {}).2).map (·.title) = ["Hello there"] := by
  decide

/-- C11 (default title), amended.  When the write-through step creates a session
from an unbound transcript (no stored session has the same messages, the write
succeeds, the registry is within its cap), the session stored under the generated
id has the transcript as messages and a non-empty title taken from the content of
the first message of the transcript, whatever its role: `"Conversation"` when
that content is empty, and otherwise `content.slice(0, 30)`, whose UTF-16 code
units are the first 30 code units of the content (a character outside the basic
plane counts for two; stated for a cut that does not fall inside a surrogate
pair, where the code keeps a lone half that no `String` holds). -/
theorem default_title (clock : Clock) (st : AppState) (ls : LocalStorage) (m : Message)
    (rest : List Message)
    (hT : st.chatHistory = m :: rest) (hu : st.currentSessionId = none)
    (hw : setItemThrows ls .CONVERSATION_SESSIONS = false)
    (hcap : (getConversationSessions ls).length ≤ 50)
    (hno : ∀ s ∈ getConversationSessions ls, s.messages ≠ st.chatHistory) :
    ∃ S : Session,
      getConversationSession ("session_" ++ toString clock.now) (writeThrough clock st ls).2 =
        some S ∧
      (writeThrough clock st ls).1.currentSessionId = some S.id ∧
      S.messages = m :: rest ∧
      S.title ≠ "" ∧
      (m.content = "" → S.title = "Conversation") ∧
      (m.content ≠ "" → cutsPair 30 m.content.data = false →
        S.title = slice0 m.content 30 ∧ utf16 S.title = (utf16 m.content).take 30) := by
  have hne : st.chatHistory ≠ [] := by rw [hT]; exact List.cons_ne_nil _ _
  obtain ⟨hid, _, hreg⟩ := writeThrough_create clock st ls hne hu hw hno
  have hfind := find?_after_save (getConversationSessions ls)
    (buildSession clock ⟨none, some (titleOf st.chatHistory "Conversation"),
      some st.chatHistory, none⟩ (getConversationSessions ls)) hcap
  have htitle : (buildSession clock ⟨none, some (titleOf st.chatHistory "Conversation"),
      some st.chatHistory, none⟩ (getConversationSessions ls)).title =
      titleOf st.chatHistory "Conversation" := by
    have h := titleOf_ne_empty st.chatHistory "Conversation" (by decide)
    simp [buildSession, orChain, h]
  have hslice : slice0 m.content 30 = "" ↔ m.content = "" :=
    slice0_eq_empty m.content 30 (by decide)
  have htv : titleOf st.chatHistory "Conversation" =
      (if m.content = "" then "Conversation" else slice0 m.content 30) := by
    rw [hT]
    simp only [titleOf, List.head?_cons, bne_iff_ne, ne_eq, ite_not]
    by_cases h : m.content = ""
    · rw [if_pos (hslice.2 h), if_pos h]
    · rw [if_neg (fun h2 => h (hslice.1 h2)), if_neg h]
  refine ⟨buildSession clock ⟨none, some (titleOf st.chatHistory "Conversation"),
      some st.chatHistory, none⟩ (getConversationSessions ls), ?_, hid, ?_, ?_, ?_, ?_⟩
  · unfold getConversationSession
    rw [hreg]
    exact hfind
  · rw [← hT]; rfl
  · rw [htitle]
    exact titleOf_ne_empty st.chatHistory "Conversation" (by decide)
  · intro hcontent
    rw [htitle, htv, if_pos hcontent]
  · intro hcontent hcut
    rw [htitle, htv, if_neg hcontent]
    exact ⟨rfl, slice0_utf16 m.content 30 hcut⟩

/-- C11 amended, at a transcript that starts with an assistant message whose
content starts with a character outside the basic plane: the title has the
first 30 code units of the content, which are that character and 28 letters. -/
theorem default_title_witness :
    (getConversationSession "session_5" (writeThrough ⟨5, "t5"⟩
      { chatHistory := [⟨"assistant", "😀abcdefghijklmnopqrstuvwxyz0123456789", "t0", none⟩,
          ⟨"user", "hi", "t1", none⟩] }
      {}).2).map (fun S => utf16 S.title) =
      some (utf16 "😀abcdefghijklmnopqrstuvwxyz01") := by
  obtain ⟨S, h1, _, _, _, _, h5⟩ := default_title ⟨5, "t5"⟩
    { chatHistory := [⟨"assistant", "😀abcdefghijklmnopqrstuvwxyz0123456789", "t0", none⟩,
        ⟨"user", "hi", "t1", none⟩] }
    {} ⟨"assistant", "😀abcdefghijklmnopqrstuvwxyz0123456789", "t0", none⟩
    [⟨"user", "hi", "t1", none⟩]
    rfl rfl (by decide) (by decide) (by decide)
  have h1' : getConversationSession "session_5" (writeThrough ⟨5, "t5"⟩
      { chatHistory := [⟨"assistant", "😀abcdefghijklmnopqrstuvwxyz0123456789", "t0", none⟩,
          ⟨"user", "hi", "t1", none⟩] }
      {}).2 = some S := h1
  rw [h1', Option.map_some', (h5 (by decide) (by decide)).2]
  decide


/-- The state and the store after `CLEAR_CHAT`. -/
theorem clear_chat_result (clock : Clock) (st : AppState) (ls : LocalStorage) :
    appReducer clock st .CLEAR_CHAT ls =
      ({ st with chatHistory := [], currentChat := none }, ls) := rfl

/-- C12, the code at a failing input.  `CLEAR_CHAT` on a state bound to the
stored session `s1` empties the transcript and writes nothing to the store, but
it leaves `currentSessionId = "s1"` (it resets `currentChat`, a field nothing
reads, where `NEW_CHAT` and `CLEAR_ALL_CHAT_DATA` reset both).  The same holds of
`handleClearChat`.  With the binding left in place, a click on `s1` in the
sidebar is taken for a click on the current session and shows nothing, and the
write-through step after the next message replaces the messages stored for `s1`. -/
theorem clear_chat_keeps_binding :
    (appReducer ⟨9, "t9"⟩
      { chatHistory := [⟨"user", "hi", "t1", none⟩], currentSessionId := some "s1" } .CLEAR_CHAT
      { conversationSessions := some ([⟨"s1", "hi", [⟨"user", "hi", "t1", none⟩], "t1", "t1", 1⟩]) }
      ).1.currentSessionId = some "s1" ∧
    (appReducer ⟨9, "t9"⟩
      { chatHistory := [⟨"user", "hi", "t1", none⟩], currentSessionId := some "s1" } .CLEAR_CHAT
      { conversationSessions := some ([⟨"s1", "hi", [⟨"user", "hi", "t1", none⟩], "t1", "t1", 1⟩]) }
      ).1.chatHistory = [] ∧
    (handleClearChat ⟨9, "t9"⟩
      { chatHistory := [⟨"user", "hi", "t1", none⟩], currentSessionId := some "s1" }
      { conversationSessions := some ([⟨"s1", "hi", [⟨"user", "hi", "t1", none⟩], "t1", "t1", 1⟩]) }
      ).1.currentSessionId = some "s1" ∧
    (handleSessionClick ⟨9, "t9"⟩ ⟨"s1", "hi", [⟨"user", "hi", "t1", none⟩], "t1", "t1", 1⟩ {}
      (appReducer ⟨9, "t9"⟩
        { chatHistory := [⟨"user", "hi", "t1", none⟩], currentSessionId := some "s1" } .CLEAR_CHAT
        { conversationSessions := some ([⟨"s1", "hi", [⟨"user", "hi", "t1", none⟩], "t1", "t1", 1⟩]) }
        ).1
      { conversationSessions := some ([⟨"s1", "hi", [⟨"user", "hi", "t1", none⟩], "t1", "t1", 1⟩]) }
      ).2.1.chatHistory = [] ∧
    getConversationSessions (writeThrough ⟨11, "t11"⟩
      (appReducer ⟨10, "t10"⟩
        (appReducer ⟨9, "t9"⟩
          { chatHistory := [⟨"user", "hi", "t1", none⟩], currentSessionId := some "s1" } .CLEAR_CHAT
          { conversationSessions := some ([⟨"s1", "hi", [⟨"user", "hi", "t1", none⟩], "t1", "t1", 1⟩]) }
          ).1
        (.ADD_MESSAGE ⟨"user", "other", "t10", none⟩)
        { conversationSessions := some ([⟨"s1", "hi", [⟨"user", "hi", "t1", none⟩], "t1", "t1", 1⟩]) }
        ).1
      { conversationSessions := some ([⟨"s1", "hi", [⟨"user", "hi", "t1", none⟩], "t1", "t1", 1⟩]) }
      ).2 = [⟨"s1", "hi", [⟨"user", "other", "t10", none⟩], "t1", "t11", 1⟩] := by
  decide

theorem find?_id_of_mem (xs : List Session) (s : Session) (hs : s ∈ xs)
    (hnd : (xs.map (·.id)).Nodup) : xs.find? (fun x => x.id == s.id) = some s := by
  induction xs with
  | nil => simp at hs
  | cons x xs ih =>
    simp only [List.map_cons, List.nodup_cons] at hnd
    rcases List.mem_cons.1 hs with h | h
    · subst h
      simp [List.find?]
    · have hne : (x.id == s.id) = false := by
        have : x.id ≠ s.id := fun he => hnd.1 (he ▸ List.mem_map_of_mem _ h)
        simpa using this
      simp only [List.find?, hne]
      exact ih h hnd.2

/-- C13 (switch to session).  `handleSessionClick(s)` leaves the application
state and the store as they are when `s.id` is the current session id; otherwise
the resulting state has `currentSessionId = s.id` and, as transcript, the messages
of the listed record `s`.  When the list shown is the stored list and its ids are
pairwise distinct, `s` is the session stored under `s.id`, so these are the
stored session's messages. -/
theorem switch_to_session (clock : Clock) (s : Session) (sb : SidebarState) (st : AppState)
    (ls : LocalStorage) :
    (st.currentSessionId = some s.id →
      (handleSessionClick clock s sb st ls).2.1 = st ∧
      (handleSessionClick clock s sb st ls).2.2 = ls) ∧
    (st.currentSessionId ≠ some s.id →
      (handleSessionClick clock s sb st ls).2.1.currentSessionId = some s.id ∧
      (handleSessionClick clock s sb st ls).2.1.chatHistory = s.messages ∧
      (handleSessionClick clock s sb st ls).2.2 = ls) ∧
    (s ∈ st.sessionList → st.sessionList = getConversationSessions ls →
      ((getConversationSessions ls).map (·.id)).Nodup →
      getConversationSession s.id ls = some s) := by
  refine ⟨?_, ?_, ?_⟩
  · intro h
    simp [handleSessionClick, h]
  · intro h
    have hne : (st.currentSessionId != some s.id) = true := by simpa using h
    simp [handleSessionClick, hne, appReducer]
  · intro hmem hlist hnd
    rw [hlist] at hmem
    exact find?_id_of_mem _ s hmem hnd

/-- C13 at a switch from the session `s1` to the listed session `s2`. -/
theorem switch_to_session_witness :
    (handleSessionClick ⟨9, "t9"⟩ ⟨"s2", "B", [⟨"user", "yo", "t2", none⟩], "t2", "t2", 1⟩ {}
      { chatHistory := [⟨"user", "hi", "t1", none⟩], currentSessionId := some "s1" }
      {}).2.1.chatHistory = [⟨"user", "yo", "t2", none⟩] :=
  ((switch_to_session ⟨9, "t9"⟩ ⟨"s2", "B", [⟨"user", "yo", "t2", none⟩], "t2", "t2", 1⟩ {}
      { chatHistory := [⟨"user", "hi", "t1", none⟩], currentSessionId := some "s1" }
      {}).2.1 (by decide)).2.1

/-- C14 (new chat on an empty transcript creates nothing).  For a state with an
empty transcript, bound or not, `NEW_CHAT` leaves the stored session list as it
was: no session is added, in particular none without messages. -/
theorem new_chat_empty (clock : Clock) (st : AppState) (ls : LocalStorage)
    (hempty : st.chatHistory = []) :
    (appReducer clock st .NEW_CHAT ls).2.conversationSessions = ls.conversationSessions ∧
    getConversationSessions (appReducer clock st .NEW_CHAT ls).2 = getConversationSessions ls := by
  have hreg : (appReducer clock st .NEW_CHAT ls).2.conversationSessions =
      ls.conversationSessions := by
    simp only [appReducer, hempty, List.length_nil, gt_iff_lt, Nat.lt_irrefl, decide_False,
      Bool.and_false, Bool.false_eq_true, if_false]
    unfold setCurrentSession
    split <;> rfl
  refine ⟨hreg, ?_⟩
  unfold getConversationSessions
  rw [hreg]

/-- C14 at two `NEW_CHAT` in a row from an unbound two-message transcript: the
second adds nothing to the one session archived by the first. -/
theorem new_chat_empty_witness :
    getConversationSessions (appReducer ⟨8, "t8"⟩
      (appReducer ⟨7, "t7"⟩
        { chatHistory := [⟨"user", "hi", "t1", none⟩, ⟨"assistant", "hello", "t2", none⟩] }
        .NEW_CHAT {}).1
      .NEW_CHAT
      (appReducer ⟨7, "t7"⟩
        { chatHistory := [⟨"user", "hi", "t1", none⟩, ⟨"assistant", "hello", "t2", none⟩] }
        .NEW_CHAT {}).2).2 =
    getConversationSessions (appReducer ⟨7, "t7"⟩
        { chatHistory := [⟨"user", "hi", "t1", none⟩, ⟨"assistant", "hello", "t2", none⟩] }
        .NEW_CHAT {}).2 :=
  (new_chat_empty ⟨8, "t8"⟩ _ _ rfl).2


/-- Whenever the write of the pointer succeeds, the pointer stored by `NEW_CHAT`
is the text `"null"`. -/
theorem new_chat_pointer (clock : Clock) (st : AppState) (ls : LocalStorage)
    (hw : setItemThrows ls .CURRENT_SESSION = false) :
    getCurrentSession (appReducer clock st .NEW_CHAT ls).2 = some "null" := by
  simp only [appReducer, getCurrentSession]
  split
  · simp [setCurrentSession, hw]
  · simp [setCurrentSession, hw]

/-- C15, the code at a failing input.  After `NEW_CHAT` on the initial state and
an empty store, `getCurrentSession()` returns the four-letter string `"null"`,
not `null`: `setCurrentSession(null)` hands `null` to `localStorage.setItem`,
which stores its string form (`clearAllConversationSessions` clears the same
pointer with `removeItem`). -/
theorem new_chat_stores_null_text :
    getCurrentSession (appReducer ⟨5, "t5"⟩ initialState .NEW_CHAT {}).2 = some "null" ∧
    getCurrentSession (appReducer ⟨5, "t5"⟩ initialState .NEW_CHAT {}).2 ≠ none ∧
    getCurrentSession (clearAllConversationSessions
      (appReducer ⟨5, "t5"⟩ initialState .NEW_CHAT {}).2).2 = none := by
  decide

/-- C16 (initial state is unbound and empty).  Whatever the store holds (a chat
history, a session pointer, sessions, settings, an account) and whatever the
state before, the state after the dispatches of `loadInitialData` has an empty
transcript and `currentSessionId = null`; the store is not written, and the
write-through effect run on that state does nothing.  This holds in particular
from `initialState`, which is itself unbound and empty. -/
theorem initial_load_unbound (clock : Clock) (st : AppState) (ls : LocalStorage) :
    (loadInitialData clock st ls).1.chatHistory = [] ∧
    (loadInitialData clock st ls).1.currentSessionId = none ∧
    (loadInitialData clock st ls).2 = ls ∧
    writeThrough clock (loadInitialData clock st ls).1 (loadInitialData clock st ls).2 =
      loadInitialData clock st ls ∧
    (loadInitialData clock initialState ls).1.chatHistory = [] ∧
    (loadInitialData clock initialState ls).1.currentSessionId = none ∧
    initialState.chatHistory = [] ∧ initialState.currentSessionId = none := by
  have key : ∀ s : AppState, (loadInitialData clock s ls).1.chatHistory = [] ∧
      (loadInitialData clock s ls).1.currentSessionId = none ∧
      (loadInitialData clock s ls).2 = ls := by
    intro s
    unfold loadInitialData
    cases getUserAccount ls <;> simp [appReducer]
  obtain ⟨h1, h2, h3⟩ := key st
  refine ⟨h1, h2, h3, ?_, (key initialState).1, (key initialState).2.1, rfl, rfl⟩
  unfold writeThrough
  simp [h1]


/-! ## The gateway call and storage failures -/

/-- The context that `handleSubmit` gives to `sendToConner` is read from the
stored chat history, not from the state. -/
theorem handleSubmit_context (clock clockCatch : Clock) (gw : Gateway) (ib : InputBarState)
    (st : AppState) (ls : LocalStorage) (hmsg : jsTrim ib.message ≠ "")
    (hload : st.isLoading = false) :
    (handleSubmit clock clockCatch gw ib st ls).contextWindow = some (getContextWindow 10 ls) := by
  have h : (jsTrim ib.message == "") = false := by simpa using hmsg
  simp [handleSubmit, h, hload]

/-- C17, the code at a failing input.  From the initial state and an empty store:
the user sends `"hi"` and the backend answers `"hello"`; the write-through effect
stores the transcript; `NEW_CHAT` empties the transcript in the state but leaves
the stored chat history (the first conjunct gives the state and the store
reached).  The first message of the new chat is then sent with the two messages
of the previous conversation as `contextWindow`, although the active transcript
holds neither of them, before the submit (it is empty) or after it. -/
theorem stale_context_after_new_chat :
    appReducer ⟨3, "t3"⟩
      (writeThrough ⟨2, "t2"⟩ (handleSubmit ⟨1, "t1"⟩ ⟨1, "t1"⟩
        ⟨some "https://backend", fun _ => .body true ⟨true, "hello", "t2", none⟩⟩
        { message := "hi" } initialState {}).state {}).1
      .NEW_CHAT
      (writeThrough ⟨2, "t2"⟩ (handleSubmit ⟨1, "t1"⟩ ⟨1, "t1"⟩
        ⟨some "https://backend", fun _ => .body true ⟨true, "hello", "t2", none⟩⟩
        { message := "hi" } initialState {}).state {}).2 =
      (initialState,
        { chatHistory := some [⟨"user", "hi", "t1", none⟩, ⟨"assistant", "hello", "t2", none⟩],
          conversationSessions := some ([⟨"session_2", "hi",
            [⟨"user", "hi", "t1", none⟩, ⟨"assistant", "hello", "t2", none⟩], "t2", "t2", 2⟩]),
          currentSession := some "null" }) ∧
    (handleSubmit ⟨4, "t4"⟩ ⟨4, "t4"⟩
      ⟨some "https://backend", fun _ => .body true ⟨true, "welcome", "t5", none⟩⟩
      { message := "new topic" } initialState
      { chatHistory := some [⟨"user", "hi", "t1", none⟩, ⟨"assistant", "hello", "t2", none⟩],
        conversationSessions := some ([⟨"session_2", "hi",
          [⟨"user", "hi", "t1", none⟩, ⟨"assistant", "hello", "t2", none⟩], "t2", "t2", 2⟩]),
        currentSession := some "null" }).posted =
      some ⟨"new topic",
        [⟨"user", "hi", "t1", none⟩, ⟨"assistant", "hello", "t2", none⟩], "supportive"⟩ ∧
    (handleSubmit ⟨4, "t4"⟩ ⟨4, "t4"⟩
      ⟨some "https://backend", fun _ => .body true ⟨true, "welcome", "t5", none⟩⟩
      { message := "new topic" } initialState
      { chatHistory := some [⟨"user", "hi", "t1", none⟩, ⟨"assistant", "hello", "t2", none⟩],
        conversationSessions := some ([⟨"session_2", "hi",
          [⟨"user", "hi", "t1", none⟩, ⟨"assistant", "hello", "t2", none⟩], "t2", "t2", 2⟩]),
        currentSession := some "null" }).state.chatHistory =
      [⟨"user", "new topic", "t4", none⟩, ⟨"assistant", "welcome", "t5", none⟩] := by
  decide

/-- C18, the claim as written fails at `n = 0`.  With two messages stored,
`getContextWindow(0)` returns both of them, not the last `min(0, 2) = 0`:
`history.slice(-0)` is `history.slice(0)`, the whole history.  (With a window of
1 the function returns the last message, as claimed.) -/
theorem context_window_zero :
    getContextWindow 0
      { chatHistory := some [⟨"user", "hi", "t1", none⟩, ⟨"assistant", "hello", "t2", none⟩] } =
      [⟨"user", "hi", "t1", none⟩, ⟨"assistant", "hello", "t2", none⟩] ∧
    (getContextWindow 0
      { chatHistory := some [⟨"user", "hi", "t1", none⟩, ⟨"assistant", "hello", "t2", none⟩] }
      ).length = 2 ∧
    getContextWindow 1
      { chatHistory := some [⟨"user", "hi", "t1", none⟩, ⟨"assistant", "hello", "t2", none⟩] } =
      [⟨"assistant", "hello", "t2", none⟩] := by
  decide

/-- C18, amended to windows of at least one message: for every stored chat
history `h` and every integer `n ≥ 1`, `getContextWindow(n)` returns the last
`min n (length h)` messages of `h`, oldest first (`h` without its first
`length h - n` messages), so it never returns more than `n` messages. -/
theorem context_window_pos (n : Nat) (h : List Message) (ls : LocalStorage) (hn : 1 ≤ n)
    (hs : ls.chatHistory = some h) :
    getContextWindow n ls = h.drop (h.length - n) ∧
    (getContextWindow n ls).length = min n h.length ∧
    (getContextWindow n ls).length ≤ n := by
  have hdrop : getContextWindow n ls = h.drop (h.length - n) := by
    unfold getContextWindow getChatHistory sliceFrom
    rw [hs]
    have hneg : (-(n : Int)) < 0 := by omega
    simp only [hneg, if_true]
    congr 1
    omega
  refine ⟨hdrop, ?_, ?_⟩
  · rw [hdrop, List.length_drop]
    omega
  · rw [hdrop, List.length_drop]
    omega

/-- C18 at a concrete input: three messages stored and a window of two give the
last two messages, oldest first. -/
theorem context_window_pos_witness :
    getContextWindow 2
      { chatHistory := some [⟨"user", "hi", "t1", none⟩, ⟨"assistant", "hello", "t2", none⟩,
          ⟨"user", "bye", "t3", none⟩] } =
      [⟨"assistant", "hello", "t2", none⟩, ⟨"user", "bye", "t3", none⟩] :=
  (context_window_pos 2
    [⟨"user", "hi", "t1", none⟩, ⟨"assistant", "hello", "t2", none⟩, ⟨"user", "bye", "t3", none⟩]
    { chatHistory := some [⟨"user", "hi", "t1", none⟩, ⟨"assistant", "hello", "t2", none⟩,
        ⟨"user", "bye", "t3", none⟩] }
    (by decide) rfl).1


/-- `sendToConner` returns a body only when the URL is configured, the status is
`ok` and the body says `success`; every other outcome is a thrown error. -/
theorem sendToConner_ok (gw : Gateway) (message : String) (contextWindow : List Message)
    (personality : String) (r : GatewayData)
    (h : (sendToConner gw message contextWindow personality).2 = .ok r) :
    truthy gw.apiUrl = true ∧ r.success = true ∧
    gw.fetch ⟨message, contextWindow, personality⟩ = .body true r := by
  unfold sendToConner at h
  by_cases hu : truthy gw.apiUrl = true
  · simp only [hu, Bool.not_true, Bool.false_eq_true, if_false] at h
    cases hf : gw.fetch ⟨message, contextWindow, personality⟩ with
    | rejected reason => simp [hf] at h
    | badBody ok reason => simp [hf] at h
    | body ok data =>
      simp only [hf] at h
      by_cases hc : (!ok || !data.success) = true
      · simp [hc] at h
      · simp only [hc, Bool.false_eq_true, if_false] at h
        have hr : data = r := by
          injection h
        subst hr
        have hok : ok = true := by
          cases ok <;> simp_all
        have hs : data.success = true := by
          cases hds : data.success <;> simp_all
        exact ⟨hu, hs, by rw [hok]⟩
  · simp [hu] at h

/-- C19 (gateway failure becomes a synthetic message).  Let `handleSubmit` run
on a non-blank input while no request is pending.  Whenever the gateway call does
not yield a success response (it throws, whatever the error, or the response is
not a success), the transcript after `handleSubmit` is the transcript before,
followed by the user message and by exactly one more message, with role
`assistant`, `isError = true` and the fixed text `apologyText` as content; the
loading flag is reset.  `handleSubmit` is total: no error escapes it. -/
theorem gateway_failure_message (clock clockCatch : Clock) (gw : Gateway) (ib : InputBarState)
    (st : AppState) (ls : LocalStorage)
    (hmsg : jsTrim ib.message ≠ "") (hload : st.isLoading = false)
    (hfail : ∀ r, (sendToConner gw (jsTrim ib.message) (getContextWindow 10 ls)).2 = .ok r →
      r.success = false) :
    (handleSubmit clock clockCatch gw ib st ls).state.chatHistory =
      st.chatHistory ++
        [⟨"user", jsTrim ib.message, clock.iso, none⟩,
         ⟨"assistant", apologyText, clockCatch.iso, some true⟩] ∧
    (handleSubmit clock clockCatch gw ib st ls).state.isLoading = false ∧
    (handleSubmit clock clockCatch gw ib st ls).state.currentSessionId = st.currentSessionId := by
  have h : (jsTrim ib.message == "") = false := by simpa using hmsg
  unfold handleSubmit
  simp only [h, hload, Bool.or_self, Bool.false_eq_true, if_false]
  cases hs : (sendToConner gw (jsTrim ib.message) (getContextWindow 10 ls)).2 with
  | error e => simp [appReducer]
  | ok r =>
    have hr := hfail r hs
    simp [appReducer, hr]

/-- C19 at four failures: no backend URL, a rejected `fetch`, a non-`ok` status
and a body without `success`; the appended message is the same in all four. -/
theorem gateway_failure_message_witness :
    (handleSubmit ⟨1, "t1"⟩ ⟨2, "t2"⟩ ⟨none, fun _ => .body true ⟨true, "hello", "t2", none⟩⟩
      { message := "hi" } initialState {}).state.chatHistory =
      [⟨"user", "hi", "t1", none⟩, ⟨"assistant", apologyText, "t2", some true⟩] ∧
    (handleSubmit ⟨1, "t1"⟩ ⟨2, "t2"⟩ ⟨some "https://backend", fun _ => .rejected "offline"⟩
      { message := "hi" } initialState {}).state.chatHistory =
      [⟨"user", "hi", "t1", none⟩, ⟨"assistant", apologyText, "t2", some true⟩] ∧
    (handleSubmit ⟨1, "t1"⟩ ⟨2, "t2"⟩
      ⟨some "https://backend", fun _ => .body false ⟨true, "hello", "t2", none⟩⟩
      { message := "hi" } initialState {}).state.chatHistory =
      [⟨"user", "hi", "t1", none⟩, ⟨"assistant", apologyText, "t2", some true⟩] ∧
    (handleSubmit ⟨1, "t1"⟩ ⟨2, "t2"⟩
      ⟨some "https://backend", fun _ => .body true ⟨false, "", "", some "quota"⟩⟩
      { message := "hi" } initialState {}).state.chatHistory =
      [⟨"user", "hi", "t1", none⟩, ⟨"assistant", apologyText, "t2", some true⟩] :=
  ⟨(gateway_failure_message ⟨1, "t1"⟩ ⟨2, "t2"⟩
      ⟨none, fun _ => .body true ⟨true, "hello", "t2", none⟩⟩
      { message := "hi" } initialState {} (by decide) rfl (by intro r h; cases h)).1,
   (gateway_failure_message ⟨1, "t1"⟩ ⟨2, "t2"⟩
      ⟨some "https://backend", fun _ => .rejected "offline"⟩
      { message := "hi" } initialState {} (by decide) rfl (by intro r h; cases h)).1,
   (gateway_failure_message ⟨1, "t1"⟩ ⟨2, "t2"⟩
      ⟨some "https://backend", fun _ => .body false ⟨true, "hello", "t2", none⟩⟩
      { message := "hi" } initialState {} (by decide) rfl (by intro r h; cases h)).1,
   (gateway_failure_message ⟨1, "t1"⟩ ⟨2, "t2"⟩
      ⟨some "https://backend", fun _ => .body true ⟨false, "", "", some "quota"⟩⟩
      { message := "hi" } initialState {} (by decide) rfl (by intro r h; cases h)).1⟩

/-- C20 (storage failure is reported, not thrown).  When the write of the session
list fails, `saveConversationSession` returns `null` and leaves the store, hence
the stored session list, as it was.  The write-through step from an unbound state
whose transcript matches no stored session (the case in which it calls
`saveConversationSession`) then leaves the whole state as it was, in particular
`currentSessionId = null` and the transcript, and the stored session list too. -/
theorem storage_failure_reported (clock : Clock) (sd : SessionData) (st : AppState)
    (ls : LocalStorage)
    (hfail : setItemThrows ls .CONVERSATION_SESSIONS = true)
    (hu : st.currentSessionId = none)
    (hno : ∀ s ∈ getConversationSessions ls, s.messages ≠ st.chatHistory) :
    saveConversationSession clock sd ls = (none, ls) ∧
    (writeThrough clock st ls).1 = st ∧
    (writeThrough clock st ls).1.currentSessionId = none ∧
    (writeThrough clock st ls).1.chatHistory = st.chatHistory ∧
    getConversationSessions (writeThrough clock st ls).2 = getConversationSessions ls := by
  have hsave : ∀ (sd : SessionData) (l : LocalStorage),
      setItemThrows l .CONVERSATION_SESSIONS = true → saveConversationSession clock sd l = (none, l) := by
    intro sd l hl
    simp [saveConversationSession, hl]
  have hwt : (writeThrough clock st ls).1 = st ∧
      getConversationSessions (writeThrough clock st ls).2 = getConversationSessions ls := by
    unfold writeThrough
    by_cases hlen : (st.chatHistory.length == 0) = true
    · simp [hlen]
    · have hfind := find?_sameMessages_none st.chatHistory (getConversationSessions ls) hno
      have hl : setItemThrows (saveChatHistory st.chatHistory ls).2 .CONVERSATION_SESSIONS = true := by
        simpa using hfail
      simp only [hlen, hu, truthy, Bool.false_eq_true, if_false, sessions_saveChatHistory, hfind,
        hsave _ _ hl]
      exact ⟨trivial, trivial⟩
  refine ⟨hsave sd ls hfail, hwt.1, ?_, ?_, hwt.2⟩
  · rw [hwt.1]; exact hu
  · rw [hwt.1]

/-- C20 at a one-message transcript and a store that refuses the session list. -/
theorem storage_failure_reported_witness :
    (writeThrough ⟨5, "t5"⟩ { chatHistory := [⟨"user", "hi", "t1", none⟩] }
      { failingKeys := [.CONVERSATION_SESSIONS] }).1 =
      { chatHistory := [⟨"user", "hi", "t1", none⟩] } :=
  (storage_failure_reported ⟨5, "t5"⟩ {} { chatHistory := [⟨"user", "hi", "t1", none⟩] }
    { failingKeys := [.CONVERSATION_SESSIONS] } (by decide) rfl (by decide)).2.1


/-! ## Export, settings, clearing everything -/

theorem parseChars_quoteChar_small (k : Nat) (hk : k < 0x20 ∨ k = 0x22 ∨ k = 0x5C)
    (fuel : Nat) (tail : List Char) :
    parseChars (fuel + 1) (quoteChar (Char.ofNat k) ++ tail) =
      consChar (Char.ofNat k) (parseChars fuel tail) := by
  rcases hk with h | h | h
  · interval_cases k <;> rfl
  · subst h; rfl
  · subst h; rfl

theorem parseChars_quoteChar (c : Char) (fuel : Nat) (tail : List Char) :
    parseChars (fuel + 1) (quoteChar c ++ tail) = consChar c (parseChars fuel tail) := by
  by_cases hk : c.toNat < 0x20 ∨ c.toNat = 0x22 ∨ c.toNat = 0x5C
  · have := parseChars_quoteChar_small c.toNat hk fuel tail
    rwa [Char.ofNat_toNat] at this
  · have h1 : ¬ c.toNat < 0x20 := fun h => hk (Or.inl h)
    have h2 : ¬ c.toNat = 0x22 := fun h => hk (Or.inr (Or.inl h))
    have h3 : ¬ c.toNat = 0x5C := fun h => hk (Or.inr (Or.inr h))
    have h4 : ¬ c.toNat = 0x08 := by omega
    have h5 : ¬ c.toNat = 0x09 := by omega
    have h6 : ¬ c.toNat = 0x0A := by omega
    have h7 : ¬ c.toNat = 0x0C := by omega
    have h8 : ¬ c.toNat = 0x0D := by omega
    have hq : quoteChar c = [c] := by
      simp [quoteChar, h1, h2, h3, h4, h5, h6, h7, h8]
    rw [hq]
    simp [parseChars, h1, h2, h3]

theorem quoteChar_length_pos (c : Char) : 1 ≤ (quoteChar c).length := by
  unfold quoteChar
  simp only
  repeat (split; simp)
  simp

theorem parseChars_quoteChars (s rest : List Char) : ∀ fuel : Nat,
    (quoteChars s).length < fuel →
    parseChars fuel (quoteChars s ++ Char.ofNat 0x22 :: rest) = some (s, rest) := by
  induction s with
  | nil =>
    intro fuel h
    cases fuel with
    | zero => simp at h
    | succ f => rfl
  | cons c cs ih =>
    intro fuel h
    cases fuel with
    | zero => simp at h
    | succ f =>
      simp only [quoteChars, List.append_assoc, List.length_append] at h ⊢
      have := quoteChar_length_pos c
      rw [parseChars_quoteChar, ih f (by omega)]
      rfl

theorem skipWhitespace_spaces (k : Nat) (cs : List Char) :
    skipWhitespace (spaces k ++ cs) = skipWhitespace cs := by
  induction k with
  | zero => rfl
  | succ k ih =>
    have : spaces (k + 1) = Char.ofNat 0x20 :: spaces k := rfl
    rw [this, List.cons_append]
    simp only [skipWhitespace]
    rw [if_pos (by decide), ih]

theorem skipWhitespace_starts (cs : List Char) (h : startsValue cs = true) :
    skipWhitespace cs = cs := by
  cases cs with
  | nil => rfl
  | cons c tl =>
    have hc : isJsonWhitespace c = false := by
      simp only [startsValue, Bool.and_eq_true, Bool.not_eq_true'] at h
      exact h.1
    simp [skipWhitespace, hc]

theorem skipWhitespace_indent (k : Nat) (cs : List Char) (h : startsValue cs = true) :
    skipWhitespace (Char.ofNat 0x0A :: (spaces k ++ cs)) = cs := by
  simp only [skipWhitespace]
  rw [if_pos (by decide), skipWhitespace_spaces, skipWhitespace_starts cs h]

theorem startsValue_append (cs tail : List Char) (h : startsValue cs = true) :
    startsValue (cs ++ tail) = true := by
  cases cs with
  | nil => simp [startsValue] at h
  | cons c tl => exact h

theorem startsValue_quote (s : String) (tail : List Char) :
    startsValue (quote s ++ tail) = true := rfl

theorem startsValue_render (ind : Nat) (v : Json) (hp : v.plain = true) :
    startsValue (render ind v) = true := by
  cases v with
  | null => rfl
  | bool b => cases b <;> rfl
  | num n => simp [Json.plain] at hp
  | str s => rfl
  | arr items =>
    cases items with
    | nil => rfl
    | cons x xs => rw [render]; rfl
  | obj members =>
    cases members with
    | nil => rfl
    | cons m ms => rw [render]; rfl

theorem startsValue_length (cs : List Char) (h : startsValue cs = true) : 1 ≤ cs.length := by
  cases cs with
  | nil => simp [startsValue] at h
  | cons c tl => simp

theorem renderItems_cons_cons (ind : Nat) (x y : Json) (xs : List Json) :
    renderItems ind (x :: y :: xs) =
      render ind x ++ Char.ofNat 0x2C :: Char.ofNat 0x0A :: (spaces ind ++ renderItems ind (y :: xs)) := by
  rw [renderItems]

theorem renderItems_single (ind : Nat) (x : Json) : renderItems ind [x] = render ind x := by
  rw [renderItems]

theorem startsValue_renderItems (ind : Nat) (x : Json) (xs : List Json) (hx : x.plain = true) :
    startsValue (renderItems ind (x :: xs)) = true := by
  cases xs with
  | nil => rw [renderItems_single]; exact startsValue_render ind x hx
  | cons y ys =>
    rw [renderItems_cons_cons]
    exact startsValue_append _ _ (startsValue_render ind x hx)

theorem parseItems_renderItems (value : List Char → Option (Json × List Char)) (ind k : Nat)
    (rest : List Char) : ∀ (xs : List Json), xs ≠ [] →
    (∀ x ∈ xs, x.plain = true) →
    (∀ x ∈ xs, ∀ tail, value (render ind x ++ tail) = some (x, tail)) →
    ∀ n, xs.length ≤ n →
    parseItems value n
      (renderItems ind xs ++ Char.ofNat 0x0A :: (spaces k ++ Char.ofNat 0x5D :: rest)) =
      some (xs, rest) := by
  intro xs
  induction xs with
  | nil => intro h; exact absurd rfl h
  | cons x xs ih =>
    intro _ hp hv n hn
    cases n with
    | zero => simp at hn
    | succ m =>
      cases xs with
      | nil =>
        rw [renderItems_single, parseItems, hv x (List.mem_cons_self _ _)]
        simp only
        have hs : skipWhitespace (Char.ofNat 0x0A :: (spaces k ++ Char.ofNat 0x5D :: rest)) =
            Char.ofNat 0x5D :: rest := by
          simp only [skipWhitespace]
          rw [if_pos (by decide), skipWhitespace_spaces]
          simp only [skipWhitespace]
          rw [if_neg (by decide)]
        rw [hs]
        simp only
        rw [if_neg (by decide), if_pos (by decide)]
      | cons y ys =>
        rw [renderItems_cons_cons, List.append_assoc, parseItems,
          hv x (List.mem_cons_self _ _)]
        simp only [List.cons_append, List.append_assoc]
        have hs : ∀ t, skipWhitespace (Char.ofNat 0x2C :: t) = Char.ofNat 0x2C :: t := by
          intro t
          simp only [skipWhitespace]
          rw [if_neg (by decide)]
        rw [hs]
        simp only
        rw [if_pos (by decide)]
        have hy : y.plain = true := hp y (List.mem_cons_of_mem _ (List.mem_cons_self _ _))
        rw [skipWhitespace_indent _ _
          (startsValue_append _ _ (startsValue_renderItems ind y ys hy))]
        rw [ih (List.cons_ne_nil _ _) (fun z hz => hp z (List.mem_cons_of_mem _ hz))
          (fun z hz => hv z (List.mem_cons_of_mem _ hz)) m (by simpa using hn)]

theorem renderMembers_single (ind : Nat) (k : String) (v : Json) :
    renderMembers ind [(k, v)] = quote k ++ Char.ofNat 0x3A :: Char.ofNat 0x20 :: render ind v := by
  rw [renderMembers]

theorem renderMembers_cons_cons (ind : Nat) (k : String) (v : Json) (m : String × Json)
    (ms : List (String × Json)) :
    renderMembers ind ((k, v) :: m :: ms) =
      quote k ++ Char.ofNat 0x3A :: Char.ofNat 0x20 :: (render ind v ++
        Char.ofNat 0x2C :: Char.ofNat 0x0A :: (spaces ind ++ renderMembers ind (m :: ms))) := by
  rw [renderMembers]

theorem startsValue_renderMembers (ind : Nat) (m : String × Json) (ms : List (String × Json)) :
    startsValue (renderMembers ind (m :: ms)) = true := by
  obtain ⟨k, v⟩ := m
  cases ms with
  | nil => rw [renderMembers_single]; rfl
  | cons y ys => rw [renderMembers_cons_cons]; rfl

/-- Reading a member name and its colon. -/
theorem parseMembers_key (value : List Char → Option (Json × List Char)) (fuel : Nat)
    (k : String) (tail : List Char) (hs : startsValue tail = true) :
    parseMembers value (fuel + 1) (quote k ++ Char.ofNat 0x3A :: Char.ofNat 0x20 :: tail) =
      match value tail with
      | none => none
      | some (v, rest2) =>
        match skipWhitespace rest2 with
        | [] => none
        | d :: rest3 =>
          if d.toNat == 0x2C then
            match parseMembers value fuel (skipWhitespace rest3) with
            | none => none
            | some (ms, rest4) => some ((k, v) :: ms, rest4)
          else if d.toNat == 0x7D then some ([(k, v)], rest3)
          else none := by
  have hq : quote k ++ Char.ofNat 0x3A :: Char.ofNat 0x20 :: tail =
      Char.ofNat 0x22 :: (quoteChars k.data ++
        Char.ofNat 0x22 :: Char.ofNat 0x3A :: Char.ofNat 0x20 :: tail) := by
    simp [quote]
  rw [hq, parseMembers]
  rw [if_pos (by decide)]
  rw [parseChars_quoteChars k.data _ _ (by simp)]
  simp only
  have h1 : skipWhitespace (Char.ofNat 0x3A :: Char.ofNat 0x20 :: tail) =
      Char.ofNat 0x3A :: Char.ofNat 0x20 :: tail := by
    simp only [skipWhitespace]
    rw [if_neg (by decide)]
  rw [h1]
  simp only
  rw [if_pos (by decide)]
  have h2 : skipWhitespace (Char.ofNat 0x20 :: tail) = tail := by
    simp only [skipWhitespace]
    rw [if_pos (by decide), skipWhitespace_starts tail hs]
  rw [h2]

theorem parseMembers_renderMembers (value : List Char → Option (Json × List Char)) (ind k : Nat)
    (rest : List Char) : ∀ (ms : List (String × Json)), ms ≠ [] →
    (∀ m ∈ ms, m.2.plain = true) →
    (∀ m ∈ ms, ∀ tail, value (render ind m.2 ++ tail) = some (m.2, tail)) →
    ∀ n, ms.length ≤ n →
    parseMembers value n
      (renderMembers ind ms ++ Char.ofNat 0x0A :: (spaces k ++ Char.ofNat 0x7D :: rest)) =
      some (ms, rest) := by
  intro ms
  induction ms with
  | nil => intro h; exact absurd rfl h
  | cons x xs ih =>
    intro _ hp hv n hn
    obtain ⟨key, v⟩ := x
    have hvp : v.plain = true := hp (key, v) (List.mem_cons_self _ _)
    cases n with
    | zero => simp at hn
    | succ m =>
      cases xs with
      | nil =>
        rw [renderMembers_single]
        simp only [List.append_assoc, List.cons_append]
        rw [parseMembers_key _ _ _ _ (startsValue_append _ _ (startsValue_render ind v hvp)),
          hv (key, v) (List.mem_cons_self _ _)]
        simp only
        have hs : skipWhitespace (Char.ofNat 0x0A :: (spaces k ++ Char.ofNat 0x7D :: rest)) =
            Char.ofNat 0x7D :: rest := by
          simp only [skipWhitespace]
          rw [if_pos (by decide), skipWhitespace_spaces]
          simp only [skipWhitespace]
          rw [if_neg (by decide)]
        rw [hs]
        simp only
        rw [if_neg (by decide), if_pos (by decide)]
      | cons y ys =>
        rw [renderMembers_cons_cons]
        simp only [List.append_assoc, List.cons_append]
        rw [parseMembers_key _ _ _ _ (startsValue_append _ _ (startsValue_render ind v hvp)),
          hv (key, v) (List.mem_cons_self _ _)]
        simp only
        have hs : ∀ t, skipWhitespace (Char.ofNat 0x2C :: t) = Char.ofNat 0x2C :: t := by
          intro t
          simp only [skipWhitespace]
          rw [if_neg (by decide)]
        rw [hs]
        simp only
        rw [if_pos (by decide)]
        rw [skipWhitespace_indent _ _
          (startsValue_append _ _ (startsValue_renderMembers ind y ys))]
        rw [ih (List.cons_ne_nil _ _) (fun z hz => hp z (List.mem_cons_of_mem _ hz))
          (fun z hz => hv z (List.mem_cons_of_mem _ hz)) m (by simpa using hn)]

theorem renderItems_length_mem (ind : Nat) : ∀ (xs : List Json) (x : Json), x ∈ xs →
    (render ind x).length ≤ (renderItems ind xs).length := by
  intro xs
  induction xs with
  | nil => intro x hx; simp at hx
  | cons y ys ih =>
    intro x hx
    cases ys with
    | nil =>
      simp only [List.mem_singleton] at hx
      rw [hx, renderItems_single]
    | cons z zs =>
      rw [renderItems_cons_cons]
      simp only [List.length_append, List.length_cons]
      rcases List.mem_cons.1 hx with h | h
      · rw [h]; omega
      · have := ih x h
        omega

theorem renderItems_length_ge (ind : Nat) : ∀ (xs : List Json), (∀ x ∈ xs, x.plain = true) →
    xs.length ≤ (renderItems ind xs).length := by
  intro xs
  induction xs with
  | nil => intro _; simp
  | cons y ys ih =>
    intro hp
    have hy := startsValue_length _ (startsValue_render ind y (hp y (List.mem_cons_self _ _)))
    cases ys with
    | nil =>
      rw [renderItems_single]
      simpa using hy
    | cons z zs =>
      rw [renderItems_cons_cons]
      simp only [List.length_append, List.length_cons] at ih ⊢
      have := ih (fun x hx => hp x (List.mem_cons_of_mem _ hx))
      omega

theorem renderMembers_length_mem (ind : Nat) : ∀ (ms : List (String × Json)) (m : String × Json),
    m ∈ ms → (render ind m.2).length ≤ (renderMembers ind ms).length := by
  intro ms
  induction ms with
  | nil => intro x hx; simp at hx
  | cons y ys ih =>
    intro x hx
    obtain ⟨k, v⟩ := y
    cases ys with
    | nil =>
      simp only [List.mem_singleton] at hx
      rw [hx, renderMembers_single]
      simp only [List.length_append, List.length_cons]
      omega
    | cons z zs =>
      rw [renderMembers_cons_cons]
      simp only [List.length_append, List.length_cons]
      rcases List.mem_cons.1 hx with h | h
      · rw [h]; simp only; omega
      · have := ih x h
        omega

theorem renderMembers_length_ge (ind : Nat) : ∀ (ms : List (String × Json)),
    ms.length ≤ (renderMembers ind ms).length := by
  intro ms
  induction ms with
  | nil => simp
  | cons y ys ih =>
    obtain ⟨k, v⟩ := y
    cases ys with
    | nil =>
      rw [renderMembers_single]
      simp only [List.length_append, List.length_cons, List.length_nil]
      omega
    | cons z zs =>
      rw [renderMembers_cons_cons]
      simp only [List.length_append, List.length_cons] at ih ⊢
      omega

theorem plainItems_mem : ∀ (xs : List Json), plainItems xs = true → ∀ x ∈ xs, x.plain = true := by
  intro xs
  induction xs with
  | nil => intro _ x hx; simp at hx
  | cons y ys ih =>
    intro h x hx
    rw [plainItems] at h
    simp only [Bool.and_eq_true] at h
    rcases List.mem_cons.1 hx with e | e
    · rw [e]; exact h.1
    · exact ih h.2 x e

theorem plainMembers_mem : ∀ (ms : List (String × Json)), plainMembers ms = true →
    ∀ m ∈ ms, m.2.plain = true := by
  intro ms
  induction ms with
  | nil => intro _ x hx; simp at hx
  | cons y ys ih =>
    intro h x hx
    obtain ⟨k, v⟩ := y
    rw [plainMembers] at h
    simp only [Bool.and_eq_true] at h
    rcases List.mem_cons.1 hx with e | e
    · rw [e]; exact h.1
    · exact ih h.2 x e

/-- Reading back what was written: on the text of a value without numbers,
followed by any text, `parseValue` gives the value and the text that follows, as
soon as the fuel is at least the length of the text of the value. -/
theorem parseValue_render : ∀ (n : Nat) (v : Json), sizeOf v ≤ n → v.plain = true →
    ∀ (ind : Nat) (rest : List Char) (fuel : Nat), (render ind v).length ≤ fuel →
    parseValue fuel (render ind v ++ rest) = some (v, rest) := by
  intro n
  induction n with
  | zero =>
    intro v hv
    cases v <;> simp at hv
  | succ n ih =>
    intro v hv hp ind rest fuel hf
    cases v with
    | null =>
      cases fuel with
      | zero => simp [render] at hf
      | succ f => rfl
    | bool b =>
      cases fuel with
      | zero => cases b <;> simp [render] at hf
      | succ f => cases b <;> rfl
    | num numeral => simp [Json.plain] at hp
    | str s =>
      cases fuel with
      | zero => simp [render, quote] at hf
      | succ f =>
        have hq : render ind (.str s) ++ rest =
            Char.ofNat 0x22 :: (quoteChars s.data ++ Char.ofNat 0x22 :: rest) := by
          simp [render, quote]
        rw [hq, parseValue]
        rw [if_pos (by decide), parseChars_quoteChars s.data _ _ (by simp)]
    | arr items =>
      cases fuel with
      | zero =>
        cases items with
        | nil => simp [render] at hf
        | cons x xs => rw [render] at hf; simp at hf
      | succ f =>
        cases items with
        | nil => rfl
        | cons x xs =>
          have hpi : ∀ y ∈ x :: xs, y.plain = true := plainItems_mem _ (by simpa [Json.plain] using hp)
          rw [render] at hf ⊢
          simp only [List.length_cons, List.length_append, List.length_nil] at hf
          simp only [List.cons_append, List.append_assoc, List.nil_append]
          rw [parseValue]
          rw [if_neg (by decide), if_pos (by decide)]
          have hstart := startsValue_append _
            (Char.ofNat 0x0A :: (spaces ind ++ Char.ofNat 0x5D :: rest))
            (startsValue_renderItems (ind + 2) x xs (hpi x (List.mem_cons_self _ _)))
          rw [skipWhitespace_indent _ _ hstart]
          have hitems := parseItems_renderItems (parseValue f) (ind + 2) ind rest (x :: xs)
            (List.cons_ne_nil _ _) hpi
            (fun y hy tail => ih y
              (by
                have h1 := List.sizeOf_lt_of_mem hy
                simp only [Json.arr.sizeOf_spec] at hv
                omega)
              (hpi y hy) (ind + 2) tail f
              (by
                have := renderItems_length_mem (ind + 2) (x :: xs) y hy
                omega))
            f
            (by
              have := renderItems_length_ge (ind + 2) (x :: xs) hpi
              omega)
          cases hc : renderItems (ind + 2) (x :: xs) ++
              Char.ofNat 0x0A :: (spaces ind ++ Char.ofNat 0x5D :: rest) with
          | nil => rw [hc] at hstart; simp [startsValue] at hstart
          | cons d tl =>
            rw [hc] at hstart hitems
            have hd : (d.toNat == 0x5D) = false := by
              simp only [startsValue, Bool.and_eq_true, Bool.not_eq_true'] at hstart
              exact hstart.2
            simp only
            rw [if_neg (by simp [hd]), hitems]
    | obj members =>
      cases fuel with
      | zero =>
        cases members with
        | nil => simp [render] at hf
        | cons x xs => rw [render] at hf; simp at hf
      | succ f =>
        cases members with
        | nil => rfl
        | cons x xs =>
          have hpi : ∀ y ∈ x :: xs, y.2.plain = true :=
            plainMembers_mem _ (by simpa [Json.plain] using hp)
          rw [render] at hf ⊢
          simp only [List.length_cons, List.length_append, List.length_nil] at hf
          simp only [List.cons_append, List.append_assoc, List.nil_append]
          rw [parseValue]
          rw [if_neg (by decide), if_neg (by decide), if_pos (by decide)]
          have hstart := startsValue_append _
            (Char.ofNat 0x0A :: (spaces ind ++ Char.ofNat 0x7D :: rest))
            (startsValue_renderMembers (ind + 2) x xs)
          rw [skipWhitespace_indent _ _ hstart]
          have hitems := parseMembers_renderMembers (parseValue f) (ind + 2) ind rest (x :: xs)
            (List.cons_ne_nil _ _) hpi
            (fun y hy tail => ih y.2
              (by
                have h1 := List.sizeOf_lt_of_mem hy
                obtain ⟨k, w⟩ := y
                simp only [Json.obj.sizeOf_spec, Prod.mk.sizeOf_spec] at hv h1 ⊢
                omega)
              (hpi y hy) (ind + 2) tail f
              (by
                have := renderMembers_length_mem (ind + 2) (x :: xs) y hy
                omega))
            f
            (by
              have := renderMembers_length_ge (ind + 2) (x :: xs)
              omega)
          cases hc : renderMembers (ind + 2) (x :: xs) ++
              Char.ofNat 0x0A :: (spaces ind ++ Char.ofNat 0x7D :: rest) with
          | nil => rw [hc] at hstart; simp [startsValue] at hstart
          | cons d tl =>
            rw [hc] at hstart hitems
            have hd : (d.toNat == 0x7D) = false := by
              obtain ⟨k, w⟩ := x
              cases xs with
              | nil =>
                rw [renderMembers_single] at hc
                have : d = Char.ofNat 0x22 := by
                  simp [quote] at hc
                  exact hc.1.symm
                rw [this]; rfl
              | cons z zs =>
                rw [renderMembers_cons_cons] at hc
                have : d = Char.ofNat 0x22 := by
                  simp [quote] at hc
                  exact hc.1.symm
                rw [this]; rfl
            simp only
            rw [if_neg (by simp [hd]), hitems]

/-- `JSON.parse(JSON.stringify(value, null, 2))` is `value`, for a value without
numbers. -/
theorem jsonParse_jsonText (v : Json) (hp : v.plain = true) : jsonParse (jsonText v) = some v := by
  unfold jsonParse jsonText
  have hs : skipWhitespace (render 0 v) = render 0 v :=
    skipWhitespace_starts _ (startsValue_render 0 v hp)
  have h := parseValue_render (sizeOf v) v (Nat.le_refl _) hp 0 [] ((render 0 v).length + 1)
    (Nat.le_succ _)
  rw [List.append_nil] at h
  simp only [String.length, hs, h]
  rfl

theorem plain_messageJson (m : Message) : (messageJson m).plain = true := by
  obtain ⟨r, c, t, e⟩ := m
  cases e <;> rfl

theorem plainItems_messages (h : List Message) : plainItems (h.map messageJson) = true := by
  induction h with
  | nil => rfl
  | cons m ms ih =>
    rw [List.map_cons, plainItems, plain_messageJson, ih]
    rfl

theorem plain_userJson (u : Option UserAccount) : (userJson u).plain = true := by
  cases u with
  | none => rfl
  | some u =>
    obtain ⟨n, e, p, j⟩ := u
    cases p <;> rfl

theorem messageJson_fields (m : Message) :
    (messageJson m).field "role" = some (.str m.role) ∧
    (messageJson m).field "content" = some (.str m.content) ∧
    (messageJson m).field "timestamp" = some (.str m.timestamp) := by
  obtain ⟨r, c, t, e⟩ := m
  cases e <;> exact ⟨rfl, rfl, rfl⟩

/-- The text that `exportChatHistory('json')` returns for one stored message
whose content has a double quote, a line feed and a character outside the basic
plane, with no account stored. -/
theorem export_text_example :
    exportChatHistory ⟨9, "2026-01-01T00:00:00.000Z"⟩ ⟨"now", id, id⟩ "json"
      { chatHistory := some [⟨"user", "say \"hi\"\n😀", "t1", none⟩] } =
    some "\x7b\n  \"user\": null,\n  \"chatHistory\": [\n    \x7b\n      \"role\": \"user\",\n      \"content\": \"say \\\"hi\\\"\\n😀\",\n      \"timestamp\": \"t1\"\n    \x7d\n  ],\n  \"exportedAt\": \"2026-01-01T00:00:00.000Z\"\n\x7d" := by
  set_option maxRecDepth 100000 in decide

/-- C21 (export round trip).  For every stored chat history `h`,
`exportChatHistory('json')` returns a text that `JSON.parse` reads, and the value
read has under `chatHistory` an array of as many elements as `h` has messages,
whose `i`-th element has as `role`, `content` and `timestamp` the strings of the
`i`-th stored message. -/
theorem export_round_trip (clock : Clock) (platform : TextPlatform) (ls : LocalStorage)
    (h : List Message) (hs : ls.chatHistory = some h) :
    ∃ (text : String) (data : Json) (items : List Json),
      exportChatHistory clock platform "json" ls = some text ∧
      jsonParse text = some data ∧
      data.field "chatHistory" = some (.arr items) ∧
      items.length = h.length ∧
      ∀ (i : Nat) (m : Message), h.get? i = some m →
        ∃ o : Json, items.get? i = some o ∧
          o.field "role" = some (.str m.role) ∧
          o.field "content" = some (.str m.content) ∧
          o.field "timestamp" = some (.str m.timestamp) := by
  have hh : getChatHistory ls = h := by simp [getChatHistory, hs]
  have hplain : (Json.obj [("user", userJson (getUserAccount ls)),
      ("chatHistory", .arr (h.map messageJson)), ("exportedAt", .str clock.iso)]).plain = true := by
    have ha : (Json.arr (h.map messageJson)).plain = true := by
      rw [Json.plain, plainItems_messages]
    rw [Json.plain, plainMembers, plainMembers, plainMembers, plainMembers, plain_userJson, ha]
    rfl
  refine ⟨jsonText (.obj [("user", userJson (getUserAccount ls)),
      ("chatHistory", .arr (h.map messageJson)), ("exportedAt", .str clock.iso)]),
    .obj [("user", userJson (getUserAccount ls)),
      ("chatHistory", .arr (h.map messageJson)), ("exportedAt", .str clock.iso)],
    h.map messageJson, ?_, jsonParse_jsonText _ hplain, rfl, List.length_map _ _, ?_⟩
  · simp [exportChatHistory, hh]
  · intro i m hm
    refine ⟨messageJson m, ?_, messageJson_fields m⟩
    rw [List.get?_eq_getElem?] at hm ⊢
    simp [List.getElem?_map, hm]

/-- C21 at a stored history of two messages, the second an error message with a
line feed in its content: the parsed export has two messages. -/
theorem export_round_trip_witness :
    ((((exportChatHistory ⟨9, "t9"⟩ ⟨"now", id, id⟩ "json"
      { chatHistory := some [⟨"user", "hi", "t1", none⟩,
          ⟨"assistant", "sorry,\nno", "t2", some true⟩] }).bind jsonParse).bind
      (Json.field "chatHistory")).bind Json.elements).map List.length = some 2 := by
  obtain ⟨text, data, items, h1, h2, h3, h4, _⟩ := export_round_trip ⟨9, "t9"⟩ ⟨"now", id, id⟩
    { chatHistory := some [⟨"user", "hi", "t1", none⟩,
        ⟨"assistant", "sorry,\nno", "t2", some true⟩] }
    [⟨"user", "hi", "t1", none⟩, ⟨"assistant", "sorry,\nno", "t2", some true⟩] rfl
  rw [h1, Option.some_bind, h2, Option.some_bind, h3, Option.some_bind]
  simp only [Json.elements, Option.map_some', h4]
  rfl


theorem viaJsonNumber_parse (j : JsonNumber) : viaJsonNumber (parseNumber j) = parseNumber j := by
  cases j <;> rfl

/-- What `getSessionSettings()` returns has no `NaN` and no infinity: it is
unchanged by a passage through JSON text. -/
theorem viaJson_getSessionSettings (ls : LocalStorage) :
    viaJson (getSessionSettings ls) = getSessionSettings ls := by
  unfold getSessionSettings
  cases ls.sessionSettings with
  | none => rfl
  | some s =>
    obtain ⟨d, ml, cw, ai, ty⟩ := s
    cases ml <;> cases cw <;> cases ty <;>
      simp [viaJson, spreadSettings, parseSettings, viaJsonNumber_parse] <;>
      first | rfl | (refine ⟨?_, ?_⟩ <;> rfl) | (refine ⟨?_, ?_, ?_⟩ <;> rfl)

/-- After a successful `saveSessionSettings(p)`, `getSessionSettings()` is the
overlay of `p` on the former settings, passed through JSON text. -/
theorem getSessionSettings_after_save (p : SettingsPatch) (ls : LocalStorage)
    (hw : setItemThrows ls .SESSION_SETTINGS = false) :
    (saveSessionSettings p ls).2.sessionSettings =
      some (stringifySettings (spreadSettings (getSessionSettings ls) p)) ∧
    getSessionSettings (saveSessionSettings p ls).2 =
      viaJson (spreadSettings (getSessionSettings ls) p) := by
  have hstore : (saveSessionSettings p ls).2.sessionSettings =
      some (stringifySettings (spreadSettings (getSessionSettings ls) p)) := by
    simp [saveSessionSettings, hw]
  refine ⟨hstore, ?_⟩
  unfold getSessionSettings
  rw [hstore]
  rfl

/-- C22, the claim as stated fails when `p` holds `NaN`, which is what the
settings form passes for an emptied Message Limit field (`parseInt("")`), the
other fields being as they were read.  On an empty store, after
`saveSessionSettings(p)` for that `p` the stored text has `null` for the key and
`getSessionSettings()` returns `messageLimit = null`, where `DEFAULT_SETTINGS`
overlaid by `p` has `NaN`; the other keys have the values of `p`.  The same
happens for a `p` with that key alone. -/
theorem settings_merge_counterexample :
    (saveSessionSettings ⟨some false, some .nan, some 10, some "supportive", some 50⟩ {}).1 =
      true ∧
    getSessionSettings
      (saveSessionSettings ⟨some false, some .nan, some 10, some "supportive", some 50⟩ {}).2 =
      { darkMode := false, messageLimit := .null, contextWindowSize := 10,
        aiPersonality := "supportive", typingSpeed := 50 } ∧
    spreadSettings (spreadSettings DEFAULT_SETTINGS {})
      ⟨some false, some .nan, some 10, some "supportive", some 50⟩ =
      { darkMode := false, messageLimit := .nan, contextWindowSize := 10,
        aiPersonality := "supportive", typingSpeed := 50 } ∧
    getSessionSettings
      (saveSessionSettings ⟨some false, some .nan, some 10, some "supportive", some 50⟩ {}).2 ≠
      spreadSettings (spreadSettings DEFAULT_SETTINGS {})
        ⟨some false, some .nan, some 10, some "supportive", some 50⟩ ∧
    (getSessionSettings (saveSessionSettings { messageLimit := some .nan } {}).2).messageLimit =
      .null ∧
    (spreadSettings (spreadSettings DEFAULT_SETTINGS {}) { messageLimit := some .nan }).messageLimit =
      .nan := by
  decide

/-- C22 (settings merge), amended.  Let the write of the settings succeed.  After
`saveSessionSettings(p)`, `getSessionSettings()` is the former result of
`getSessionSettings()` overlaid by `p`, key by key with the later object winning,
and then passed through JSON text, which turns a `NaN` or an infinite number of
`p` into `null`.  So when `p` has no such number the result is the overlay
itself: `DEFAULT_SETTINGS` overlaid by the stored record `s` overlaid by `p`
(`DEFAULT_SETTINGS` overlaid by `p` when nothing was stored).  In every case the
stored object has every default key, a key absent from `p` keeps its former
value, and a key of `p` has the value `p` gives it, as JSON text holds it. -/
theorem settings_merge (p : SettingsPatch) (ls : LocalStorage)
    (hw : setItemThrows ls .SESSION_SETTINGS = false) :
    getSessionSettings (saveSessionSettings p ls).2 =
      viaJson (spreadSettings (getSessionSettings ls) p) ∧
    (jsonHolds p.messageLimit = true → jsonHolds p.contextWindowSize = true →
      jsonHolds p.typingSpeed = true →
      getSessionSettings (saveSessionSettings p ls).2 =
        spreadSettings (getSessionSettings ls) p ∧
      (∀ s, ls.sessionSettings = some s →
        getSessionSettings (saveSessionSettings p ls).2 =
          spreadSettings (spreadSettings DEFAULT_SETTINGS (parseSettings s)) p) ∧
      (ls.sessionSettings = none →
        getSessionSettings (saveSessionSettings p ls).2 = spreadSettings DEFAULT_SETTINGS p)) ∧
    (∃ d ml cw ai ty, (saveSessionSettings p ls).2.sessionSettings =
      some ⟨some d, some ml, some cw, some ai, some ty⟩) ∧
    ((p.darkMode = none → (getSessionSettings (saveSessionSettings p ls).2).darkMode =
        (getSessionSettings ls).darkMode) ∧
     (p.messageLimit = none → (getSessionSettings (saveSessionSettings p ls).2).messageLimit =
        (getSessionSettings ls).messageLimit) ∧
     (p.contextWindowSize = none →
        (getSessionSettings (saveSessionSettings p ls).2).contextWindowSize =
        (getSessionSettings ls).contextWindowSize) ∧
     (p.aiPersonality = none → (getSessionSettings (saveSessionSettings p ls).2).aiPersonality =
        (getSessionSettings ls).aiPersonality) ∧
     (p.typingSpeed = none → (getSessionSettings (saveSessionSettings p ls).2).typingSpeed =
        (getSessionSettings ls).typingSpeed)) ∧
    ((∀ v, p.darkMode = some v →
        (getSessionSettings (saveSessionSettings p ls).2).darkMode = v) ∧
     (∀ v, p.messageLimit = some v →
        (getSessionSettings (saveSessionSettings p ls).2).messageLimit = viaJsonNumber v) ∧
     (∀ v, p.contextWindowSize = some v →
        (getSessionSettings (saveSessionSettings p ls).2).contextWindowSize = viaJsonNumber v) ∧
     (∀ v, p.aiPersonality = some v →
        (getSessionSettings (saveSessionSettings p ls).2).aiPersonality = v) ∧
     (∀ v, p.typingSpeed = some v →
        (getSessionSettings (saveSessionSettings p ls).2).typingSpeed = viaJsonNumber v)) := by
  obtain ⟨hstore, hget⟩ := getSessionSettings_after_save p ls hw
  have hold := viaJson_getSessionSettings ls
  have hml : viaJsonNumber (getSessionSettings ls).messageLimit =
      (getSessionSettings ls).messageLimit := congrArg Settings.messageLimit hold
  have hcw : viaJsonNumber (getSessionSettings ls).contextWindowSize =
      (getSessionSettings ls).contextWindowSize := congrArg Settings.contextWindowSize hold
  have hty : viaJsonNumber (getSessionSettings ls).typingSpeed =
      (getSessionSettings ls).typingSpeed := congrArg Settings.typingSpeed hold
  have hexact : jsonHolds p.messageLimit = true → jsonHolds p.contextWindowSize = true →
      jsonHolds p.typingSpeed = true →
      getSessionSettings (saveSessionSettings p ls).2 =
        spreadSettings (getSessionSettings ls) p := by
    intro h1 h2 h3
    rw [hget]
    have e1 : viaJsonNumber (p.messageLimit.getD (getSessionSettings ls).messageLimit) =
        p.messageLimit.getD (getSessionSettings ls).messageLimit := by
      cases hv : p.messageLimit with
      | none => simpa using hml
      | some v => rw [hv] at h1; simpa [jsonHolds] using h1
    have e2 : viaJsonNumber (p.contextWindowSize.getD (getSessionSettings ls).contextWindowSize) =
        p.contextWindowSize.getD (getSessionSettings ls).contextWindowSize := by
      cases hv : p.contextWindowSize with
      | none => simpa using hcw
      | some v => rw [hv] at h2; simpa [jsonHolds] using h2
    have e3 : viaJsonNumber (p.typingSpeed.getD (getSessionSettings ls).typingSpeed) =
        p.typingSpeed.getD (getSessionSettings ls).typingSpeed := by
      cases hv : p.typingSpeed with
      | none => simpa using hty
      | some v => rw [hv] at h3; simpa [jsonHolds] using h3
    simp only [viaJson, spreadSettings, e1, e2, e3]
  refine ⟨hget, ?_, ?_, ?_, ?_⟩
  · intro h1 h2 h3
    have he := hexact h1 h2 h3
    refine ⟨he, ?_, ?_⟩
    · intro s hs
      rw [he]
      simp [getSessionSettings, hs]
    · intro hs
      rw [he]
      simp [getSessionSettings, hs]
  · exact ⟨_, _, _, _, _, hstore⟩
  · rw [hget]
    refine ⟨?_, ?_, ?_, ?_, ?_⟩ <;> intro h <;> simp [viaJson, spreadSettings, h, hml, hcw, hty]
  · rw [hget]
    refine ⟨?_, ?_, ?_, ?_, ?_⟩ <;> intro v h <;> simp [viaJson, spreadSettings, h]

/-- C22 at a stored dark mode and a new personality with a new message limit. -/
theorem settings_merge_witness :
    getSessionSettings (saveSessionSettings
      { aiPersonality := some "logical", messageLimit := some 200 }
      { sessionSettings := some { darkMode := some true } }).2 =
      { darkMode := true, messageLimit := 200, contextWindowSize := 10,
        aiPersonality := "logical", typingSpeed := 50 } :=
  (((settings_merge { aiPersonality := some "logical", messageLimit := some 200 }
    { sessionSettings := some { darkMode := some true } } (by decide)).2.1
    (by decide) (by decide) (by decide)).2.1
    { darkMode := some true } rfl).trans (by decide)

/-- C23 (clear all).  For every store, after `clearAllConversationSessions()`
the registry is empty and the persisted pointer is absent, so that
`getConversationSessions()` returns `[]` and `getCurrentSession()` returns
`null`; the `CLEAR_ALL_CHAT_DATA` action does this to the store and returns a
state with an empty transcript, an empty session list and
`currentSessionId = null`. -/
theorem clear_all (clock : Clock) (st : AppState) (ls : LocalStorage) :
    (clearAllConversationSessions ls).1 = true ∧
    getConversationSessions (clearAllConversationSessions ls).2 = [] ∧
    getCurrentSession (clearAllConversationSessions ls).2 = none ∧
    (appReducer clock st .CLEAR_ALL_CHAT_DATA ls).2 = (clearAllConversationSessions ls).2 ∧
    getConversationSessions (appReducer clock st .CLEAR_ALL_CHAT_DATA ls).2 = [] ∧
    getCurrentSession (appReducer clock st .CLEAR_ALL_CHAT_DATA ls).2 = none ∧
    (appReducer clock st .CLEAR_ALL_CHAT_DATA ls).1.chatHistory = [] ∧
    (appReducer clock st .CLEAR_ALL_CHAT_DATA ls).1.sessionList = [] ∧
    (appReducer clock st .CLEAR_ALL_CHAT_DATA ls).1.currentSessionId = none :=
  ⟨rfl, rfl, rfl, rfl, rfl, rfl, rfl, rfl, rfl⟩

/-- C24 (messageCount invariant).  For every `sessionData`, with or without a
`messages` field, the record that `saveConversationSession` builds and writes has
`messageCount` equal to the length of its `messages`; hence, if every stored
session has `messageCount = length(messages)` before a save, every stored session
has it after the save, whether the write succeeds or not. -/
theorem message_count_invariant (clock : Clock) (sd : SessionData) (ls : LocalStorage) :
    (buildSession clock sd (getConversationSessions ls)).messageCount =
      (buildSession clock sd (getConversationSessions ls)).messages.length ∧
    (sd.messages = none →
      (buildSession clock sd (getConversationSessions ls)).messages = [] ∧
      (buildSession clock sd (getConversationSessions ls)).messageCount = 0) ∧
    ((∀ s ∈ getConversationSessions ls, s.messageCount = s.messages.length) →
      ∀ s ∈ getConversationSessions (saveConversationSession clock sd ls).2,
        s.messageCount = s.messages.length) := by
  have hbuild : (buildSession clock sd (getConversationSessions ls)).messageCount =
      (buildSession clock sd (getConversationSessions ls)).messages.length := by
    unfold buildSession
    cases sd.messages <;> rfl
  refine ⟨hbuild, ?_, ?_⟩
  · intro h
    simp [buildSession, h]
  · intro hall s hs
    by_cases hw : setItemThrows ls .CONVERSATION_SESSIONS = false
    · rw [save_sessions _ _ _ hw, sessions_with] at hs
      rcases mem_updateOrAdd _ _ _ (mem_keepLast50 _ _ hs) with h | h
      · rw [h]; exact hbuild
      · exact hall s h
    · have hw2 : setItemThrows ls .CONVERSATION_SESSIONS = true := by simpa using hw
      have hsame : (saveConversationSession clock sd ls).2 = ls := by
        simp [saveConversationSession, hw2]
      rw [hsame] at hs
      exact hall s hs

/-- C24 at a save without a `messages` field into a one-session registry. -/
theorem message_count_invariant_witness :
    (getConversationSessions (saveConversationSession ⟨9, "t9"⟩
      { id := some "s2", title := some "B" }
      { conversationSessions := some (
          [⟨"s1", "A", [⟨"user", "hi", "t1", none⟩], "t1", "t1", 1⟩]) }).2).all
      (fun s => s.messageCount == s.messages.length) = true := by
  rw [List.all_eq_true]
  intro s hs
  have h := (message_count_invariant ⟨9, "t9"⟩ { id := some "s2", title := some "B" }
    { conversationSessions := some (
        [⟨"s1", "A", [⟨"user", "hi", "t1", none⟩], "t1", "t1", 1⟩]) }).2.2 (by decide) s hs
  simpa using h


/-! ## Retention, personality, the duplicate test -/

/-- `ADD_MESSAGE` appends, whatever the settings say. -/
theorem add_messages_append (clock : Clock) (ls : LocalStorage) (ms : List Message) :
    ∀ st : AppState,
      (ms.foldl (fun s m => (appReducer clock s (.ADD_MESSAGE m) ls).1) st).chatHistory =
        st.chatHistory ++ ms := by
  induction ms with
  | nil => intro st; simp
  | cons m ms ih =>
    intro st
    simp only [List.foldl_cons]
    rw [ih]
    simp [appReducer]

set_option maxRecDepth 100000 in
/-- C25, the code at a failing input.  With the default settings
(`messageLimit = 100`), 101 `ADD_MESSAGE` actions from the initial state leave a
transcript of 101 messages, and the write-through step stores a chat history of
101 messages (and a session of 101 messages): nothing reads `messageLimit`. -/
theorem message_limit_not_enforced :
    (getSessionSettings {}).messageLimit = 100 ∧
    ((List.replicate 101 (⟨"user", "hi", "t1", none⟩ : Message)).foldl
      (fun s m => (appReducer ⟨1, "t1"⟩ s (.ADD_MESSAGE m) {}).1) initialState).chatHistory.length
      = 101 ∧
    (getChatHistory (writeThrough ⟨2, "t2"⟩
      ((List.replicate 101 (⟨"user", "hi", "t1", none⟩ : Message)).foldl
        (fun s m => (appReducer ⟨1, "t1"⟩ s (.ADD_MESSAGE m) {}).1) initialState) {}).2).length
      = 101 := by
  decide

/-- Whatever the mode held in the state, the body that `handleSubmit` posts has
the personality `"supportive"`. -/
theorem handleSubmit_personality (clock clockCatch : Clock) (gw : Gateway) (ib : InputBarState)
    (st : AppState) (ls : LocalStorage) (req : Request)
    (h : (handleSubmit clock clockCatch gw ib st ls).posted = some req) :
    req.personality = "supportive" := by
  unfold handleSubmit at h
  split at h
  · simp at h
  · simp only [sendToConner] at h
    split at h
    · simp at h
    · split at h <;>
        first
        | (simp only [Option.some.injEq] at h; rw [← h])
        | (split at h <;> simp only [Option.some.injEq] at h <;> rw [← h])

/-- C26, the code at a failing input.  The user selects the mode `reflective`
(`handleModeChange` puts it in the state and in the stored settings) and sends
`"hi"`: the body posted to the backend carries `personality = "supportive"`.
`handleSubmit` calls `sendToConner(userMessage, contextWindow)` without its third
argument, whose default is `'supportive'`. -/
theorem personality_not_forwarded :
    (handleModeChange ⟨1, "t1"⟩ "reflective" {} initialState {}).2.1.aiMode = "reflective" ∧
    (getSessionSettings (handleModeChange ⟨1, "t1"⟩ "reflective" {} initialState {}).2.2
      ).aiPersonality = "reflective" ∧
    (handleSubmit ⟨2, "t2"⟩ ⟨3, "t3"⟩
      ⟨some "https://backend", fun _ => .body true ⟨true, "hello", "t3", none⟩⟩
      { message := "hi" }
      (handleModeChange ⟨1, "t1"⟩ "reflective" {} initialState {}).2.1
      (handleModeChange ⟨1, "t1"⟩ "reflective" {} initialState {}).2.2).posted =
      some ⟨"hi", [], "supportive"⟩ := by
  decide


/-- C27, the claim as stated fails on the field `isError`.  The stored message
and the message of the transcript below agree in role, content and timestamp,
and the lists have the same length, yet the stored session does not match: the
comparison is on the JSON text of the whole message, which prints `isError`.
The write-through step then creates a second session. -/
theorem duplicate_match_counterexample :
    sameMessages [⟨"assistant", "sorry", "t1", some true⟩]
      ⟨"s1", "sorry", [⟨"assistant", "sorry", "t1", none⟩], "t1", "t1", 1⟩ = false ∧
    (getConversationSessions (writeThrough ⟨5, "t5"⟩
      { chatHistory := [⟨"assistant", "sorry", "t1", some true⟩] }
      { conversationSessions := some (
          [⟨"s1", "sorry", [⟨"assistant", "sorry", "t1", none⟩], "t1", "t1", 1⟩]) }).2).length
      = 2 := by
  decide

theorem message_eq_of_fields (m n : Message) (h1 : m.role = n.role) (h2 : m.content = n.content)
    (h3 : m.timestamp = n.timestamp) (h4 : m.isError = n.isError) : m = n := by
  cases m; cases n; simp_all

/-- C27 (duplicate match criterion), amended.  In the unbound write-through
step, whose search is `find` with the test `sameMessages`, a stored session
matches the active transcript exactly when both message lists have the same
length and the messages at every index agree in role, content, timestamp and
`isError` (present with the same value, or absent in both); that is, exactly when
the two lists are equal. -/
theorem duplicate_match_criterion (T : List Message) (s : Session) :
    (sameMessages T s = true ↔
      s.messages.length = T.length ∧
      ∀ (i : Nat) (m n : Message), s.messages.get? i = some m → T.get? i = some n →
        m.role = n.role ∧ m.content = n.content ∧ m.timestamp = n.timestamp ∧
        m.isError = n.isError) ∧
    (sameMessages T s = true ↔ s.messages = T) := by
  refine ⟨?_, sameMessages_iff T s⟩
  rw [sameMessages_iff]
  constructor
  · intro h
    subst h
    refine ⟨rfl, ?_⟩
    intro i m n hm hn
    rw [hm] at hn
    injection hn with hn
    subst hn
    exact ⟨rfl, rfl, rfl, rfl⟩
  · rintro ⟨hlen, hall⟩
    apply List.ext_get?
    intro i
    cases hm : s.messages.get? i with
    | none =>
      have hi : s.messages.length ≤ i := by
        rw [List.get?_eq_getElem?] at hm
        exact List.getElem?_eq_none_iff.1 hm
      rw [hlen] at hi
      symm
      rw [List.get?_eq_getElem?]
      exact List.getElem?_eq_none_iff.2 hi
    | some m =>
      have hi : i < s.messages.length := by
        rw [List.get?_eq_getElem?] at hm
        exact (List.getElem?_eq_some.1 hm).1
      rw [hlen] at hi
      have hn : T.get? i = some (T.get ⟨i, hi⟩) := List.get?_eq_get hi
      obtain ⟨h1, h2, h3, h4⟩ := hall i m _ hm hn
      rw [hn, message_eq_of_fields _ _ h1 h2 h3 h4]

/-- C27 amended, at a transcript read back from the store. -/
theorem duplicate_match_criterion_witness :
    sameMessages [⟨"user", "hi", "t1", none⟩, ⟨"assistant", "sorry", "t2", some true⟩]
      ⟨"s1", "hi", [⟨"user", "hi", "t1", none⟩, ⟨"assistant", "sorry", "t2", some true⟩],
        "t1", "t2", 2⟩ = true :=
  (duplicate_match_criterion
    [⟨"user", "hi", "t1", none⟩, ⟨"assistant", "sorry", "t2", some true⟩]
    ⟨"s1", "hi", [⟨"user", "hi", "t1", none⟩, ⟨"assistant", "sorry", "t2", some true⟩],
      "t1", "t2", 2⟩).2.2 rfl

/-! ## Unique ids, deleting the bound session, logging out -/

theorem map_id_set_findIndex (s : Session) :
    ∀ (xs : List Session) (k : Nat), findIndex (fun x => x.id == s.id) xs = some k →
      (xs.set k s).map (·.id) = xs.map (·.id) := by
  intro xs
  induction xs with
  | nil => intro k h; simp [findIndex] at h
  | cons x xs ih =>
    intro k h
    by_cases hx : (x.id == s.id) = true
    · simp [findIndex, hx] at h
      subst h
      have : x.id = s.id := by simpa using hx
      simp [List.set, this]
    · simp only [findIndex, hx, Bool.false_eq_true, if_false, Option.map_eq_some'] at h
      obtain ⟨j, hj, rfl⟩ := h
      simp [List.set, ih j hj]

theorem nodup_ids_updateOrAdd (xs : List Session) (s : Session)
    (hnd : (xs.map (·.id)).Nodup) : ((updateOrAdd xs s).map (·.id)).Nodup := by
  unfold updateOrAdd
  split
  · next k hk => rw [map_id_set_findIndex s xs k hk]; exact hnd
  · next hnone =>
    rw [findIndex_none] at hnone
    rw [List.map_append, List.map_cons, List.map_nil]
    apply List.Nodup.append hnd (List.nodup_singleton _)
    intro a ha hb
    rcases List.mem_map.1 ha with ⟨x, hx, rfl⟩
    have hxs := hnone x hx
    have : x.id = s.id := by simpa using hb
    simp [this] at hxs

/-- C28 (session ids stay unique).  If the ids of the stored sessions are
pairwise distinct, they are pairwise distinct after `saveConversationSession`
with any `sessionData` (with an id, without one, with an empty one) at any clock
reading, and after `deleteConversationSession` with any id, whether the write
succeeds or not. -/
theorem ids_stay_unique (clock : Clock) (sd : SessionData) (sessionId : String)
    (ls : LocalStorage) (hnd : ((getConversationSessions ls).map (·.id)).Nodup) :
    ((getConversationSessions (saveConversationSession clock sd ls).2).map (·.id)).Nodup ∧
    ((getConversationSessions (deleteConversationSession sessionId ls).2).map (·.id)).Nodup := by
  constructor
  · by_cases hw : setItemThrows ls .CONVERSATION_SESSIONS = false
    · rw [save_sessions _ _ _ hw, sessions_with, keepLast50_eq_drop]
      exact List.Nodup.sublist ((List.drop_sublist _ _).map _)
        (nodup_ids_updateOrAdd _ _ hnd)
    · have hw2 : setItemThrows ls .CONVERSATION_SESSIONS = true := by simpa using hw
      have hsame : (saveConversationSession clock sd ls).2 = ls := by
        simp [saveConversationSession, hw2]
      rw [hsame]; exact hnd
  · unfold deleteConversationSession
    simp only
    split
    · exact hnd
    · rw [sessions_with]
      exact List.Nodup.sublist ((List.filter_sublist _).map _) hnd

/-- C28 at a save whose generated id `session_5` is already stored. -/
theorem ids_stay_unique_witness :
    ((getConversationSessions (saveConversationSession ⟨5, "t5"⟩
      { messages := some [⟨"user", "hi", "t1", none⟩] }
      { conversationSessions := some ([⟨"session_5", "A", [], "t0", "t0", 0⟩,
          ⟨"s2", "B", [], "t1", "t1", 0⟩]) }).2).map (·.id)).Nodup :=
  (ids_stay_unique ⟨5, "t5"⟩ { messages := some [⟨"user", "hi", "t1", none⟩] } "s2"
    { conversationSessions := some ([⟨"session_5", "A", [], "t0", "t0", 0⟩,
        ⟨"s2", "B", [], "t1", "t1", 0⟩]) } (by decide)).1


/-- C29 (deleting the bound session does not unbind it).  Let the state be bound
to the non-empty id `i` with a non-empty transcript, and let the writes of the
session list succeed.  `deleteConversationSession(i)`, and `handleDeleteSession(i)`
around it, change neither `currentSessionId` nor the persisted pointer, and leave
no session with id `i`.  The next write-through step then stores the registry
left by the delete with one record more at its end (the cap trimming the front),
with id `i`, the transcript as messages, the title `"New Conversation"` and the
clock reading of that step as `createdAt`. -/
theorem delete_bound_session (c1 c2 : Clock) (i : String) (st : AppState) (ls : LocalStorage)
    (hb : st.currentSessionId = some i) (hi : i ≠ "") (hT : st.chatHistory ≠ [])
    (hw : setItemThrows ls .CONVERSATION_SESSIONS = false) :
    (handleDeleteSession c1 i st ls).1.currentSessionId = some i ∧
    (handleDeleteSession c1 i st ls).1.chatHistory = st.chatHistory ∧
    getCurrentSession (deleteConversationSession i ls).2 = getCurrentSession ls ∧
    getCurrentSession (handleDeleteSession c1 i st ls).2 = getCurrentSession ls ∧
    (∀ s ∈ getConversationSessions (handleDeleteSession c1 i st ls).2, s.id ≠ i) ∧
    ∃ S : Session,
      S.id = i ∧ S.title = "New Conversation" ∧ S.createdAt = c2.iso ∧
      S.messages = st.chatHistory ∧
      getConversationSessions (writeThrough c2 (handleDeleteSession c1 i st ls).1
          (handleDeleteSession c1 i st ls).2).2 =
        (getConversationSessions (handleDeleteSession c1 i st ls).2 ++ [S]).drop
          ((getConversationSessions (handleDeleteSession c1 i st ls).2).length + 1 - 50) ∧
      (getConversationSessions (writeThrough c2 (handleDeleteSession c1 i st ls).1
          (handleDeleteSession c1 i st ls).2).2).getLast? = some S := by
  have hcs : (handleDeleteSession c1 i st ls).1.currentSessionId = st.currentSessionId := rfl
  have hch : (handleDeleteSession c1 i st ls).1.chatHistory = st.chatHistory := rfl
  have hstore : (handleDeleteSession c1 i st ls).2 = (deleteConversationSession i ls).2 := rfl
  have hreg : getConversationSessions (deleteConversationSession i ls).2 =
      (getConversationSessions ls).filter (fun s => s.id != i) := by
    simp [deleteConversationSession, hw]
  have hptr : getCurrentSession (deleteConversationSession i ls).2 = getCurrentSession ls := by
    simp [deleteConversationSession, hw, getCurrentSession]
  have hnone : ∀ s ∈ getConversationSessions (deleteConversationSession i ls).2, s.id ≠ i := by
    intro s hs
    rw [hreg] at hs
    simpa using (List.mem_filter.1 hs).2
  have hw2 : setItemThrows (deleteConversationSession i ls).2 .CONVERSATION_SESSIONS = false := by
    simp [deleteConversationSession, hw]
  have hlen : (st.chatHistory.length == 0) = false := by
    cases h : st.chatHistory with
    | nil => exact absurd h hT
    | cons a as => rfl
  have hine : (i != "") = true := by simpa using hi
  have hid : sessionIdOf c2 ⟨some i, none, some st.chatHistory, none⟩ = i := by
    simp [sessionIdOf, hine]
  have hfindnone : (getConversationSessions (deleteConversationSession i ls).2).find?
      (fun s => s.id == i) = none := by
    rw [List.find?_eq_none]
    intro s hs
    simpa using hnone s hs
  generalize hS : buildSession c2 ⟨some i, none, some st.chatHistory, none⟩
    (getConversationSessions (deleteConversationSession i ls).2) = S
  have hSid : S.id = i := by rw [← hS]; exact hid
  have hStitle : S.title = "New Conversation" := by
    rw [← hS]
    simp [buildSession, hid, hfindnone, orChain]
  have hScreated : S.createdAt = c2.iso := by
    rw [← hS]
    simp [buildSession, hid, hfindnone, orChain]
  have hSmsg : S.messages = st.chatHistory := by rw [← hS]; rfl
  have hwt : getConversationSessions (writeThrough c2 (handleDeleteSession c1 i st ls).1
      (handleDeleteSession c1 i st ls).2).2 =
      keepLast50 (getConversationSessions (deleteConversationSession i ls).2 ++ [S]) := by
    rw [hstore]
    unfold writeThrough
    simp only [hch, hcs, hlen, hb, truthy, hine, Bool.false_eq_true, if_false, if_true]
    rw [save_sessions _ _ _ (by simpa using hw2), sessions_with, sessions_saveChatHistory, hS,
      updateOrAdd_fresh]
    intro x hx
    rw [hSid]
    exact hnone x hx
  refine ⟨by rw [hcs]; exact hb, hch, hptr, ?_, ?_, S, hSid, hStitle, hScreated,
    hSmsg, ?_, ?_⟩
  · rw [hstore]; exact hptr
  · rw [hstore]; exact hnone
  · rw [hwt, hstore, keepLast50_eq_drop]
    simp
  · rw [hwt]
    obtain ⟨ys, hys, _⟩ := keepLast50_append_last
      (getConversationSessions (deleteConversationSession i ls).2) S
    rw [hys]
    simp

/-- C29 at the deletion of the only session, to which the state is bound. -/
theorem delete_bound_session_witness :
    (getConversationSessions (writeThrough ⟨9, "t9"⟩
      (handleDeleteSession ⟨8, "t8"⟩ "s1"
        { chatHistory := [⟨"user", "hi", "t1", none⟩], currentSessionId := some "s1" }
        { conversationSessions := some (
            [⟨"s1", "My talk", [⟨"user", "hi", "t1", none⟩], "t1", "t1", 1⟩]) }).1
      (handleDeleteSession ⟨8, "t8"⟩ "s1"
        { chatHistory := [⟨"user", "hi", "t1", none⟩], currentSessionId := some "s1" }
        { conversationSessions := some (
            [⟨"s1", "My talk", [⟨"user", "hi", "t1", none⟩], "t1", "t1", 1⟩]) }).2).2).map
      (·.title) = ["New Conversation"] := by
  obtain ⟨_, _, _, _, _, S, _, htitle, _, _, h, _⟩ := delete_bound_session ⟨8, "t8"⟩ ⟨9, "t9"⟩
    "s1" { chatHistory := [⟨"user", "hi", "t1", none⟩], currentSessionId := some "s1" }
    { conversationSessions := some (
        [⟨"s1", "My talk", [⟨"user", "hi", "t1", none⟩], "t1", "t1", 1⟩]) }
    rfl (by decide) (by decide) (by decide)
  have hreg : getConversationSessions (handleDeleteSession ⟨8, "t8"⟩ "s1"
      { chatHistory := [⟨"user", "hi", "t1", none⟩], currentSessionId := some "s1" }
      { conversationSessions := some (
          [⟨"s1", "My talk", [⟨"user", "hi", "t1", none⟩], "t1", "t1", 1⟩]) }).2 = [] := by
    decide
  rw [h, hreg]
  simp [htitle]

/-- After `loadInitialData`, `user` is the stored account whenever one is stored,
whatever the current-user pointer. -/
theorem loadInitialData_user (clock : Clock) (st : AppState) (ls : LocalStorage)
    (u : UserAccount) (hu : ls.userAccount = some u) :
    (loadInitialData clock st ls).1.user = some u := by
  unfold loadInitialData
  simp [getUserAccount, hu, appReducer]

/-- C30, the code at a failing input.  An account is stored and the user logs
out: `handleLogout` removes the current-user pointer and keeps the account, so
that `isUserLoggedIn()` is false.  On the next load, `initializeApp` leaves
`user = null`, but `loadInitialData` dispatches `SET_USER` with the stored account
without asking `isUserLoggedIn()`: after the two effects, in either order, `user`
is the stored account. -/
theorem logout_undone_by_reload :
    (handleLogout ⟨1, "t1"⟩ { user := some ⟨"Ann", "ann@example.org", some "pw", "2024"⟩ }
      { userAccount := some ⟨"Ann", "ann@example.org", some "pw", "2024"⟩,
        currentUser := some "ann@example.org" }) =
      (initialState, { userAccount := some ⟨"Ann", "ann@example.org", some "pw", "2024"⟩ }) ∧
    isUserLoggedIn { userAccount := some ⟨"Ann", "ann@example.org", some "pw", "2024"⟩ } = false ∧
    (initializeApp ⟨2, "t2"⟩ initialState
      { userAccount := some ⟨"Ann", "ann@example.org", some "pw", "2024"⟩ }).1.user = none ∧
    (loadInitialData ⟨2, "t2"⟩
      (initializeApp ⟨2, "t2"⟩ initialState
        { userAccount := some ⟨"Ann", "ann@example.org", some "pw", "2024"⟩ }).1
      { userAccount := some ⟨"Ann", "ann@example.org", some "pw", "2024"⟩ }).1.user =
      some ⟨"Ann", "ann@example.org", some "pw", "2024"⟩ ∧
    (initializeApp ⟨2, "t2"⟩
      (loadInitialData ⟨2, "t2"⟩ initialState
        { userAccount := some ⟨"Ann", "ann@example.org", some "pw", "2024"⟩ }).1
      { userAccount := some ⟨"Ann", "ann@example.org", some "pw", "2024"⟩ }).1.user =
      some ⟨"Ann", "ann@example.org", some "pw", "2024"⟩ := by
  decide


end Conner
